import Mathlib

/-!
Verification development for the devstats reconciliation engine (`ghapi.go`).

The Go source is shallowly embedded: pure helpers become Lean functions, the
database becomes an explicit `Store` value, each SQL statement the writers
issue becomes a `Stmt` value, and every Go panic source (nil-pointer
dereference, out-of-range index, scanning SQL NULL into a non-nullable
variable) becomes an `Except RunFail` error.  Go `int64` arithmetic that can
overflow is modelled with an explicit wraparound at `2 ^ 64`.
-/

namespace Devstats

/-- Model of the source helper `ToYMDHMSDate`.  Wall-clock instants are
modelled throughout as `Nat` nanoseconds since the epoch: a Go `time.Time`
carries second and nanosecond components and its comparison coincides with
comparison of the total nanosecond count, which formats an instant as the
fixed-width string `YYYY-MM-DD HH:MM:SS`.  For instants in the supported year
range that formatting is injective and monotone in the number of whole
seconds, so the formatted string is modelled by that number: equality and
ascending lexicographic order of the strings coincide with equality and
ascending order of these values. -/
def ToYMDHMSDate (t : Nat) : Nat := t / 1000000000

/-- The synthetic-id offset `281474976710656` (2^48) used by both writers. -/
def p48 : Int := 281474976710656

/-- Signed 64-bit wraparound, modelling Go `int64` overflow semantics. -/
def wrap64 (x : Int) : Int := (x + 2 ^ 63) % 2 ^ 64 - 2 ^ 63

/-- A Go `int64` addition such as `281474976710656 + eid`. -/
def int64add (a b : Int) : Int := wrap64 (a + b)

/-- The `github.User` fields this engine reads (both are pointers in Go). -/
structure GhUser where
  ID : Option Int
  Login : Option String
deriving DecidableEq

/-- The `github.Milestone` fields this engine reads for behaviour.  The other
milestone columns written by `ghMilestone` are write-only (never read back by
any code path of this file), so they do not influence any modelled state. -/
structure GhMilestone where
  ID : Option Int
  Creator : Option GhUser
deriving DecidableEq

/-- The `github.Issue` fields read by the engine; every field is a pointer in
Go and hence an `Option` here, except the `Assignees` slice. -/
structure GhIssue where
  ID : Option Int
  Number : Option Int
  State : Option String
  Title : Option String
  Body : Option String
  Locked : Option Bool
  Comments : Option Int
  CreatedAt : Option Nat
  ClosedAt : Option Nat
  Milestone : Option GhMilestone
  Assignee : Option GhUser
  User : Option GhUser
  Assignees : List (Option GhUser)
  PullRequestLinks : Option Unit
deriving DecidableEq

/-- Model of `issue.IsPullRequest()`: whether `PullRequestLinks` is set. -/
def GhIssue.IsPullRequest (i : GhIssue) : Bool := i.PullRequestLinks.isSome

/-- The `github.IssueEvent` field read by the engine. -/
structure GhIssueEvent where
  Actor : Option GhUser
deriving DecidableEq

/-- The `github.PullRequest` fields read by the engine.  `Base` and `Head`
model the nested branch objects by their `SHA` pointer only, which is the only
field the writer reads from them. -/
structure GhPullRequest where
  ID : Option Int
  Number : Option Int
  State : Option String
  Title : Option String
  Body : Option String
  CreatedAt : Option Nat
  UpdatedAt : Option Nat
  ClosedAt : Option Nat
  MergedAt : Option Nat
  Merged : Option Bool
  Mergeable : Option Bool
  MergeableState : Option String
  Comments : Option Int
  MaintainerCanModify : Option Bool
  Commits : Option Int
  Additions : Option Int
  Deletions : Option Int
  ChangedFiles : Option Int
  MergeCommitSHA : Option String
  Base : Option (Option String)
  Head : Option (Option String)
  User : Option GhUser
  MergedBy : Option GhUser
  Assignee : Option GhUser
  Milestone : Option GhMilestone
  Assignees : List (Option GhUser)
  RequestedReviewers : List (Option GhUser)
deriving DecidableEq

/-- The source structure `IssueConfig`.  `GhIssue` and `GhEvent` are pointers
in Go; every code path relevant to the claims dereferences their fields, so
they are embedded directly while each of their own nullable fields stays an
`Option`.  The Go maps `LabelsMap` and `AssigneesMap` become association
lists; the source only iterates them to emit rows that SQL later re-sorts, or
uses their key sets, so the list order never influences observable state. -/
structure IssueConfig where
  Repo : String
  Number : Int
  IssueID : Int
  Pr : Bool
  MilestoneID : Option Int
  Labels : String
  LabelsMap : List (Int × String)
  GhIssue : GhIssue
  CreatedAt : Nat
  EventID : Int
  EventType : String
  GhEvent : GhIssueEvent
  AssigneeID : Option Int
  Assignees : String
  AssigneesMap : List (Int × String)
deriving DecidableEq

/-- The configuration fields this engine reads.  `hidden` is the hide-set that
the source loads through `GetHidden HideCfgFile` (an external collaborator);
it is carried here as data. -/
structure Ctx where
  SkipPDB : Bool
  Debug : Int
  hidden : List String
deriving DecidableEq

/-- Placeholder login stored for redacted users; opaque to every claim. -/
def anonLogin : String := "anon-1"

/-- Modelled from the spec: the redaction mapper of section 4.8
(`MaybeHideFunc`, defined outside this repository slice) maps a login in the
hide-set to a fixed placeholder and leaves any other login unchanged. -/
def MaybeHideFunc (hide : List String) (login : String) : String :=
  if login ∈ hide then anonLogin else login

/-! ### Error classifier (`HandlePossibleError`) -/

/-- A remote-call error as the classifier distinguishes them: the two typed
errors of the GitHub client, or any other error carrying only its text. -/
inductive GhApiErr where
  | rateLimitError (text : String)
  | abuseRateLimitError (text : String)
  | otherError (text : String)
deriving DecidableEq

/-- Outcome of `HandlePossibleError`: either a signal string returned to the
caller, or process termination via `os.Exit`. -/
inductive HPEResult where
  | signal (s : String)
  | exited (code : Nat)
deriving DecidableEq

def strEmpty : String := ""

def strRate : String := "rate"

/-- Modelled from the spec: the constant `Abuse` (defined outside this
repository slice) is the abuse-throttle signal string. -/
def Abuse : String := "abuse"

/-- Modelled from the spec: the constant `NotFound` (defined outside this
repository slice) is the not-found signal string. -/
def NotFound : String := "not-found"

def notFoundText : String := "404 Not Found"

/-- Whether `pat` is a prefix of the character list. -/
def charsStartWith : List Char → List Char → Bool
  | [], _ => true
  | _ :: _, [] => false
  | a :: as, b :: bs => a == b && charsStartWith as bs

/-- Whether `pat` occurs as a contiguous sublist of the character list. -/
def charsHave (pat : List Char) : List Char → Bool
  | [] => charsStartWith pat []
  | b :: bs => charsStartWith pat (b :: bs) || charsHave pat bs

/-- Model of `strings.Contains t pat`. -/
def strHas (t pat : String) : Bool := charsHave pat.data t.data

/-- The source function `HandlePossibleError` (ghapi.go lines 152-176): a nil
error yields the empty signal; a typed rate-limit or abuse error returns its
signal before the body text is inspected; any other error whose text contains
`404 Not Found` yields the not-found signal; every remaining error is logged
and the process exits with status 0. -/
def HandlePossibleError : Option GhApiErr → HPEResult
  | none => .signal strEmpty
  | some e =>
    match e with
    | .rateLimitError _ => .signal strRate
    | .abuseRateLimitError _ => .signal Abuse
    | .otherError t =>
      if strHas t notFoundText then .signal NotFound
      else .exited 0

/-! ### Candidate ordering and non-manual normalisation -/

/-- The comparison `IssueConfigAry.Less` (ghapi.go lines 102-110): by issue
id, then creation instant, then event id. -/
def icLess (a b : IssueConfig) : Bool :=
  if a.IssueID ≠ b.IssueID then decide (a.IssueID < b.IssueID)
  else if a.CreatedAt ≠ b.CreatedAt then decide (a.CreatedAt < b.CreatedAt)
  else decide (a.EventID < b.EventID)

/-- The non-strict total preorder induced by `icLess`; a list is sorted in the
sense of Go `sort.Sort` exactly when consecutive elements satisfy it. -/
def icLE (a b : IssueConfig) : Prop :=
  a.IssueID < b.IssueID ∨ (a.IssueID = b.IssueID ∧
    (a.CreatedAt < b.CreatedAt ∨ (a.CreatedAt = b.CreatedAt ∧ a.EventID ≤ b.EventID)))

instance : DecidableRel icLE := fun a b => by unfold icLE; infer_instance

instance : IsTotal IssueConfig icLE := by
  constructor; intro a b; unfold icLE; omega

instance : IsTrans IssueConfig icLE := by
  constructor; intro a b c hab hbc; unfold icLE at hab hbc ⊢; omega

/-- Sanity check: `icLE` is exactly the complement of the strict source
comparison `icLess` with its arguments swapped. -/
theorem icLE_iff_not_icLess (a b : IssueConfig) : icLE a b ↔ icLess b a = false := by
  unfold icLE icLess
  by_cases h1 : b.IssueID = a.IssueID <;>
    by_cases h2 : b.CreatedAt = a.CreatedAt <;>
      simp [h1, h2, decide_eq_false_iff_not] <;> omega

/-- The second key of a candidate: the `YYYY-MM-DD HH:MM:SS` form of its
observation instant. -/
def secKey (c : IssueConfig) : Nat := ToYMDHMSDate c.CreatedAt

/-- A candidate list ordered as by `sort.Sort (IssueConfigAry ...)`.  Go
`sort.Sort` is unstable and only guarantees some permutation ordered by the
comparison; `insertionSort` is one such permutation. -/
def sortedCandidates (l : List IssueConfig) : List IssueConfig := List.insertionSort icLE l

/-- The non-manual normalisation of one issue-id bucket (ghapi.go lines
833-857): sort by (issue id, instant, event id); insert every candidate into a
map keyed by the second string of its instant, later entries overwriting
earlier ones; collect the keys, sort them, and emit the surviving map entry
per key.  The map built by last-wins insertion in iteration order is modelled
by taking the last matching element of the sorted list for each key, and the
string sort of the keys by the ascending sort of the distinct second values
(the fixed-width format makes the two orders agree). -/
def collapse (l : List IssueConfig) : List IssueConfig :=
  let srt := sortedCandidates l
  let sdts := List.insertionSort (fun a b => a ≤ b) (srt.map secKey).dedup
  sdts.filterMap (fun s => (srt.filter (fun c => secKey c == s)).getLast?)

/-! ### The store: the relational state this engine reads and writes

Every table is modelled by the columns the engine later reads back (the probe
select lists, the aggregation subqueries and the insert-if-absent conflict
keys).  The remaining denormalised columns are write-only in this file: no
code path reads them, so they cannot influence any behaviour or any claim. -/

/-- A `gha_issues` row: the probe select list (milestone_id, event_id,
closed_at, state, title, locked, assignee_id), the keys (id, event_id) and the
filter column updated_at, plus number and user_id. -/
structure GhIssueRow where
  id : Int
  event_id : Int
  updated_at : Option Nat
  assignee_id : Option Int
  closed_at : Option Nat
  locked : Option Bool
  milestone_id : Option Int
  number : Option Int
  state : Option String
  title : Option String
  user_id : Option Int
deriving DecidableEq

/-- A `gha_pull_requests` row: the probe select list plus keys and filter
columns. -/
structure GhPullRequestRow where
  id : Int
  event_id : Int
  updated_at : Option Nat
  assignee_id : Option Int
  closed_at : Option Nat
  merged : Option Bool
  merged_at : Option Nat
  merged_by_id : Option Int
  milestone_id : Option Int
  number : Option Int
  state : Option String
  title : Option String
  user_id : Option Int
deriving DecidableEq

/-- A `gha_payloads` row: conflict key event_id plus the back-references the
PR writer updates. -/
structure GhPayloadRow where
  event_id : Int
  issue_id : Int
  pull_request_id : Option Int
  number : Option Int
deriving DecidableEq

/-- A `gha_events` row: conflict key id plus type, actor and instant. -/
structure GhEventRow where
  id : Int
  etype : String
  actor_id : Option Int
  created_at : Nat
deriving DecidableEq

/-- A `gha_actors` row: conflict key id plus the stored login. -/
structure ActorRow where
  id : Option Int
  login : String
deriving DecidableEq

/-- A `gha_milestones` row: conflict key (id, event_id) plus the creator
reference. -/
structure MilestoneRow where
  id : Option Int
  event_id : Int
  creator_id : Option Int
deriving DecidableEq

/-- A `gha_issues_labels` row. -/
structure IssueLabelRow where
  issue_id : Int
  event_id : Int
  label_id : Int
  label_name : String
deriving DecidableEq

/-- A `gha_issues_assignees` row. -/
structure IssueAssigneeRow where
  issue_id : Int
  event_id : Int
  assignee_id : Int
deriving DecidableEq

/-- A `gha_pull_requests_assignees` row. -/
structure PRAssigneeRow where
  pull_request_id : Int
  event_id : Int
  assignee_id : Option Int
deriving DecidableEq

/-- A `gha_pull_requests_requested_reviewers` row. -/
structure PRReviewerRow where
  pull_request_id : Int
  event_id : Int
  requested_reviewer_id : Option Int
deriving DecidableEq

/-- The relational store. -/
structure Store where
  issues : List GhIssueRow
  pulls : List GhPullRequestRow
  events : List GhEventRow
  payloads : List GhPayloadRow
  actors : List ActorRow
  milestones : List MilestoneRow
  issueLabels : List IssueLabelRow
  issueAssignees : List IssueAssigneeRow
  prAssignees : List PRAssigneeRow
  prReviewers : List PRReviewerRow
deriving DecidableEq

/-- One database statement issued by a writer, or the skip-write log line. -/
inductive Stmt where
  | logSkip
  | insertActor (id : Option Int) (login : String)
  | insertMilestone (id : Option Int) (event_id : Int) (creator_id : Option Int)
      (creator_login : Option String)
  | insertIssue (row : GhIssueRow)
  | insertPullRequest (row : GhPullRequestRow)
  | insertEvent (id : Int) (etype : String) (actor_id : Option Int) (created_at : Nat)
  | insertPayload (row : GhPayloadRow)
  | updatePayloadPRID (prid : Int) (iid : Int) (event_id : Int)
  | insertIssueLabel (issue_id : Int) (event_id : Int) (label_id : Int) (label_name : String)
  | insertIssueAssignee (issue_id : Int) (event_id : Int) (assignee_id : Int)
  | insertPRAssignee (pull_request_id : Int) (event_id : Int) (assignee_id : Option Int)
  | insertPRReviewer (pull_request_id : Int) (event_id : Int)
      (requested_reviewer_id : Option Int)
deriving DecidableEq

/-- Effect of one statement on the store.  `InsertIgnore` statements
(actors, milestones, events, payloads) append only when no row with the same
conflict key exists; the snapshot and join inserts are plain inserts and
always append; the payload update rewrites matching rows in place. -/
def applyStmt (s : Store) : Stmt → Store
  | .logSkip => s
  | .insertActor i login =>
      if s.actors.any (fun a => a.id == i) then s
      else { s with actors := s.actors ++ [⟨i, login⟩] }
  | .insertMilestone i eid cid _clogin =>
      if s.milestones.any (fun m => m.id == i && m.event_id == eid) then s
      else { s with milestones := s.milestones ++ [⟨i, eid, cid⟩] }
  | .insertIssue r => { s with issues := s.issues ++ [r] }
  | .insertPullRequest r => { s with pulls := s.pulls ++ [r] }
  | .insertEvent i ty aid cat =>
      if s.events.any (fun e => e.id == i) then s
      else { s with events := s.events ++ [⟨i, ty, aid, cat⟩] }
  | .insertPayload r =>
      if s.payloads.any (fun p => p.event_id == r.event_id) then s
      else { s with payloads := s.payloads ++ [r] }
  | .updatePayloadPRID prid iid eid =>
      { s with payloads := s.payloads.map (fun p =>
          if p.issue_id == iid && p.event_id == eid then
            { p with pull_request_id := some prid } else p) }
  | .insertIssueLabel iid eid lid name =>
      { s with issueLabels := s.issueLabels ++ [⟨iid, eid, lid, name⟩] }
  | .insertIssueAssignee iid eid aid =>
      { s with issueAssignees := s.issueAssignees ++ [⟨iid, eid, aid⟩] }
  | .insertPRAssignee pid eid aid =>
      { s with prAssignees := s.prAssignees ++ [⟨pid, eid, aid⟩] }
  | .insertPRReviewer pid eid rid =>
      { s with prReviewers := s.prReviewers ++ [⟨pid, eid, rid⟩] }

def applyStmts (s : Store) (l : List Stmt) : Store := l.foldl applyStmt s

/-! ### Writers (`ghActor`, `ghMilestone`, `ArtificialEvent`,
`ArtificialPREvent`) as statement traces -/

/-- The Go panic sources of this engine. -/
inductive RunFail where
  | nilDeref
  | indexOutOfRange
  | scanNull
deriving DecidableEq

/-- Dereference of a Go pointer: nil panics. -/
def orFail {α : Type} : Option α → Except RunFail α
  | some a => .ok a
  | none => .error .nilDeref

/-- Scanning a nullable text column into a Go `string` fails on NULL. -/
def scanString : Option String → Except RunFail String
  | some s => .ok s
  | none => .error .scanNull

/-- Scanning a nullable boolean column into a Go `bool` fails on NULL. -/
def scanBool : Option Bool → Except RunFail Bool
  | some b => .ok b
  | none => .error .scanNull

/-- The source helper `ghActorIDOrNil`. -/
def ghActorIDOrNil (actPtr : Option GhUser) : Option Int := actPtr.bind GhUser.ID

/-- The source helper `ghActorLoginOrNil`. -/
def ghActorLoginOrNil (actPtr : Option GhUser) (maybeHide : String → String) :
    Option String :=
  match actPtr with
  | none => none
  | some a =>
    match a.Login with
    | none => none
    | some l => some (maybeHide l)

/-- The source helper `ghMilestoneIDOrNil`. -/
def ghMilestoneIDOrNil (milPtr : Option GhMilestone) : Option Int :=
  milPtr.bind GhMilestone.ID

/-- The source function `ghActor` (lines 202-213): a nil actor or a nil login
inserts nothing; otherwise one insert-if-absent into `gha_actors` with the
possibly redacted login. -/
def ghActor (actor : Option GhUser) (maybeHide : String → String) : List Stmt :=
  match actor with
  | none => []
  | some a =>
    match a.Login with
    | none => []
    | some l => [.insertActor a.ID (maybeHide l)]

/-- The source function `ghMilestone` (lines 216-279): it reads
`ic.GhIssue.Milestone` and dereferences `ev.Actor` and `*ev.Actor.Login`
without nil checks, then issues one insert-if-absent into `gha_milestones`
keyed on `(ic.MilestoneID, eid)`. -/
def ghMilestone (eid : Int) (cfg : IssueConfig) (maybeHide : String → String) :
    Except RunFail (List Stmt) := do
  let milestone ← orFail cfg.GhIssue.Milestone
  let actor ← orFail cfg.GhEvent.Actor
  let _ ← orFail actor.Login
  pure [Stmt.insertMilestone cfg.MilestoneID eid (ghActorIDOrNil milestone.Creator)
      (ghActorLoginOrNil milestone.Creator maybeHide)]

/-- The source function `ArtificialEvent` (lines 577-818) as the ordered list
of statements it issues inside one transaction.  With the skip-write flag set
it issues nothing and logs only at debug verbosity above zero.  Otherwise:
actor upserts (assignee, user, each slice assignee, milestone creator), the
`gha_issues` snapshot insert, the milestone upsert when a milestone is
attached, the event insert, the payload insert, the label join rows, the
assignee join rows. -/
def ArtificialEvent (ctx : Ctx) (cfg : IssueConfig) : Except RunFail (List Stmt) :=
  if ctx.SkipPDB then
    .ok (if ctx.Debug > 0 then [Stmt.logSkip] else [])
  else
    let maybeHide := MaybeHideFunc ctx.hidden
    let eid := cfg.EventID
    let iid := cfg.IssueID
    let issue := cfg.GhIssue
    let event := cfg.GhEvent
    let eventID := int64add p48 eid
    let now := cfg.CreatedAt
    let actorStmts :=
      ghActor issue.Assignee maybeHide ++ ghActor issue.User maybeHide ++
      issue.Assignees.foldr (fun a acc => ghActor a maybeHide ++ acc) [] ++
      (match issue.Milestone with
        | some m => ghActor m.Creator maybeHide
        | none => [])
    let issueRow : GhIssueRow :=
      { id := iid, event_id := eventID,
        updated_at := some now,
        assignee_id := ghActorIDOrNil issue.Assignee,
        closed_at := issue.ClosedAt,
        locked := issue.Locked,
        milestone_id := ghMilestoneIDOrNil issue.Milestone,
        number := issue.Number,
        state := issue.State,
        title := issue.Title,
        user_id := ghActorIDOrNil issue.User }
    do
      let milestoneStmts ←
        match issue.Milestone with
        | some _ => ghMilestone eventID cfg maybeHide
        | none => pure []
      let labelStmts := cfg.LabelsMap.map (fun p => Stmt.insertIssueLabel iid eventID p.1 p.2)
      let assigneeStmts :=
        cfg.AssigneesMap.map (fun p => Stmt.insertIssueAssignee iid eventID p.1)
      pure (actorStmts ++ [Stmt.insertIssue issueRow] ++ milestoneStmts ++
        [Stmt.insertEvent eventID cfg.EventType (ghActorIDOrNil event.Actor) now] ++
        [Stmt.insertPayload ⟨eventID, iid, none, issue.Number⟩] ++
        labelStmts ++ assigneeStmts)

/-- The source function `ArtificialPREvent` (lines 304-574) as the ordered
list of statements it issues inside one transaction.  It dereferences
`*issue.ID` up front, `*pr.ID` after the milestone step, and the event actor
inside the snapshot insert.  Order: user actor upsert, merged-by and assignee
actor upserts, milestone upsert, the `gha_pull_requests` snapshot insert, the
event insert, the payload insert, the payload update, then per-element
assignee join rows and reviewer join rows, each preceded by its own actor
upsert. -/
def ArtificialPREvent (ctx : Ctx) (cfg : IssueConfig) (pr : GhPullRequest) :
    Except RunFail (List Stmt) :=
  if ctx.SkipPDB then
    .ok (if ctx.Debug > 0 then [Stmt.logSkip] else [])
  else do
    let maybeHide := MaybeHideFunc ctx.hidden
    let eventID := int64add p48 cfg.EventID
    let eCreatedAt := cfg.CreatedAt
    let issue := cfg.GhIssue
    let iid ← orFail issue.ID
    let actor := cfg.GhEvent.Actor
    let userStmts := ghActor pr.User maybeHide
    let mergedByStmts :=
      match pr.MergedBy with
      | some _ => ghActor pr.MergedBy maybeHide
      | none => []
    let assigneeStmts :=
      match pr.Assignee with
      | some _ => ghActor pr.Assignee maybeHide
      | none => []
    let milestoneStmts ←
      match pr.Milestone with
      | some _ => ghMilestone eventID cfg maybeHide
      | none => pure []
    let prid ← orFail pr.ID
    let _ ← orFail actor
    let prRow : GhPullRequestRow :=
      { id := prid, event_id := eventID,
        updated_at := pr.UpdatedAt,
        assignee_id := ghActorIDOrNil pr.Assignee,
        closed_at := pr.ClosedAt,
        merged := pr.Merged,
        merged_at := pr.MergedAt,
        merged_by_id := ghActorIDOrNil pr.MergedBy,
        milestone_id := ghMilestoneIDOrNil pr.Milestone,
        number := pr.Number,
        state := pr.State,
        title := pr.Title,
        user_id := ghActorIDOrNil pr.User }
    let assigneeJoinStmts := pr.Assignees.foldr (fun a acc =>
      (match a with
        | none => []
        | some u => ghActor (some u) maybeHide ++ [Stmt.insertPRAssignee prid eventID u.ID]) ++
      acc) []
    let reviewerJoinStmts := pr.RequestedReviewers.foldr (fun a acc =>
      (match a with
        | none => []
        | some u => ghActor (some u) maybeHide ++ [Stmt.insertPRReviewer prid eventID u.ID]) ++
      acc) []
    pure (userStmts ++ mergedByStmts ++ assigneeStmts ++ milestoneStmts ++
      [Stmt.insertPullRequest prRow] ++
      [Stmt.insertEvent eventID cfg.EventType (ghActorIDOrNil actor) eCreatedAt] ++
      [Stmt.insertPayload ⟨eventID, iid, some prid, issue.Number⟩] ++
      [Stmt.updatePayloadPRID prid iid eventID] ++
      assigneeJoinStmts ++ reviewerJoinStmts)

/-! ### Storage probes, aggregation queries and divergence detection -/

/-- Strict comparison of `(updated_at, event_id)` keys in the sense of the
probe ordering `ORDER BY updated_at DESC, event_id DESC LIMIT 1`: the pair
`(u1, e1)` sorts strictly earlier (is strictly smaller) than `(u2, e2)`.
PostgreSQL places NULL first under DESC, so a NULL `updated_at` sorts as
latest. -/
def rowKeyLt (u1 : Option Nat) (e1 : Int) (u2 : Option Nat) (e2 : Int) : Bool :=
  match u1, u2 with
  | none, none => decide (e1 < e2)
  | none, some _ => false
  | some _, none => true
  | some a, some b => decide (a < b) || (a == b && decide (e1 < e2))

/-- The row a `LIMIT 1` query under the probe ordering returns: a maximal row
of the filtered list under `rowKeyLt` (the first such row when keys tie). -/
def pickLatest {ρ : Type} (upd : ρ → Option Nat) (eid : ρ → Int) (rows : List ρ) :
    Option ρ :=
  rows.foldl (fun acc r =>
    match acc with
    | none => some r
    | some m => if rowKeyLt (upd m) (eid m) (upd r) (eid r) then some r else some m) none

/-- The issue-phase probe (lines 924-951): in manual mode the latest
`gha_issues` row for the issue id; otherwise the latest row for the issue id
at the exact observation instant. -/
def issueProbe (s : Store) (manual : Bool) (iid : Int) (t : Nat) : Option GhIssueRow :=
  pickLatest GhIssueRow.updated_at GhIssueRow.event_id
    (s.issues.filter (fun r =>
      if manual then r.id == iid else r.id == iid && r.updated_at == some t))

/-- The PR-phase probe (lines 1329-1358), same shape over `gha_pull_requests`. -/
def prProbe (s : Store) (manual : Bool) (prid : Int) (t : Nat) : Option GhPullRequestRow :=
  pickLatest GhPullRequestRow.updated_at GhPullRequestRow.event_id
    (s.pulls.filter (fun r =>
      if manual then r.id == prid else r.id == prid && r.updated_at == some t))

def sortInts (l : List Int) : List Int := List.insertionSort (fun a b => a ≤ b) l

def strComma : String := ","

def commaJoin (l : List Int) : String :=
  String.intercalate strComma (l.map (fun i => toString i))

/-- The aggregation `select coalesce(string_agg(label_id::text, (comma)), ...)
ordered by label_id` over `gha_issues_labels` for one event id. -/
def aggIssueLabels (s : Store) (eid : Int) : String :=
  commaJoin (sortInts ((s.issueLabels.filter (fun r => r.event_id == eid)).map
    IssueLabelRow.label_id))

/-- Same aggregation over `gha_issues_assignees`. -/
def aggIssueAssignees (s : Store) (eid : Int) : String :=
  commaJoin (sortInts ((s.issueAssignees.filter (fun r => r.event_id == eid)).map
    IssueAssigneeRow.assignee_id))

/-- Same aggregation over `gha_pull_requests_assignees`; `string_agg` skips
NULL inputs. -/
def aggPRAssignees (s : Store) (eid : Int) : String :=
  commaJoin (sortInts (s.prAssignees.filterMap (fun r =>
    if r.event_id == eid then r.assignee_id else none)))

/-- Same aggregation over `gha_pull_requests_requested_reviewers`. -/
def aggPRReviewers (s : Store) (eid : Int) : String :=
  commaJoin (sortInts (s.prReviewers.filterMap (fun r =>
    if r.event_id == eid then r.requested_reviewer_id else none)))

/-- The three-valued divergence test on nullable integer columns: one side
NULL means changed, both NULL means unchanged, both present compare by value. -/
def optIntDiff (api gha : Option Int) : Bool :=
  match api, gha with
  | none, none => false
  | none, some _ => true
  | some _, none => true
  | some x, some y => x != y

/-- The divergence test on nullable timestamps, compared at second precision
through the `ToYMDHMSDate` formatting. -/
def optTimeDiff (api gha : Option Nat) : Bool :=
  match api, gha with
  | none, none => false
  | none, some _ => true
  | some _, none => true
  | some x, some y => ToYMDHMSDate x != ToYMDHMSDate y

/-- The divergence test on nullable booleans. -/
def optBoolDiff (api gha : Option Bool) : Bool :=
  match api, gha with
  | none, none => false
  | none, some _ => true
  | some _, none => true
  | some x, some y => x != y

/-! ### The per-candidate workers and the orchestrator `SyncIssuesState` -/

/-- One issue-phase worker body (lines 899-1205): dereference the remote
issue state, probe the store, and take one of the four outcomes
(0 new / 1 artificial exists / 2 unchanged / 3 divergence patched), applying
the writer statements in the writing outcomes. -/
def issueWorker (ctx : Ctx) (manual : Bool) (st : Store) (cfg : IssueConfig) :
    Except RunFail (Store × Nat) := do
  let apiMilestoneID := cfg.MilestoneID
  let apiClosedAt := cfg.GhIssue.ClosedAt
  let apiState ← orFail cfg.GhIssue.State
  let apiTitle ← orFail cfg.GhIssue.Title
  let apiLocked ← orFail cfg.GhIssue.Locked
  let apiAssigneeID := cfg.AssigneeID
  match issueProbe st manual cfg.IssueID cfg.CreatedAt with
  | none => do
      let stmts ← ArtificialEvent ctx cfg
      pure (applyStmts st stmts, 0)
  | some row => do
      let ghaState ← scanString row.state
      let ghaTitle ← scanString row.title
      let ghaLocked ← scanBool row.locked
      if !manual && decide (row.event_id > p48) then
        pure (st, 1)
      else
        let ghaLabels := aggIssueLabels st row.event_id
        let ghaAssignees := aggIssueAssignees st row.event_id
        let changedAnything :=
          optIntDiff apiMilestoneID row.milestone_id ||
          (apiState != ghaState) ||
          optTimeDiff apiClosedAt row.closed_at ||
          optIntDiff apiAssigneeID row.assignee_id ||
          (apiTitle != ghaTitle) ||
          (apiLocked != ghaLocked) ||
          (ghaLabels != cfg.Labels) ||
          (ghaAssignees != cfg.Assignees)
        if changedAnything then do
          let stmts ← ArtificialEvent ctx cfg
          pure (applyStmts st stmts, 3)
        else
          pure (st, 2)

/-- The canonical comma-joined ascending form the PR worker builds from a
slice of ids collected into a Go map (set semantics) and then sorted. -/
def canonSet (ids : List Int) : String := commaJoin (sortInts ids.dedup)

/-- The id collection loops of the PR worker (lines 1554-1556 and 1599-1601):
each slice element and its `ID` and `Login` pointers are dereferenced without
nil checks. -/
def collectIds (l : List (Option GhUser)) : Except RunFail (List Int) :=
  l.foldr (fun a acc => do
    let u ← orFail a
    let i ← orFail u.ID
    let _ ← orFail u.Login
    let rest ← acc
    pure (i :: rest)) (pure [])

/-- The collision-guard query of the PR worker (lines 1295-1314): whether a
`gha_pull_requests` row exists with the given PR id and synthetic event id but
a different (non-NULL) `updated_at`. -/
def prCollision (st : Store) (prid : Int) (eid : Int) (updatedAt : Nat) : Bool :=
  st.pulls.any (fun r =>
    r.id == prid && r.event_id == eid &&
    (match r.updated_at with
      | some u => u != updatedAt
      | none => false))

/-- One PR-phase worker body (lines 1249-1670): read the last candidate of the
issue bucket (out of range when the bucket is empty), dereference the remote
PR state, run the non-manual collision guard (outcome 4), probe the store,
and take one of the outcomes 0-4, applying the writer statements in the
writing outcomes. -/
def prWorker (ctx : Ctx) (manual : Bool) (st : Store) (ica : List IssueConfig)
    (pr : GhPullRequest) : Except RunFail (Store × Nat) := do
  let ic ← match ica.getLast? with
    | some x => Except.ok x
    | none => Except.error RunFail.indexOutOfRange
  let prid ← orFail pr.ID
  let updatedAt ← orFail pr.UpdatedAt
  let apiMilestoneID := ghMilestoneIDOrNil pr.Milestone
  let apiClosedAt := pr.ClosedAt
  let apiState ← orFail pr.State
  let apiTitle ← orFail pr.Title
  let apiAssigneeID := ghActorIDOrNil pr.Assignee
  let apiMergedByID := ghActorIDOrNil pr.MergedBy
  let apiMergedAt := pr.MergedAt
  let apiMerged := pr.Merged
  let collision := !manual && prCollision st prid (int64add p48 ic.EventID) updatedAt
  if collision then
    pure (st, 4)
  else
    match prProbe st manual prid updatedAt with
    | none => do
        let stmts ← ArtificialPREvent ctx ic pr
        pure (applyStmts st stmts, 0)
    | some row => do
        let ghaState ← scanString row.state
        let ghaTitle ← scanString row.title
        if !manual && decide (row.event_id > p48) then
          pure (st, 1)
        else do
          let ghaLabels := aggIssueLabels st row.event_id
          let assigneeIds ← collectIds pr.Assignees
          let apiAssignees := canonSet assigneeIds
          let ghaAssignees := aggPRAssignees st row.event_id
          let reviewerIds ← collectIds pr.RequestedReviewers
          let apiRequestedReviewers := canonSet reviewerIds
          let ghaRequestedReviewers := aggPRReviewers st row.event_id
          let changedAnything :=
            optIntDiff apiMilestoneID row.milestone_id ||
            (apiState != ghaState) ||
            optTimeDiff apiClosedAt row.closed_at ||
            optBoolDiff apiMerged row.merged ||
            optTimeDiff apiMergedAt row.merged_at ||
            optIntDiff apiMergedByID row.merged_by_id ||
            optIntDiff apiAssigneeID row.assignee_id ||
            (apiTitle != ghaTitle) ||
            (ghaLabels != ic.Labels) ||
            (ghaAssignees != apiAssignees) ||
            (ghaRequestedReviewers != apiRequestedReviewers)
          if changedAnything then do
            let stmts ← ArtificialPREvent ctx ic pr
            pure (applyStmts st stmts, 3)
          else
            pure (st, 2)

/-- The five outcome counters of a phase. -/
structure Buckets where
  b0 : Nat
  b1 : Nat
  b2 : Nat
  b3 : Nat
  b4 : Nat
deriving DecidableEq

def zeroBuckets : Buckets := ⟨0, 0, 0, 0, 0⟩

def bump (b : Buckets) : Nat → Buckets
  | 0 => { b with b0 := b.b0 + 1 }
  | 1 => { b with b1 := b.b1 + 1 }
  | 2 => { b with b2 := b.b2 + 1 }
  | 3 => { b with b3 := b.b3 + 1 }
  | _ => { b with b4 := b.b4 + 1 }

/-- The issue phase: every candidate of the batch is handed to a worker.  The
concurrent worker pool of the source is sequentialised here in batch order;
its statements always run inside per-candidate transactions, and a panic in
any worker aborts the process. -/
def runIssuePhase (ctx : Ctx) (manual : Bool) (st : Store)
    (cands : List IssueConfig) : Except RunFail (Store × Buckets) :=
  cands.foldlM (fun acc cfg => do
    let r ← issueWorker ctx manual acc.1 cfg
    pure (r.1, bump acc.2 r.2)) (st, zeroBuckets)

/-- Go map indexing `issues[iid]`: the zero value (empty bucket) when absent. -/
def lookupBatch {β : Type} (l : List (Int × β)) (k : Int) : Option β :=
  (l.find? (fun p => p.1 == k)).map Prod.snd

/-- The PR phase: each entry of the prs map is handed to a worker together
with the (possibly collapsed) issue bucket of the same id. -/
def runPRPhase (ctx : Ctx) (manual : Bool) (issues : List (Int × List IssueConfig))
    (st : Store) (prs : List (Int × GhPullRequest)) : Except RunFail (Store × Buckets) :=
  prs.foldlM (fun acc pra => do
    let ica := (lookupBatch issues pra.1).getD []
    let r ← prWorker ctx manual acc.1 ica pra.2
    pure (r.1, bump acc.2 r.2)) (st, zeroBuckets)

/-- The in-place normalisation step of `SyncIssuesState`: skipped in manual
mode, per-bucket `collapse` otherwise. -/
def normalizeIssues (manual : Bool) (issues : List (Int × List IssueConfig)) :
    List (Int × List IssueConfig) :=
  if manual then issues else issues.map (fun p => (p.1, collapse p.2))

/-- All candidates of a batch in phase order. -/
def batchCandidates (issues : List (Int × List IssueConfig)) : List IssueConfig :=
  issues.foldr (fun p acc => p.2 ++ acc) []

/-- The orchestrator `SyncIssuesState` (lines 824-1701): normalise, run the
issue phase, then run the PR phase on the resulting store.  Go map iteration
order is unspecified; the model fixes the given list order. -/
def SyncIssuesState (ctx : Ctx) (manual : Bool) (st : Store)
    (issues : List (Int × List IssueConfig)) (prs : List (Int × GhPullRequest)) :
    Except RunFail (Store × Buckets × Buckets) := do
  let issuesN := normalizeIssues manual issues
  let r1 ← runIssuePhase ctx manual st (batchCandidates issuesN)
  let r2 ← runPRPhase ctx manual issuesN r1.1 prs
  pure (r2.1, r1.2, r2.2)

instance exceptDecEq {ε α : Type} [DecidableEq ε] [DecidableEq α] :
    DecidableEq (Except ε α) := fun a b =>
  match a, b with
  | .ok x, .ok y =>
    match decEq x y with
    | isTrue h => isTrue (by rw [h])
    | isFalse h => isFalse (by simp [h])
  | .ok _, .error _ => isFalse (by simp)
  | .error _, .ok _ => isFalse (by simp)
  | .error x, .error y =>
    match decEq x y with
    | isTrue h => isTrue (by rw [h])
    | isFalse h => isFalse (by simp [h])


/-! ### Concrete fixtures used by witnesses and counterexamples -/

def strOpen : String := "open"

def strClosed : String := "closed"

def strTitleA : String := "T"

def strTypeA : String := "IssuesEvent"

def strRepoA : String := "org/repo"

def strLoginA : String := "alice"

def emptyStore : Store :=
  { issues := [], pulls := [], events := [], payloads := [], actors := [],
    milestones := [], issueLabels := [], issueAssignees := [], prAssignees := [],
    prReviewers := [] }

def ctxPlain : Ctx := ⟨false, 0, []⟩

def ctxSkip : Ctx := ⟨true, 0, []⟩

/-- A minimal remote issue object with the worker-dereferenced fields set. -/
def baseIssue : GhIssue :=
  { ID := some 1, Number := some 1, State := some strOpen, Title := some strTitleA,
    Body := none, Locked := some false, Comments := none, CreatedAt := none,
    ClosedAt := none, Milestone := none, Assignee := none, User := none,
    Assignees := [], PullRequestLinks := none }

/-- A minimal candidate: issue id 1, one observation at 100 s, event id 5. -/
def baseCfg : IssueConfig :=
  { Repo := strRepoA, Number := 1, IssueID := 1, Pr := false, MilestoneID := none,
    Labels := strEmpty, LabelsMap := [], GhIssue := baseIssue,
    CreatedAt := 100000000000, EventID := 5, EventType := strTypeA,
    GhEvent := ⟨none⟩, AssigneeID := none, Assignees := strEmpty, AssigneesMap := [] }

/-- A minimal remote PR object with the worker-dereferenced fields set. -/
def basePR : GhPullRequest :=
  { ID := some 101, Number := some 1, State := some strOpen, Title := some strTitleA,
    Body := none, CreatedAt := none, UpdatedAt := some 100000000000, ClosedAt := none,
    MergedAt := none, Merged := none, Mergeable := none, MergeableState := none,
    Comments := none, MaintainerCanModify := none, Commits := none, Additions := none,
    Deletions := none, ChangedFiles := none, MergeCommitSHA := none, Base := none,
    Head := none, User := none, MergedBy := none, Assignee := none, Milestone := none,
    Assignees := [], RequestedReviewers := [] }

/-! ### Claim C6: the error classifier -/

def text404 : String := "GET httpsph: 404 Not Found []"

def textBoom : String := "connection reset"

/-- C6: `HandlePossibleError` returns the empty signal for a nil error;
for a non-nil error it returns "rate" for a typed rate-limit error, the abuse
signal for a typed abuse-throttle error, the not-found signal when the text of
any other error contains `404 Not Found`, and exits the process with status 0
for every remaining error. -/
theorem claim6_classifier :
    HandlePossibleError none = .signal strEmpty ∧
    (∀ t, HandlePossibleError (some (.rateLimitError t)) = .signal strRate) ∧
    (∀ t, HandlePossibleError (some (.abuseRateLimitError t)) = .signal Abuse) ∧
    (∀ t, strHas t notFoundText = true →
      HandlePossibleError (some (.otherError t)) = .signal NotFound) ∧
    (∀ t, strHas t notFoundText = false →
      HandlePossibleError (some (.otherError t)) = .exited 0) := by
  refine ⟨rfl, fun t => rfl, fun t => rfl, fun t h => ?_, fun t h => ?_⟩ <;>
    simp [HandlePossibleError, h]

/-- Witness for C6 at concrete error texts. -/
theorem claim6_classifier_witness :
    HandlePossibleError (some (.otherError text404)) = .signal NotFound ∧
    HandlePossibleError (some (.otherError textBoom)) = .exited 0 :=
  ⟨claim6_classifier.2.2.2.1 text404 (by decide),
   claim6_classifier.2.2.2.2 textBoom (by decide)⟩

/-! ### Claim C8: the skip-write flag -/

/-- Whether a statement touches the database (everything except the skip-write
log line). -/
def isDBStmt : Stmt → Bool
  | .logSkip => false
  | _ => true

/-- C8 counterexample: with the skip-write flag set and debug verbosity 0 both
writers return successfully with an empty statement list, so no log line is
emitted for the skipped write (the claim asserts one always is). -/
theorem claim8_counterexample :
    ArtificialEvent ctxSkip baseCfg = .ok [] ∧
    ArtificialPREvent ctxSkip baseCfg basePR = .ok [] ∧
    Stmt.logSkip ∉ ([] : List Stmt) := by
  refine ⟨by decide, by decide, by decide⟩

/-- C8 amended: with the skip-write flag set both writers return nil without
executing any database statement (the store is unchanged), and the log line
for the skipped write is emitted exactly when debug verbosity is positive. -/
theorem claim8_skip_write (ctx : Ctx) (cfg : IssueConfig) (pr : GhPullRequest)
    (h : ctx.SkipPDB = true) :
    ∃ l, ArtificialEvent ctx cfg = .ok l ∧ ArtificialPREvent ctx cfg pr = .ok l ∧
      (∀ s ∈ l, isDBStmt s = false) ∧ (∀ st : Store, applyStmts st l = st) ∧
      (Stmt.logSkip ∈ l ↔ 0 < ctx.Debug) := by
  refine ⟨if ctx.Debug > 0 then [Stmt.logSkip] else [], ?_, ?_, ?_, ?_, ?_⟩
  · simp [ArtificialEvent, h]
  · simp [ArtificialPREvent, h]
  · by_cases hd : ctx.Debug > 0 <;> simp [hd, isDBStmt]
  · by_cases hd : ctx.Debug > 0 <;> intro st <;> simp [hd, applyStmts, applyStmt]
  · by_cases hd : ctx.Debug > 0 <;> simp [hd]

/-- Witness for C8 at a concrete context with debug verbosity 1. -/
theorem claim8_skip_write_witness :
    ∃ l, ArtificialEvent ⟨true, 1, []⟩ baseCfg = .ok l ∧
      ArtificialPREvent ⟨true, 1, []⟩ baseCfg basePR = .ok l ∧
      (∀ s ∈ l, isDBStmt s = false) ∧ (∀ st : Store, applyStmts st l = st) ∧
      (Stmt.logSkip ∈ l ↔ (0 : Int) < 1) :=
  claim8_skip_write ⟨true, 1, []⟩ baseCfg basePR rfl


/-! ### Claim C5: the PR collision guard -/

/-- C5: in non-manual mode, when a `gha_pull_requests` row exists with the
candidate PR id, event id equal to 2^48 plus the candidate source event id,
and a different `updated_at`, the PR worker increments outcome bucket 4 and
returns without performing any write. -/
theorem claim5_pr_collision (ctx : Ctx) (st : Store) (ica : List IssueConfig)
    (pr : GhPullRequest) (ic : IssueConfig) (prid : Int) (u : Nat)
    (stv tiv : String)
    (hic : ica.getLast? = some ic)
    (hid : pr.ID = some prid) (hupd : pr.UpdatedAt = some u)
    (hst : pr.State = some stv) (hti : pr.Title = some tiv)
    (hcol : prCollision st prid (int64add p48 ic.EventID) u = true) :
    prWorker ctx false st ica pr = .ok (st, 4) := by
  simp [prWorker, hic, hid, hupd, hst, hti, orFail, hcol, bind, Except.bind, pure,
    Except.pure]

/-- A stored PR row carrying the synthetic event id for source event 5 at a
different `updated_at` than `basePR`. -/
def colRow : GhPullRequestRow :=
  { id := 101, event_id := p48 + 5, updated_at := some 999000000000,
    assignee_id := none, closed_at := none, merged := none, merged_at := none,
    merged_by_id := none, milestone_id := none, number := some 1,
    state := some strOpen, title := some strTitleA, user_id := none }

def colStore : Store := { emptyStore with pulls := [colRow] }

/-- Witness for C5 at a concrete store and candidate. -/
theorem claim5_pr_collision_witness :
    prWorker ctxPlain false colStore [baseCfg] basePR = .ok (colStore, 4) :=
  claim5_pr_collision ctxPlain colStore [baseCfg] basePR baseCfg 101 100000000000
    strOpen strTitleA rfl rfl rfl rfl rfl (by decide)

/-! ### Claims C9 and C10: worker panic preconditions -/

theorem collapse_nil : collapse [] = [] := rfl

/-- A fold over a monadic worker fails whenever the list contains an element
whose worker fails from every state. -/
theorem foldlM_error_of_mem {α σ : Type} (f : σ → α → Except RunFail σ) (a : α)
    (hbad : ∀ s : σ, ∃ e, f s a = .error e) :
    ∀ (l : List α), a ∈ l → ∀ init : σ, ∃ e, l.foldlM f init = .error e := by
  intro l
  induction l with
  | nil => intro h; cases h
  | cons h t ih =>
    intro ha init
    rcases List.mem_cons.mp ha with rfl | hmem
    · rcases hbad init with ⟨e, he⟩
      exact ⟨e, by simp [List.foldlM_cons, he, bind, Except.bind]⟩
    · cases hf : f init h with
      | error e => exact ⟨e, by simp [List.foldlM_cons, hf, bind, Except.bind]⟩
      | ok s =>
        rcases ih hmem s with ⟨e, he⟩
        exact ⟨e, by simp [List.foldlM_cons, hf, bind, Except.bind, he]⟩

theorem lookupBatch_normalize (manual : Bool) (l : List (Int × List IssueConfig)) (k : Int) :
    lookupBatch (normalizeIssues manual l) k =
      if manual then lookupBatch l k else (lookupBatch l k).map collapse := by
  cases manual with
  | true => simp [normalizeIssues]
  | false =>
    simp only [normalizeIssues, Bool.false_eq_true, if_false]
    induction l with
    | nil => rfl
    | cons h t ih =>
      by_cases hk : h.1 == k
      · simp [lookupBatch, List.find?_cons, hk]
      · simpa [lookupBatch, List.find?_cons, hk] using ih

theorem mem_batchCandidates {issues : List (Int × List IssueConfig)}
    {p : Int × List IssueConfig} (hp : p ∈ issues) {c : IssueConfig} (hc : c ∈ p.2) :
    c ∈ batchCandidates issues := by
  induction issues with
  | nil => cases hp
  | cons h t ih =>
    rcases List.mem_cons.mp hp with rfl | hm
    · exact List.mem_append.mpr (Or.inl hc)
    · exact List.mem_append.mpr (Or.inr (ih hm))

/-- The issue worker dereferences the remote State, Title and Locked pointers
before any query: a nil among them fails the worker from every store. -/
theorem issueWorker_error_of_nil (ctx : Ctx) (manual : Bool) (st : Store)
    (cfg : IssueConfig)
    (h : cfg.GhIssue.State = none ∨ cfg.GhIssue.Title = none ∨ cfg.GhIssue.Locked = none) :
    ∃ e, issueWorker ctx manual st cfg = .error e := by
  refine ⟨.nilDeref, ?_⟩
  cases hs : cfg.GhIssue.State with
  | none => simp [issueWorker, hs, orFail, bind, Except.bind]
  | some sv =>
    cases ht : cfg.GhIssue.Title with
    | none => simp [issueWorker, hs, ht, orFail, bind, Except.bind]
    | some tv =>
      cases hl : cfg.GhIssue.Locked with
      | none => simp [issueWorker, hs, ht, hl, orFail, bind, Except.bind]
      | some lv => simp [hs, ht, hl] at h

/-- The PR worker dereferences the remote ID, UpdatedAt, State and Title
pointers before any query: a nil among them fails the worker from every store
once the issue bucket is non-empty. -/
theorem prWorker_error_of_nil (ctx : Ctx) (manual : Bool) (st : Store)
    (ica : List IssueConfig) (pr : GhPullRequest) (hne : ica ≠ [])
    (h : pr.ID = none ∨ pr.UpdatedAt = none ∨ pr.State = none ∨ pr.Title = none) :
    ∃ e, prWorker ctx manual st ica pr = .error e := by
  refine ⟨.nilDeref, ?_⟩
  obtain ⟨ic, hic⟩ : ∃ ic, ica.getLast? = some ic := by
    cases hg : ica.getLast? with
    | none => exact absurd (List.getLast?_eq_none_iff.mp hg) hne
    | some x => exact ⟨x, rfl⟩
  cases hid : pr.ID with
  | none => simp [prWorker, hic, hid, orFail, bind, Except.bind]
  | some idv =>
    cases hu : pr.UpdatedAt with
    | none => simp [prWorker, hic, hid, hu, orFail, bind, Except.bind]
    | some uv =>
      cases hst : pr.State with
      | none => simp [prWorker, hic, hid, hu, hst, orFail, bind, Except.bind]
      | some sv =>
        cases hti : pr.Title with
        | none => simp [prWorker, hic, hid, hu, hst, hti, orFail, bind, Except.bind]
        | some tv => simp [hid, hu, hst, hti] at h

/-- C9: the PR phase requires that every issue id in the prs map carries a
non-empty candidate list: each PR worker unconditionally reads the last
element of the issue bucket, so an empty or missing bucket makes the index
expression out of range and the run fails. -/
theorem claim9_pr_requires_candidates (ctx : Ctx) (manual : Bool) (st : Store)
    (issues : List (Int × List IssueConfig)) (prs : List (Int × GhPullRequest))
    (iid : Int) (pr : GhPullRequest) (hin : (iid, pr) ∈ prs)
    (hempty : lookupBatch issues iid = none ∨ lookupBatch issues iid = some []) :
    (SyncIssuesState ctx manual st issues prs).isOk = false := by
  have hica : (lookupBatch (normalizeIssues manual issues) iid).getD [] = [] := by
    rw [lookupBatch_normalize]
    cases manual <;> rcases hempty with h | h <;> simp [h, collapse_nil]
  have hpr : ∀ s1 : Store, ∃ e,
      runPRPhase ctx manual (normalizeIssues manual issues) s1 prs = .error e := by
    intro s1
    exact foldlM_error_of_mem _ (iid, pr)
      (fun acc => ⟨RunFail.indexOutOfRange, by
        simp only at hica ⊢
        rw [hica]
        rfl⟩) prs hin (s1, zeroBuckets)
  unfold SyncIssuesState
  cases h1 : runIssuePhase ctx manual st (batchCandidates (normalizeIssues manual issues)) with
  | error e =>
    simp [h1, bind, Except.bind, Functor.map, Except.map, Except.isOk, Except.toBool]
  | ok p =>
    rcases hpr p.1 with ⟨e, he⟩
    simp [h1, he, bind, Except.bind, Functor.map, Except.map, Except.isOk, Except.toBool]

/-- Witness for C9: a batch whose prs map holds issue id 1 while the issues
map has no bucket for 1. -/
theorem claim9_pr_requires_candidates_witness :
    (SyncIssuesState ctxPlain false emptyStore [(2, [baseCfg])] [(1, basePR)]).isOk = false :=
  claim9_pr_requires_candidates ctxPlain false emptyStore [(2, [baseCfg])] [(1, basePR)]
    1 basePR (by decide) (Or.inl (by decide))

/-- C10: the orchestrator requires non-nil State, Title and Locked pointers on
every processed issue candidate and non-nil ID, UpdatedAt, State and Title
pointers on every PR candidate whose issue bucket is non-empty: the workers
dereference these fields without nil checks, so a violating candidate fails
the run. -/
theorem claim10_nil_preconditions :
    (∀ (ctx : Ctx) (manual : Bool) (st : Store)
      (issues : List (Int × List IssueConfig)) (prs : List (Int × GhPullRequest))
      (iid : Int) (l : List IssueConfig) (cfg : IssueConfig),
      (iid, l) ∈ issues → cfg ∈ (if manual then l else collapse l) →
      (cfg.GhIssue.State = none ∨ cfg.GhIssue.Title = none ∨ cfg.GhIssue.Locked = none) →
      (SyncIssuesState ctx manual st issues prs).isOk = false) ∧
    (∀ (ctx : Ctx) (manual : Bool) (st : Store)
      (issues : List (Int × List IssueConfig)) (prs : List (Int × GhPullRequest))
      (iid : Int) (pr : GhPullRequest) (l : List IssueConfig),
      (iid, pr) ∈ prs → lookupBatch issues iid = some l →
      (if manual then l else collapse l) ≠ [] →
      (pr.ID = none ∨ pr.UpdatedAt = none ∨ pr.State = none ∨ pr.Title = none) →
      (SyncIssuesState ctx manual st issues prs).isOk = false) := by
  constructor
  · intro ctx manual st issues prs iid l cfg hmem hcfg hnil
    have hpmem : (iid, if manual then l else collapse l) ∈ normalizeIssues manual issues := by
      cases manual with
      | true => simpa [normalizeIssues] using hmem
      | false =>
        simp only [normalizeIssues, Bool.false_eq_true, if_false]
        exact List.mem_map.mpr ⟨(iid, l), hmem, rfl⟩
    have hbc : cfg ∈ batchCandidates (normalizeIssues manual issues) :=
      mem_batchCandidates hpmem hcfg
    have hbad : ∀ acc : Store × Buckets, ∃ e,
        (do
          let r ← issueWorker ctx manual acc.1 cfg
          pure (r.1, bump acc.2 r.2) : Except RunFail (Store × Buckets)) = .error e := by
      intro acc
      rcases issueWorker_error_of_nil ctx manual acc.1 cfg hnil with ⟨e, he⟩
      exact ⟨e, by simp [he, bind, Except.bind]⟩
    rcases foldlM_error_of_mem
      (fun (acc : Store × Buckets) (c : IssueConfig) => do
        let r ← issueWorker ctx manual acc.1 c
        pure (r.1, bump acc.2 r.2)) cfg hbad _ hbc (st, zeroBuckets) with ⟨e, he⟩
    have h1 : runIssuePhase ctx manual st (batchCandidates (normalizeIssues manual issues)) =
        .error e := he
    unfold SyncIssuesState
    simp [h1, bind, Except.bind, Functor.map, Except.map, Except.isOk, Except.toBool]
  · intro ctx manual st issues prs iid pr l hmem hlk hne hnil
    have hica : (lookupBatch (normalizeIssues manual issues) iid).getD [] =
        (if manual then l else collapse l) := by
      rw [lookupBatch_normalize]
      cases manual <;> simp [hlk]
    have hbad : ∀ acc : Store × Buckets, ∃ e,
        (do
          let ica := (lookupBatch (normalizeIssues manual issues) (iid, pr).1).getD []
          let r ← prWorker ctx manual acc.1 ica (iid, pr).2
          pure (r.1, bump acc.2 r.2) : Except RunFail (Store × Buckets)) = .error e := by
      intro acc
      rcases prWorker_error_of_nil ctx manual acc.1 (if manual then l else collapse l) pr
        hne hnil with ⟨e, he⟩
      refine ⟨e, ?_⟩
      simp only at hica ⊢
      rw [hica]
      simp [he, bind, Except.bind]
    unfold SyncIssuesState
    cases h1 : runIssuePhase ctx manual st (batchCandidates (normalizeIssues manual issues)) with
    | error e =>
      simp [h1, bind, Except.bind, Functor.map, Except.map, Except.isOk, Except.toBool]
    | ok p =>
      rcases foldlM_error_of_mem
        (fun (acc : Store × Buckets) (pra : Int × GhPullRequest) => do
          let ica := (lookupBatch (normalizeIssues manual issues) pra.1).getD []
          let r ← prWorker ctx manual acc.1 ica pra.2
          pure (r.1, bump acc.2 r.2)) (iid, pr) hbad prs hmem (p.1, zeroBuckets) with ⟨e, he⟩
      have h2 : runPRPhase ctx manual (normalizeIssues manual issues) p.1 prs = .error e := he
      simp [h1, h2, bind, Except.bind, Functor.map, Except.map, Except.isOk, Except.toBool]

/-- An issue candidate violating the State pointer precondition. -/
def badCfg : IssueConfig := { baseCfg with GhIssue := { baseIssue with State := none } }

/-- Witness for C10: a manual batch holding a candidate with a nil State
pointer fails the run. -/
theorem claim10_nil_preconditions_witness :
    (SyncIssuesState ctxPlain true emptyStore [(1, [badCfg])] []).isOk = false :=
  claim10_nil_preconditions.1 ctxPlain true emptyStore [(1, [badCfg])] [] 1 [badCfg]
    badCfg (by decide) (by decide) (Or.inl rfl)

/-! ### Claim C1: the synthetic-id range -/

/-- The event id a statement carries, when it carries one (`gha_actors` rows
and the log line carry none). -/
def stmtEventId : Stmt → Option Int
  | .logSkip => none
  | .insertActor _ _ => none
  | .insertMilestone _ eid _ _ => some eid
  | .insertIssue r => some r.event_id
  | .insertPullRequest r => some r.event_id
  | .insertEvent i _ _ _ => some i
  | .insertPayload r => some r.event_id
  | .updatePayloadPRID _ _ eid => some eid
  | .insertIssueLabel _ eid _ _ => some eid
  | .insertIssueAssignee _ eid _ => some eid
  | .insertPRAssignee _ eid _ => some eid
  | .insertPRReviewer _ eid _ => some eid

def EidOk (eid : Int) (s : Stmt) : Prop := ∀ e, stmtEventId s = some e → e = eid

theorem allStmts_append {P : Stmt → Prop} {A B : List Stmt}
    (hA : ∀ s ∈ A, P s) (hB : ∀ s ∈ B, P s) : ∀ s ∈ A ++ B, P s :=
  fun s hs => (List.mem_append.mp hs).elim (hA s) (hB s)

theorem allStmts_single {P : Stmt → Prop} {x : Stmt} (hx : P x) : ∀ s ∈ [x], P s := by
  intro s hs
  rcases List.mem_singleton.mp hs with rfl
  exact hx

theorem allStmts_map {α : Type} {P : Stmt → Prop} {f : α → Stmt} {l : List α}
    (hf : ∀ p ∈ l, P (f p)) : ∀ s ∈ l.map f, P s := by
  intro s hs
  rcases List.mem_map.mp hs with ⟨p, hp, rfl⟩
  exact hf p hp

theorem ghActor_EidOk {a : Option GhUser} {mh : String → String} (eid : Int) :
    ∀ s ∈ ghActor a mh, EidOk eid s := by
  intro s hs
  cases a with
  | none => cases hs
  | some u =>
    cases hl : u.Login with
    | none => simp [ghActor, hl] at hs
    | some l =>
      simp [ghActor, hl] at hs
      subst hs
      intro e he
      cases he

theorem foldr_ghActor_EidOk {as : List (Option GhUser)} {mh : String → String} (eid : Int) :
    ∀ s ∈ as.foldr (fun a acc => ghActor a mh ++ acc) [], EidOk eid s := by
  induction as with
  | nil => intro s hs; cases hs
  | cons a t ih => exact allStmts_append (ghActor_EidOk eid) ih

theorem ghMilestone_EidOk {eid : Int} {cfg : IssueConfig} {mh : String → String}
    {l : List Stmt} (h : ghMilestone eid cfg mh = .ok l) :
    ∀ s ∈ l, EidOk eid s := by
  cases hm : cfg.GhIssue.Milestone with
  | none => simp [ghMilestone, hm, orFail, bind, Except.bind] at h
  | some m =>
    cases ha : cfg.GhEvent.Actor with
    | none => simp [ghMilestone, hm, ha, orFail, bind, Except.bind] at h
    | some a =>
      cases hl : a.Login with
      | none => simp [ghMilestone, hm, ha, hl, orFail, bind, Except.bind] at h
      | some lg =>
        simp only [ghMilestone, hm, ha, hl, orFail, bind, Except.bind, pure, Except.pure,
          Except.ok.injEq] at h
        subst h
        exact allStmts_single (fun e he => by simpa [stmtEventId] using he.symm)

theorem ArtificialEvent_EidOk {ctx : Ctx} {cfg : IssueConfig} {l : List Stmt}
    (h : ArtificialEvent ctx cfg = .ok l) :
    ∀ s ∈ l, EidOk (int64add p48 cfg.EventID) s := by
  by_cases hskip : ctx.SkipPDB
  · rw [ArtificialEvent, if_pos hskip] at h
    by_cases hd : ctx.Debug > 0
    · rw [if_pos hd] at h
      cases h
      exact allStmts_single (fun e he => by cases he)
    · rw [if_neg hd] at h
      cases h
      intro s hs
      cases hs
  · rw [ArtificialEvent, if_neg hskip] at h
    cases hm : cfg.GhIssue.Milestone with
    | none =>
      simp only [hm, bind, Except.bind, pure, Except.pure, Except.ok.injEq] at h
      subst h
      refine allStmts_append (allStmts_append (allStmts_append (allStmts_append
        (allStmts_append (allStmts_append
          (allStmts_append (allStmts_append (allStmts_append (ghActor_EidOk _)
              (ghActor_EidOk _)) (foldr_ghActor_EidOk _)) (fun s hs => by cases hs))
          (allStmts_single (fun e he => by simpa [stmtEventId] using he.symm)))
        (fun s hs => by cases hs))
        (allStmts_single (fun e he => by simpa [stmtEventId] using he.symm)))
        (allStmts_single (fun e he => by simpa [stmtEventId] using he.symm)))
        (allStmts_map (fun p hp e he => by simpa [stmtEventId] using he.symm)))
        (allStmts_map (fun p hp e he => by simpa [stmtEventId] using he.symm))
    | some m =>
      cases hgm : ghMilestone (int64add p48 cfg.EventID) cfg (MaybeHideFunc ctx.hidden) with
      | error e =>
        simp only [hm, hgm, bind, Except.bind] at h
        cases h
      | ok ml =>
        simp only [hm, hgm, bind, Except.bind, pure, Except.pure, Except.ok.injEq] at h
        subst h
        refine allStmts_append (allStmts_append (allStmts_append (allStmts_append
          (allStmts_append (allStmts_append
            (allStmts_append (allStmts_append (allStmts_append (ghActor_EidOk _)
                (ghActor_EidOk _)) (foldr_ghActor_EidOk _)) (ghActor_EidOk _))
            (allStmts_single (fun e he => by simpa [stmtEventId] using he.symm)))
          (ghMilestone_EidOk hgm))
          (allStmts_single (fun e he => by simpa [stmtEventId] using he.symm)))
          (allStmts_single (fun e he => by simpa [stmtEventId] using he.symm)))
          (allStmts_map (fun p hp e he => by simpa [stmtEventId] using he.symm)))
          (allStmts_map (fun p hp e he => by simpa [stmtEventId] using he.symm))

theorem matchActor_EidOk {o : Option GhUser} {mh : String → String} (eid : Int) :
    ∀ s ∈ (match o with | some _ => ghActor o mh | none => ([] : List Stmt)), EidOk eid s := by
  cases o with
  | none => intro s hs; cases hs
  | some u => exact ghActor_EidOk eid

theorem foldr_prAssignee_EidOk {as : List (Option GhUser)} {mh : String → String}
    {prid eid : Int} :
    ∀ s ∈ as.foldr (fun a acc =>
      (match a with
        | none => []
        | some u => ghActor (some u) mh ++ [Stmt.insertPRAssignee prid eid u.ID]) ++ acc) [],
      EidOk eid s := by
  induction as with
  | nil => intro s hs; cases hs
  | cons a t ih =>
    refine allStmts_append ?_ ih
    cases a with
    | none => intro s hs; cases hs
    | some u =>
      exact allStmts_append (ghActor_EidOk eid)
        (allStmts_single (fun e he => by simpa [stmtEventId] using he.symm))

theorem foldr_prReviewer_EidOk {as : List (Option GhUser)} {mh : String → String}
    {prid eid : Int} :
    ∀ s ∈ as.foldr (fun a acc =>
      (match a with
        | none => []
        | some u => ghActor (some u) mh ++ [Stmt.insertPRReviewer prid eid u.ID]) ++ acc) [],
      EidOk eid s := by
  induction as with
  | nil => intro s hs; cases hs
  | cons a t ih =>
    refine allStmts_append ?_ ih
    cases a with
    | none => intro s hs; cases hs
    | some u =>
      exact allStmts_append (ghActor_EidOk eid)
        (allStmts_single (fun e he => by simpa [stmtEventId] using he.symm))

theorem ArtificialPREvent_EidOk {ctx : Ctx} {cfg : IssueConfig} {pr : GhPullRequest}
    {l : List Stmt} (h : ArtificialPREvent ctx cfg pr = .ok l) :
    ∀ s ∈ l, EidOk (int64add p48 cfg.EventID) s := by
  by_cases hskip : ctx.SkipPDB
  · rw [ArtificialPREvent, if_pos hskip] at h
    by_cases hd : ctx.Debug > 0
    · rw [if_pos hd] at h
      cases h
      exact allStmts_single (fun e he => by cases he)
    · rw [if_neg hd] at h
      cases h
      intro s hs
      cases hs
  · rw [ArtificialPREvent, if_neg hskip] at h
    cases hiid : cfg.GhIssue.ID with
    | none =>
      simp only [hiid, orFail, bind, Except.bind] at h
      cases h
    | some iidv =>
      cases hpid : pr.ID with
      | none =>
        cases hm : pr.Milestone with
        | none =>
          simp only [hiid, hpid, hm, orFail, bind, Except.bind, pure, Except.pure] at h
          cases h
        | some m =>
          cases hgm : ghMilestone (int64add p48 cfg.EventID) cfg (MaybeHideFunc ctx.hidden) with
          | error e =>
            simp only [hiid, hpid, hm, hgm, orFail, bind, Except.bind] at h
            cases h
          | ok ml =>
            simp only [hiid, hpid, hm, hgm, orFail, bind, Except.bind] at h
            cases h
      | some pidv =>
        have hassemble : ∀ (ml : List Stmt) (row : GhPullRequestRow) (aid : Option Int),
            row.event_id = int64add p48 cfg.EventID →
            (∀ s ∈ ml, EidOk (int64add p48 cfg.EventID) s) →
            ∀ s ∈ (ghActor pr.User (MaybeHideFunc ctx.hidden) ++
              (match pr.MergedBy with
                | some _ => ghActor pr.MergedBy (MaybeHideFunc ctx.hidden)
                | none => []) ++
              (match pr.Assignee with
                | some _ => ghActor pr.Assignee (MaybeHideFunc ctx.hidden)
                | none => []) ++ ml ++
              [Stmt.insertPullRequest row] ++
              [Stmt.insertEvent (int64add p48 cfg.EventID) cfg.EventType aid cfg.CreatedAt] ++
              [Stmt.insertPayload ⟨int64add p48 cfg.EventID, iidv, some pidv, cfg.GhIssue.Number⟩] ++
              [Stmt.updatePayloadPRID pidv iidv (int64add p48 cfg.EventID)] ++
              pr.Assignees.foldr (fun a acc =>
                (match a with
                  | none => []
                  | some u => ghActor (some u) (MaybeHideFunc ctx.hidden) ++
                      [Stmt.insertPRAssignee pidv (int64add p48 cfg.EventID) u.ID]) ++ acc) [] ++
              pr.RequestedReviewers.foldr (fun a acc =>
                (match a with
                  | none => []
                  | some u => ghActor (some u) (MaybeHideFunc ctx.hidden) ++
                      [Stmt.insertPRReviewer pidv (int64add p48 cfg.EventID) u.ID]) ++ acc) []),
            EidOk (int64add p48 cfg.EventID) s := by
          intro ml row aid hrow hml
          refine allStmts_append (allStmts_append (allStmts_append (allStmts_append
            (allStmts_append (allStmts_append (allStmts_append (allStmts_append
              (allStmts_append (ghActor_EidOk _) (matchActor_EidOk _)) (matchActor_EidOk _))
              hml)
              (allStmts_single (fun e he => by
                have h2 : some row.event_id = some e := by simpa [stmtEventId] using he
                have h3 : row.event_id = e := by simpa using h2
                rw [← h3, hrow])))
              (allStmts_single (fun e he => by simpa [stmtEventId] using he.symm)))
              (allStmts_single (fun e he => by simpa [stmtEventId] using he.symm)))
              (allStmts_single (fun e he => by simpa [stmtEventId] using he.symm)))
              foldr_prAssignee_EidOk)
              foldr_prReviewer_EidOk
        cases hact : cfg.GhEvent.Actor with
        | none =>
          cases hm : pr.Milestone with
          | none =>
            simp only [hiid, hpid, hm, hact, orFail, bind, Except.bind, pure, Except.pure] at h
            cases h
          | some m =>
            cases hgm : ghMilestone (int64add p48 cfg.EventID) cfg (MaybeHideFunc ctx.hidden) with
            | error e =>
              simp only [hiid, hpid, hm, hgm, hact, orFail, bind, Except.bind] at h
              cases h
            | ok ml =>
              simp only [hiid, hpid, hm, hgm, hact, orFail, bind, Except.bind] at h
              cases h
        | some act =>
          cases hm : pr.Milestone with
          | none =>
            simp only [hiid, hpid, hm, hact, orFail, bind, Except.bind, pure, Except.pure,
              Except.ok.injEq] at h
            subst h
            exact hassemble [] _ _ rfl (fun s hs => by cases hs)
          | some m =>
            cases hgm : ghMilestone (int64add p48 cfg.EventID) cfg (MaybeHideFunc ctx.hidden) with
            | error e =>
              simp only [hiid, hpid, hm, hgm, hact, orFail, bind, Except.bind] at h
              cases h
            | ok ml =>
              simp only [hiid, hpid, hm, hgm, hact, orFail, bind, Except.bind, pure,
                Except.pure, Except.ok.injEq] at h
              subst h
              exact hassemble ml _ _ rfl (ghMilestone_EidOk hgm)

/-- The candidate with real event id 0, the smallest non-negative value. -/
def cfgEid0 : IssueConfig := { baseCfg with EventID := 0 }

/-- C1 counterexample: for the non-negative real event id 0 every row of the
bundle carries the synthetic id 2^48 + 0 = 2^48, and that id fails the
reader-recognition predicate `id > 2^48`. -/
theorem claim1_counterexample :
    (ArtificialEvent ctxPlain cfgEid0).map (fun l => l.filterMap stmtEventId) =
      .ok [int64add p48 0, int64add p48 0, int64add p48 0] ∧
    int64add p48 0 = p48 ∧ ¬ p48 > p48 ∧ (0 : Int) ≥ 0 := by decide

/-- C1 amended: for every candidate whose real event id is positive and below
the int64 overflow bound, the synthetic event id used in every row of both
writer bundles equals 2^48 plus the real event id, and it satisfies the
reader-recognition predicate `id > 2^48`. -/
theorem claim1_synthetic_ids (ctx : Ctx) (cfg : IssueConfig) (pr : GhPullRequest)
    (hpos : 0 < cfg.EventID) (hbound : cfg.EventID < 2 ^ 63 - p48) :
    int64add p48 cfg.EventID = p48 + cfg.EventID ∧
    int64add p48 cfg.EventID > p48 ∧
    (∀ l, ArtificialEvent ctx cfg = .ok l → ∀ e ∈ l.filterMap stmtEventId,
      e = p48 + cfg.EventID) ∧
    (∀ l, ArtificialPREvent ctx cfg pr = .ok l → ∀ e ∈ l.filterMap stmtEventId,
      e = p48 + cfg.EventID) := by
  have hw : int64add p48 cfg.EventID = p48 + cfg.EventID := by
    unfold int64add wrap64 p48 at *
    omega
  refine ⟨hw, by rw [hw]; unfold p48 at *; omega, ?_, ?_⟩
  · intro l hl e he
    rcases List.mem_filterMap.mp he with ⟨s, hs, hse⟩
    rw [← hw]
    exact ArtificialEvent_EidOk hl s hs e hse
  · intro l hl e he
    rcases List.mem_filterMap.mp he with ⟨s, hs, hse⟩
    rw [← hw]
    exact ArtificialPREvent_EidOk hl s hs e hse

/-- Witness for C1 at the concrete candidate with event id 5. -/
theorem claim1_synthetic_ids_witness :
    int64add p48 baseCfg.EventID = p48 + baseCfg.EventID ∧
    int64add p48 baseCfg.EventID > p48 ∧
    (∀ l, ArtificialEvent ctxPlain baseCfg = .ok l → ∀ e ∈ l.filterMap stmtEventId,
      e = p48 + baseCfg.EventID) ∧
    (∀ l, ArtificialPREvent ctxPlain baseCfg basePR = .ok l →
      ∀ e ∈ l.filterMap stmtEventId, e = p48 + baseCfg.EventID) :=
  claim1_synthetic_ids ctxPlain baseCfg basePR (by decide) (by decide)


/-! ### Claim C4: statement order inside the writer transactions -/

/-- Whether a statement is a `gha_actors` upsert. -/
def isActorInsert : Stmt → Bool
  | .insertActor _ _ => true
  | _ => false

/-- The statement order asserted by the claim: actors, then milestone, then
entity snapshot, then event, then payload, then joins. -/
def claimedRank : Stmt → Nat
  | .logSkip => 0
  | .insertActor _ _ => 0
  | .insertMilestone _ _ _ _ => 1
  | .insertIssue _ => 2
  | .insertPullRequest _ => 2
  | .insertEvent _ _ _ _ => 3
  | .insertPayload _ => 4
  | .updatePayloadPRID _ _ _ => 5
  | .insertIssueLabel _ _ _ _ => 6
  | .insertIssueAssignee _ _ _ => 6
  | .insertPRAssignee _ _ _ => 6
  | .insertPRReviewer _ _ _ => 6

/-- The actual statement order of `ArtificialEvent`: actors, snapshot,
milestone, event, payload, label joins, assignee joins. -/
def issueStmtRank : Stmt → Nat
  | .logSkip => 0
  | .insertActor _ _ => 0
  | .insertIssue _ => 1
  | .insertPullRequest _ => 1
  | .insertMilestone _ _ _ _ => 2
  | .insertEvent _ _ _ _ => 3
  | .insertPayload _ => 4
  | .updatePayloadPRID _ _ _ => 5
  | .insertIssueLabel _ _ _ _ => 5
  | .insertIssueAssignee _ _ _ => 6
  | .insertPRAssignee _ _ _ => 6
  | .insertPRReviewer _ _ _ => 6

/-- The actual order of the non-actor statements of `ArtificialPREvent`:
milestone, snapshot, event, payload, payload update, joins. -/
def prStmtRank : Stmt → Nat
  | .logSkip => 0
  | .insertActor _ _ => 0
  | .insertMilestone _ _ _ _ => 1
  | .insertIssue _ => 2
  | .insertPullRequest _ => 2
  | .insertEvent _ _ _ _ => 3
  | .insertPayload _ => 4
  | .updatePayloadPRID _ _ _ => 5
  | .insertIssueLabel _ _ _ _ => 6
  | .insertIssueAssignee _ _ _ => 6
  | .insertPRAssignee _ _ _ => 6
  | .insertPRReviewer _ _ _ => 6

/-- A candidate carrying a milestone, with the event actor the milestone
upsert dereferences. -/
def cfgMil : IssueConfig :=
  { baseCfg with
    MilestoneID := some 3,
    GhIssue := { baseIssue with Milestone := some ⟨some 3, some ⟨some 7, some strLoginA⟩⟩ },
    GhEvent := ⟨some ⟨some 1, some strLoginA⟩⟩ }

/-- C4 counterexample: for a milestone-carrying candidate, `ArtificialEvent`
issues the snapshot insert before the milestone upsert, so the claimed order
(actors, milestone, snapshot, event, payload, joins) does not hold. -/
theorem claim4_counterexample :
    (ArtificialEvent ctxPlain cfgMil).map (fun l => l.map claimedRank) =
      .ok [0, 2, 1, 3, 4] ∧
    ¬ List.Sorted (fun a b => a ≤ b) [0, 2, 1, 3, 4] := by
  constructor
  · decide
  · decide

theorem sorted_map_of_const {f : Stmt → Nat} {A : List Stmt} {c : Nat}
    (h : ∀ a ∈ A, f a = c) : List.Sorted (fun a b => a ≤ b) (A.map f) := by
  induction A with
  | nil => simp
  | cons x t ih =>
    simp only [List.map_cons, List.sorted_cons]
    refine ⟨?_, ih (fun a ha => h a (List.mem_cons_of_mem x ha))⟩
    intro b hb
    rcases List.mem_map.mp hb with ⟨a, ha, rfl⟩
    rw [h x (List.mem_cons_self x t), h a (List.mem_cons_of_mem x ha)]

theorem sorted_chain {f : Stmt → Nat} {A : List Stmt} {c : Nat}
    (hA : List.Sorted (fun a b => a ≤ b) (A.map f) ∧ ∀ x ∈ A, f x ≤ c)
    {B : List Stmt} {d : Nat} (hB : ∀ b ∈ B, f b = d) (hcd : c ≤ d) :
    List.Sorted (fun a b => a ≤ b) ((A ++ B).map f) ∧ (∀ x ∈ A ++ B, f x ≤ d) := by
  constructor
  · rw [List.map_append]
    rw [List.Sorted, List.pairwise_append]
    refine ⟨hA.1, sorted_map_of_const hB, ?_⟩
    intro a ha b hb
    rcases List.mem_map.mp ha with ⟨x, hx, rfl⟩
    rcases List.mem_map.mp hb with ⟨y, hy, rfl⟩
    rw [hB y hy]
    exact le_trans (hA.2 x hx) hcd
  · intro x hx
    rcases List.mem_append.mp hx with h | h
    · exact le_trans (hA.2 x h) hcd
    · rw [hB x h]

theorem sorted_base {f : Stmt → Nat} {A : List Stmt} {c : Nat} (h : ∀ a ∈ A, f a = c) :
    List.Sorted (fun a b => a ≤ b) (A.map f) ∧ ∀ x ∈ A, f x ≤ c :=
  ⟨sorted_map_of_const h, fun x hx => le_of_eq (h x hx)⟩

theorem ghActor_actorInsert {a : Option GhUser} {mh : String → String} :
    ∀ s ∈ ghActor a mh, isActorInsert s = true := by
  intro s hs
  cases a with
  | none => cases hs
  | some u =>
    cases hl : u.Login with
    | none => simp [ghActor, hl] at hs
    | some l =>
      simp [ghActor, hl] at hs
      subst hs
      rfl

theorem foldr_ghActor_actorInsert {as : List (Option GhUser)} {mh : String → String} :
    ∀ s ∈ as.foldr (fun a acc => ghActor a mh ++ acc) [], isActorInsert s = true := by
  induction as with
  | nil => intro s hs; cases hs
  | cons a t ih =>
    intro s hs
    rcases List.mem_append.mp hs with h | h
    · exact ghActor_actorInsert s h
    · exact ih s h

theorem ghMilestone_shape {eid : Int} {cfg : IssueConfig} {mh : String → String}
    {l : List Stmt} (h : ghMilestone eid cfg mh = .ok l) :
    ∃ mid cid clg, l = [Stmt.insertMilestone mid eid cid clg] := by
  cases hm : cfg.GhIssue.Milestone with
  | none => simp [ghMilestone, hm, orFail, bind, Except.bind] at h
  | some m =>
    cases ha : cfg.GhEvent.Actor with
    | none => simp [ghMilestone, hm, ha, orFail, bind, Except.bind] at h
    | some a =>
      cases hl : a.Login with
      | none => simp [ghMilestone, hm, ha, hl, orFail, bind, Except.bind] at h
      | some lg =>
        simp only [ghMilestone, hm, ha, hl, orFail, bind, Except.bind, pure, Except.pure,
          Except.ok.injEq] at h
        exact ⟨_, _, _, h.symm⟩

theorem actorInsert_issueRank {s : Stmt} (h : isActorInsert s = true) :
    issueStmtRank s = 0 := by
  cases s <;> simp [isActorInsert] at h <;> rfl

theorem actorInsert_prRank {s : Stmt} (h : isActorInsert s = true) :
    prStmtRank s = 0 := by
  cases s <;> simp [isActorInsert] at h <;> rfl

/-- In every successful `ArtificialEvent` transaction the statements appear in
the order: actor upserts, snapshot insert, milestone upsert, event insert,
payload insert, label joins, assignee joins. -/
theorem claim4_issue_sorted {ctx : Ctx} {cfg : IssueConfig} {l : List Stmt}
    (h : ArtificialEvent ctx cfg = .ok l) :
    List.Sorted (fun a b => a ≤ b) (l.map issueStmtRank) := by
  by_cases hskip : ctx.SkipPDB
  · rw [ArtificialEvent, if_pos hskip] at h
    by_cases hd : ctx.Debug > 0
    · rw [if_pos hd] at h
      cases h
      simp
    · rw [if_neg hd] at h
      cases h
      simp
  · rw [ArtificialEvent, if_neg hskip] at h
    have hassemble : ∀ (ml : List Stmt), (∀ b ∈ ml, issueStmtRank b = 2) →
        ∀ (am : List Stmt), (∀ a ∈ am, isActorInsert a = true) →
        ∀ (row : GhIssueRow) (aid : Option Int),
        List.Sorted (fun a b => a ≤ b)
          (((ghActor cfg.GhIssue.Assignee (MaybeHideFunc ctx.hidden) ++
            ghActor cfg.GhIssue.User (MaybeHideFunc ctx.hidden) ++
            cfg.GhIssue.Assignees.foldr
              (fun a acc => ghActor a (MaybeHideFunc ctx.hidden) ++ acc) [] ++ am) ++
            [Stmt.insertIssue row] ++ ml ++
            [Stmt.insertEvent (int64add p48 cfg.EventID) cfg.EventType aid cfg.CreatedAt] ++
            [Stmt.insertPayload ⟨int64add p48 cfg.EventID, cfg.IssueID, none,
              cfg.GhIssue.Number⟩] ++
            cfg.LabelsMap.map (fun p =>
              Stmt.insertIssueLabel cfg.IssueID (int64add p48 cfg.EventID) p.1 p.2) ++
            cfg.AssigneesMap.map (fun p =>
              Stmt.insertIssueAssignee cfg.IssueID (int64add p48 cfg.EventID) p.1)).map
            issueStmtRank) := by
      intro ml hml am ham row aid
      have hactorRank : ∀ s ∈ (ghActor cfg.GhIssue.Assignee (MaybeHideFunc ctx.hidden) ++
          ghActor cfg.GhIssue.User (MaybeHideFunc ctx.hidden) ++
          cfg.GhIssue.Assignees.foldr
            (fun a acc => ghActor a (MaybeHideFunc ctx.hidden) ++ acc) [] ++ am),
          issueStmtRank s = 0 := by
        intro s hs
        rcases List.mem_append.mp hs with hs1 | hs1
        · rcases List.mem_append.mp hs1 with hs2 | hs2
          · rcases List.mem_append.mp hs2 with hs3 | hs3
            · exact actorInsert_issueRank (ghActor_actorInsert s hs3)
            · exact actorInsert_issueRank (ghActor_actorInsert s hs3)
          · exact actorInsert_issueRank (foldr_ghActor_actorInsert s hs2)
        · exact actorInsert_issueRank (ham s hs1)
      have c1 := sorted_chain (sorted_base hactorRank)
        (allStmts_single rfl : ∀ b ∈ [Stmt.insertIssue row], issueStmtRank b = 1) (by omega)
      have c2 := sorted_chain c1 hml (by omega)
      have c3 := sorted_chain c2
        (allStmts_single rfl : ∀ b ∈ [Stmt.insertEvent (int64add p48 cfg.EventID)
          cfg.EventType aid cfg.CreatedAt], issueStmtRank b = 3) (by omega)
      have c4 := sorted_chain c3
        (allStmts_single rfl : ∀ b ∈ [Stmt.insertPayload ⟨int64add p48 cfg.EventID,
          cfg.IssueID, none, cfg.GhIssue.Number⟩], issueStmtRank b = 4) (by omega)
      have c5 := sorted_chain c4
        (allStmts_map (fun p hp => rfl) : ∀ s ∈ cfg.LabelsMap.map (fun p =>
          Stmt.insertIssueLabel cfg.IssueID (int64add p48 cfg.EventID) p.1 p.2),
          issueStmtRank s = 5) (by omega)
      have c6 := sorted_chain c5
        (allStmts_map (fun p hp => rfl) : ∀ s ∈ cfg.AssigneesMap.map (fun p =>
          Stmt.insertIssueAssignee cfg.IssueID (int64add p48 cfg.EventID) p.1),
          issueStmtRank s = 6) (by omega)
      exact c6.1
    cases hm : cfg.GhIssue.Milestone with
    | none =>
      simp only [hm, bind, Except.bind, pure, Except.pure, Except.ok.injEq] at h
      subst h
      exact hassemble [] (fun b hb => by cases hb) [] (fun a ha => by cases ha) _ _
    | some m =>
      cases hgm : ghMilestone (int64add p48 cfg.EventID) cfg (MaybeHideFunc ctx.hidden) with
      | error e =>
        simp only [hm, hgm, bind, Except.bind] at h
        cases h
      | ok ml =>
        simp only [hm, hgm, bind, Except.bind, pure, Except.pure, Except.ok.injEq] at h
        subst h
        refine hassemble ml ?_ (ghActor m.Creator (MaybeHideFunc ctx.hidden))
          (fun a ha => ghActor_actorInsert a ha) _ _
        rcases ghMilestone_shape hgm with ⟨mid, cid, clg, rfl⟩
        exact allStmts_single rfl

theorem actor_not_in_filtered {a : Option GhUser} {mh : String → String} {s : Stmt}
    (hs : s ∈ (ghActor a mh).filter (fun x => !isActorInsert x)) : False := by
  rcases List.mem_filter.mp hs with ⟨hmem, hpred⟩
  rw [ghActor_actorInsert s hmem] at hpred
  simp at hpred

theorem matchActor_not_in_filtered {o : Option GhUser} {mh : String → String} {s : Stmt}
    (hs : s ∈ (match o with
      | some _ => ghActor o mh
      | none => ([] : List Stmt)).filter (fun x => !isActorInsert x)) : False := by
  cases o with
  | none => cases hs
  | some u => exact actor_not_in_filtered hs

theorem foldr_prAssignee_shape {as : List (Option GhUser)} {mh : String → String}
    {prid eid : Int} :
    ∀ s ∈ as.foldr (fun a acc =>
      (match a with
        | none => []
        | some u => ghActor (some u) mh ++ [Stmt.insertPRAssignee prid eid u.ID]) ++ acc) [],
      isActorInsert s = true ∨ prStmtRank s = 6 := by
  induction as with
  | nil => intro s hs; cases hs
  | cons a t ih =>
    intro s hs
    rcases List.mem_append.mp hs with h | h
    · cases a with
      | none => cases h
      | some u =>
        rcases List.mem_append.mp h with h2 | h2
        · exact Or.inl (ghActor_actorInsert s h2)
        · rcases List.mem_singleton.mp h2 with rfl
          exact Or.inr rfl
    · exact ih s h

theorem foldr_prReviewer_shape {as : List (Option GhUser)} {mh : String → String}
    {prid eid : Int} :
    ∀ s ∈ as.foldr (fun a acc =>
      (match a with
        | none => []
        | some u => ghActor (some u) mh ++ [Stmt.insertPRReviewer prid eid u.ID]) ++ acc) [],
      isActorInsert s = true ∨ prStmtRank s = 6 := by
  induction as with
  | nil => intro s hs; cases hs
  | cons a t ih =>
    intro s hs
    rcases List.mem_append.mp hs with h | h
    · cases a with
      | none => cases h
      | some u =>
        rcases List.mem_append.mp h with h2 | h2
        · exact Or.inl (ghActor_actorInsert s h2)
        · rcases List.mem_singleton.mp h2 with rfl
          exact Or.inr rfl
    · exact ih s h

/-- In every successful `ArtificialPREvent` transaction the non-actor
statements appear in the order: milestone upsert, snapshot insert, event
insert, payload insert, payload update, join inserts (the actor upserts for
join rows are interleaved with the join inserts). -/
theorem claim4_pr_sorted {ctx : Ctx} {cfg : IssueConfig} {pr : GhPullRequest}
    {l : List Stmt} (h : ArtificialPREvent ctx cfg pr = .ok l) :
    List.Sorted (fun a b => a ≤ b)
      ((l.filter (fun s => !isActorInsert s)).map prStmtRank) := by
  by_cases hskip : ctx.SkipPDB
  · rw [ArtificialPREvent, if_pos hskip] at h
    by_cases hd : ctx.Debug > 0
    · rw [if_pos hd] at h
      cases h
      simp [isActorInsert]
    · rw [if_neg hd] at h
      cases h
      simp
  · rw [ArtificialPREvent, if_neg hskip] at h
    cases hiid : cfg.GhIssue.ID with
    | none =>
      simp only [hiid, orFail, bind, Except.bind] at h
      cases h
    | some iidv =>
      cases hpid : pr.ID with
      | none =>
        cases hm : pr.Milestone with
        | none =>
          simp only [hiid, hpid, hm, orFail, bind, Except.bind, pure, Except.pure] at h
          cases h
        | some m =>
          cases hgm : ghMilestone (int64add p48 cfg.EventID) cfg (MaybeHideFunc ctx.hidden) with
          | error e =>
            simp only [hiid, hpid, hm, hgm, orFail, bind, Except.bind] at h
            cases h
          | ok ml =>
            simp only [hiid, hpid, hm, hgm, orFail, bind, Except.bind] at h
            cases h
      | some pidv =>
        have hassemble : ∀ (ml : List Stmt), (∀ b ∈ ml, prStmtRank b = 1) →
            ∀ (row : GhPullRequestRow) (aid : Option Int),
            List.Sorted (fun a b => a ≤ b)
              (((ghActor pr.User (MaybeHideFunc ctx.hidden) ++
                (match pr.MergedBy with
                  | some _ => ghActor pr.MergedBy (MaybeHideFunc ctx.hidden)
                  | none => []) ++
                (match pr.Assignee with
                  | some _ => ghActor pr.Assignee (MaybeHideFunc ctx.hidden)
                  | none => []) ++ ml ++
                [Stmt.insertPullRequest row] ++
                [Stmt.insertEvent (int64add p48 cfg.EventID) cfg.EventType aid cfg.CreatedAt] ++
                [Stmt.insertPayload ⟨int64add p48 cfg.EventID, iidv, some pidv,
                  cfg.GhIssue.Number⟩] ++
                [Stmt.updatePayloadPRID pidv iidv (int64add p48 cfg.EventID)] ++
                pr.Assignees.foldr (fun a acc =>
                  (match a with
                    | none => []
                    | some u => ghActor (some u) (MaybeHideFunc ctx.hidden) ++
                        [Stmt.insertPRAssignee pidv (int64add p48 cfg.EventID) u.ID]) ++ acc) [] ++
                pr.RequestedReviewers.foldr (fun a acc =>
                  (match a with
                    | none => []
                    | some u => ghActor (some u) (MaybeHideFunc ctx.hidden) ++
                        [Stmt.insertPRReviewer pidv (int64add p48 cfg.EventID) u.ID]) ++ acc)
                  []).filter (fun s => !isActorInsert s)).map prStmtRank) := by
          intro ml hml row aid
          simp only [List.filter_append]
          have c0 : List.Sorted (fun a b => a ≤ b)
              ((((ghActor pr.User (MaybeHideFunc ctx.hidden)).filter
                (fun s => !isActorInsert s)).map prStmtRank)) ∧
              ∀ x ∈ (ghActor pr.User (MaybeHideFunc ctx.hidden)).filter
                (fun s => !isActorInsert s), prStmtRank x ≤ 0 :=
            sorted_base (fun a ha => absurd ha (fun hc => actor_not_in_filtered hc))
          have c1 := sorted_chain c0
            ((fun b hb => absurd hb (fun hc => matchActor_not_in_filtered hc)) :
              ∀ b ∈ (match pr.MergedBy with
                | some _ => ghActor pr.MergedBy (MaybeHideFunc ctx.hidden)
                | none => ([] : List Stmt)).filter (fun s => !isActorInsert s),
                prStmtRank b = 0) (by omega)
          have c2 := sorted_chain c1
            ((fun b hb => absurd hb (fun hc => matchActor_not_in_filtered hc)) :
              ∀ b ∈ (match pr.Assignee with
                | some _ => ghActor pr.Assignee (MaybeHideFunc ctx.hidden)
                | none => ([] : List Stmt)).filter (fun s => !isActorInsert s),
                prStmtRank b = 0) (by omega)
          have c3 := sorted_chain c2
            ((fun b hb => hml b (List.mem_filter.mp hb).1) :
              ∀ b ∈ ml.filter (fun s => !isActorInsert s), prStmtRank b = 1) (by omega)
          have c4 := sorted_chain c3
            ((fun b hb => by
              rcases List.mem_singleton.mp (List.mem_filter.mp hb).1 with rfl
              rfl) :
              ∀ b ∈ [Stmt.insertPullRequest row].filter (fun s => !isActorInsert s),
                prStmtRank b = 2) (by omega)
          have c5 := sorted_chain c4
            ((fun b hb => by
              rcases List.mem_singleton.mp (List.mem_filter.mp hb).1 with rfl
              rfl) :
              ∀ b ∈ [Stmt.insertEvent (int64add p48 cfg.EventID) cfg.EventType aid
                cfg.CreatedAt].filter (fun s => !isActorInsert s),
                prStmtRank b = 3) (by omega)
          have c6 := sorted_chain c5
            ((fun b hb => by
              rcases List.mem_singleton.mp (List.mem_filter.mp hb).1 with rfl
              rfl) :
              ∀ b ∈ [Stmt.insertPayload ⟨int64add p48 cfg.EventID, iidv, some pidv,
                cfg.GhIssue.Number⟩].filter (fun s => !isActorInsert s),
                prStmtRank b = 4) (by omega)
          have c7 := sorted_chain c6
            ((fun b hb => by
              rcases List.mem_singleton.mp (List.mem_filter.mp hb).1 with rfl
              rfl) :
              ∀ b ∈ [Stmt.updatePayloadPRID pidv iidv (int64add p48 cfg.EventID)].filter
                (fun s => !isActorInsert s),
                prStmtRank b = 5) (by omega)
          have c8 := sorted_chain c7
            ((fun b hb => by
              rcases List.mem_filter.mp hb with ⟨hmem, hpred⟩
              rcases foldr_prAssignee_shape b hmem with hact | hrank
              · rw [hact] at hpred
                simp at hpred
              · exact hrank) :
              ∀ b ∈ (pr.Assignees.foldr (fun a acc =>
                (match a with
                  | none => []
                  | some u => ghActor (some u) (MaybeHideFunc ctx.hidden) ++
                      [Stmt.insertPRAssignee pidv (int64add p48 cfg.EventID) u.ID]) ++ acc)
                []).filter (fun s => !isActorInsert s),
                prStmtRank b = 6) (by omega)
          have c9 := sorted_chain c8
            ((fun b hb => by
              rcases List.mem_filter.mp hb with ⟨hmem, hpred⟩
              rcases foldr_prReviewer_shape b hmem with hact | hrank
              · rw [hact] at hpred
                simp at hpred
              · exact hrank) :
              ∀ b ∈ (pr.RequestedReviewers.foldr (fun a acc =>
                (match a with
                  | none => []
                  | some u => ghActor (some u) (MaybeHideFunc ctx.hidden) ++
                      [Stmt.insertPRReviewer pidv (int64add p48 cfg.EventID) u.ID]) ++ acc)
                []).filter (fun s => !isActorInsert s),
                prStmtRank b = 6) (by omega)
          exact c9.1
        cases hact : cfg.GhEvent.Actor with
        | none =>
          cases hm : pr.Milestone with
          | none =>
            simp only [hiid, hpid, hm, hact, orFail, bind, Except.bind, pure, Except.pure] at h
            cases h
          | some m =>
            cases hgm : ghMilestone (int64add p48 cfg.EventID) cfg (MaybeHideFunc ctx.hidden) with
            | error e =>
              simp only [hiid, hpid, hm, hgm, hact, orFail, bind, Except.bind] at h
              cases h
            | ok ml =>
              simp only [hiid, hpid, hm, hgm, hact, orFail, bind, Except.bind] at h
              cases h
        | some act =>
          cases hm : pr.Milestone with
          | none =>
            simp only [hiid, hpid, hm, hact, orFail, bind, Except.bind, pure, Except.pure,
              Except.ok.injEq] at h
            subst h
            exact hassemble [] (fun b hb => by cases hb) _ _
          | some m =>
            cases hgm : ghMilestone (int64add p48 cfg.EventID) cfg (MaybeHideFunc ctx.hidden) with
            | error e =>
              simp only [hiid, hpid, hm, hgm, hact, orFail, bind, Except.bind] at h
              cases h
            | ok ml =>
              simp only [hiid, hpid, hm, hgm, hact, orFail, bind, Except.bind, pure,
                Except.pure, Except.ok.injEq] at h
              subst h
              refine hassemble ml ?_ _ _
              rcases ghMilestone_shape hgm with ⟨mid, cid, clg, rfl⟩
              exact allStmts_single rfl

/-- The statement list of a successful writer invocation. -/
def okStmts (r : Except RunFail (List Stmt)) : List Stmt :=
  match r with
  | .ok x => x
  | .error _ => []


theorem nest_step {α : Type} {Y base : List α} (w : List α)
    (h : ∃ t, Y = base ++ t) : ∃ t, Y ++ w = base ++ t := by
  obtain ⟨t, ht⟩ := h
  exact ⟨t ++ w, by rw [ht, List.append_assoc]⟩

theorem matchActor_actorInsert {o : Option GhUser} {mh : String → String} :
    ∀ s ∈ (match o with
      | some _ => ghActor o mh
      | none => ([] : List Stmt)), isActorInsert s = true := by
  cases o with
  | none => intro s hs; cases hs
  | some u => exact ghActor_actorInsert

/-- In every successful non-skip `ArtificialPREvent` transaction the top-level
actor upserts (user, merged-by, assignee) form a prefix of the statement
list. -/
theorem claim4_pr_actors_prefix {ctx : Ctx} {cfg : IssueConfig} {pr : GhPullRequest}
    {lp : List Stmt} (hskip : ctx.SkipPDB = false)
    (h : ArtificialPREvent ctx cfg pr = .ok lp) :
    ∃ rest, lp = ghActor pr.User (MaybeHideFunc ctx.hidden) ++
      (match pr.MergedBy with
        | some _ => ghActor pr.MergedBy (MaybeHideFunc ctx.hidden)
        | none => []) ++
      (match pr.Assignee with
        | some _ => ghActor pr.Assignee (MaybeHideFunc ctx.hidden)
        | none => []) ++ rest := by
  rw [ArtificialPREvent, if_neg (by rw [hskip]; exact Bool.false_ne_true)] at h
  cases hiid : cfg.GhIssue.ID with
  | none =>
    simp only [hiid, orFail, bind, Except.bind] at h
    cases h
  | some iidv =>
  cases hprm : pr.Milestone with
  | none =>
    cases hpid : pr.ID with
    | none =>
      simp only [hiid, hprm, hpid, orFail, bind, Except.bind, pure, Except.pure] at h
      cases h
    | some prid =>
      cases ha : cfg.GhEvent.Actor with
      | none =>
        simp only [hiid, hprm, hpid, ha, orFail, bind, Except.bind, pure,
          Except.pure] at h
        cases h
      | some act =>
        simp only [hiid, hprm, hpid, ha, orFail, bind, Except.bind, pure,
          Except.pure, Except.ok.injEq] at h
        subst h
        exact nest_step _ (nest_step _ (nest_step _ (nest_step _ (nest_step _
          (nest_step _ ⟨[], rfl⟩)))))
  | some m =>
    cases hgm : ghMilestone (int64add p48 cfg.EventID) cfg (MaybeHideFunc ctx.hidden) with
    | error e =>
      simp only [hiid, hprm, hgm, orFail, bind, Except.bind] at h
      cases h
    | ok ml =>
      cases hpid : pr.ID with
      | none =>
        simp only [hiid, hprm, hgm, hpid, orFail, bind, Except.bind, pure,
          Except.pure] at h
        cases h
      | some prid =>
        cases ha : cfg.GhEvent.Actor with
        | none =>
          simp only [hiid, hprm, hgm, hpid, ha, orFail, bind, Except.bind, pure,
            Except.pure] at h
          cases h
        | some act =>
          simp only [hiid, hprm, hgm, hpid, ha, orFail, bind, Except.bind, pure,
            Except.pure, Except.ok.injEq] at h
          subst h
          exact nest_step _ (nest_step _ (nest_step _ (nest_step _ (nest_step _
            (nest_step _ ⟨ml, rfl⟩)))))

/-- C4 amended: in every writer transaction the statements are ordered as the
code issues them: for issues, actor upserts, then the snapshot insert, then
the milestone upsert (when attached), then the event insert, then the payload
insert, then the join rows; for PRs, the top-level actor upserts (user,
merged-by, assignee) form a prefix of the non-skip transaction, and,
ignoring the per-join-row actor upserts, the remaining statements are ordered
milestone upsert, snapshot insert, event insert, payload insert, payload
update, join rows. -/
theorem claim4_statement_order (ctx : Ctx) (cfg : IssueConfig) (pr : GhPullRequest)
    (l lp : List Stmt)
    (hl : ArtificialEvent ctx cfg = .ok l)
    (hlp : ArtificialPREvent ctx cfg pr = .ok lp) :
    List.Sorted (fun a b => a ≤ b) (l.map issueStmtRank) ∧
    List.Sorted (fun a b => a ≤ b)
      ((lp.filter (fun s => !isActorInsert s)).map prStmtRank) ∧
    (ctx.SkipPDB = false →
      ∃ rest, lp = ghActor pr.User (MaybeHideFunc ctx.hidden) ++
        (match pr.MergedBy with
          | some _ => ghActor pr.MergedBy (MaybeHideFunc ctx.hidden)
          | none => []) ++
        (match pr.Assignee with
          | some _ => ghActor pr.Assignee (MaybeHideFunc ctx.hidden)
          | none => []) ++ rest ∧
        (∀ s ∈ ghActor pr.User (MaybeHideFunc ctx.hidden) ++
          (match pr.MergedBy with
            | some _ => ghActor pr.MergedBy (MaybeHideFunc ctx.hidden)
            | none => []) ++
          (match pr.Assignee with
            | some _ => ghActor pr.Assignee (MaybeHideFunc ctx.hidden)
            | none => []), isActorInsert s = true)) := by
  refine ⟨claim4_issue_sorted hl, claim4_pr_sorted hlp, fun hskip => ?_⟩
  obtain ⟨rest, hrest⟩ := claim4_pr_actors_prefix hskip hlp
  exact ⟨rest, hrest, allStmts_append (allStmts_append ghActor_actorInsert
    matchActor_actorInsert) matchActor_actorInsert⟩

/-- Witness for C4 at a concrete milestone-carrying candidate. -/
theorem claim4_statement_order_witness :
    List.Sorted (fun a b => a ≤ b)
      ((okStmts (ArtificialEvent ctxPlain cfgMil)).map issueStmtRank) ∧
    List.Sorted (fun a b => a ≤ b)
      (((okStmts (ArtificialPREvent ctxPlain cfgMil basePR)).filter
        (fun s => !isActorInsert s)).map prStmtRank) ∧
    (ctxPlain.SkipPDB = false →
      ∃ rest, okStmts (ArtificialPREvent ctxPlain cfgMil basePR) =
        ghActor basePR.User (MaybeHideFunc ctxPlain.hidden) ++
        (match basePR.MergedBy with
          | some _ => ghActor basePR.MergedBy (MaybeHideFunc ctxPlain.hidden)
          | none => []) ++
        (match basePR.Assignee with
          | some _ => ghActor basePR.Assignee (MaybeHideFunc ctxPlain.hidden)
          | none => []) ++ rest ∧
        (∀ s ∈ ghActor basePR.User (MaybeHideFunc ctxPlain.hidden) ++
          (match basePR.MergedBy with
            | some _ => ghActor basePR.MergedBy (MaybeHideFunc ctxPlain.hidden)
            | none => []) ++
          (match basePR.Assignee with
            | some _ => ghActor basePR.Assignee (MaybeHideFunc ctxPlain.hidden)
            | none => []), isActorInsert s = true)) :=
  claim4_statement_order ctxPlain cfgMil basePR _ _ (by decide) (by decide)


/-! ### Claim C7: declared actors are upserted in the same transaction -/

/-- The actor ids a statement declares through the columns the claim lists:
user, assignee, merged-by, per-assignee, per-reviewer and milestone creator
references.  Actor upserts, events, payloads and label rows declare none. -/
def stmtDeclaredActorIds : Stmt → List Int
  | .insertIssue r => r.assignee_id.toList ++ r.user_id.toList
  | .insertPullRequest r => r.user_id.toList ++ r.merged_by_id.toList ++ r.assignee_id.toList
  | .insertMilestone _ _ cid _ => cid.toList
  | .insertIssueAssignee _ _ aid => [aid]
  | .insertPRAssignee _ _ aid => aid.toList
  | .insertPRReviewer _ _ rid => rid.toList
  | _ => []

/-- All actor ids declared by the rows of a bundle. -/
def traceDeclaredActorIds (l : List Stmt) : List Int := l.flatMap stmtDeclaredActorIds

/-- All non-NULL ids inserted into `gha_actors` by a bundle. -/
def traceInsertedActorIds (l : List Stmt) : List Int :=
  l.filterMap (fun s => match s with
    | .insertActor i _ => i
    | _ => none)

theorem mem_inserted_ghActor {u : GhUser} {mh : String → String} {i : Int} {lg : String}
    (hid : u.ID = some i) (hlg : u.Login = some lg) :
    i ∈ traceInsertedActorIds (ghActor (some u) mh) := by
  simp [ghActor, hlg, traceInsertedActorIds, hid]

theorem mem_inserted_foldr {as : List (Option GhUser)} {mh : String → String}
    {u : GhUser} {i : Int} {lg : String}
    (hm : some u ∈ as) (hid : u.ID = some i) (hlg : u.Login = some lg) :
    i ∈ traceInsertedActorIds (as.foldr (fun a acc => ghActor a mh ++ acc) []) := by
  induction as with
  | nil => cases hm
  | cons a t ih =>
    simp only [List.foldr_cons, traceInsertedActorIds, List.filterMap_append,
      List.mem_append]
    rcases List.mem_cons.mp hm with rfl | hmem
    · exact Or.inl (mem_inserted_ghActor hid hlg)
    · exact Or.inr (ih hmem)

theorem declared_actorInsert {s : Stmt} (h : isActorInsert s = true) :
    stmtDeclaredActorIds s = [] := by
  cases s <;> simp [isActorInsert] at h <;> rfl

theorem inserted_mono_left {A B : List Stmt} {i : Int}
    (h : i ∈ traceInsertedActorIds A) : i ∈ traceInsertedActorIds (A ++ B) := by
  simp only [traceInsertedActorIds, List.filterMap_append, List.mem_append]
  exact Or.inl h

theorem inserted_mono_right {A B : List Stmt} {i : Int}
    (h : i ∈ traceInsertedActorIds B) : i ∈ traceInsertedActorIds (A ++ B) := by
  simp only [traceInsertedActorIds, List.filterMap_append, List.mem_append]
  exact Or.inr h

theorem ghMilestone_shape_full {eid : Int} {cfg : IssueConfig} {mh : String → String}
    {l : List Stmt} (h : ghMilestone eid cfg mh = .ok l) :
    ∃ m, cfg.GhIssue.Milestone = some m ∧
      l = [Stmt.insertMilestone cfg.MilestoneID eid (ghActorIDOrNil m.Creator)
        (ghActorLoginOrNil m.Creator mh)] := by
  cases hm : cfg.GhIssue.Milestone with
  | none => simp [ghMilestone, hm, orFail, bind, Except.bind] at h
  | some m =>
    cases ha : cfg.GhEvent.Actor with
    | none => simp [ghMilestone, hm, ha, orFail, bind, Except.bind] at h
    | some a =>
      cases hl : a.Login with
      | none => simp [ghMilestone, hm, ha, hl, orFail, bind, Except.bind] at h
      | some lg =>
        simp only [ghMilestone, hm, ha, hl, orFail, bind, Except.bind, pure, Except.pure,
          Except.ok.injEq] at h
        exact ⟨m, rfl, h.symm⟩

/-- Issue-bundle actor coverage: when every referenced actor that carries an
id also carries a login, and the assignee map keys come from the slice of
remote assignees, every declared actor id has an actor upsert in the same
transaction. -/
theorem claim7_issue_cover {ctx : Ctx} {cfg : IssueConfig} {l : List Stmt}
    (h : ArtificialEvent ctx cfg = .ok l)
    (hA : ∀ u, cfg.GhIssue.Assignee = some u → u.ID.isSome → u.Login.isSome)
    (hU : ∀ u, cfg.GhIssue.User = some u → u.ID.isSome → u.Login.isSome)
    (hMC : ∀ m, cfg.GhIssue.Milestone = some m → ∀ u, m.Creator = some u →
      u.ID.isSome → u.Login.isSome)
    (hAM : ∀ p ∈ cfg.AssigneesMap, ∃ u, some u ∈ cfg.GhIssue.Assignees ∧
      u.ID = some p.1 ∧ u.Login.isSome) :
    ∀ i ∈ traceDeclaredActorIds l, i ∈ traceInsertedActorIds l := by
  by_cases hskip : ctx.SkipPDB
  · rw [ArtificialEvent, if_pos hskip] at h
    by_cases hd : ctx.Debug > 0
    · rw [if_pos hd] at h
      cases h
      intro i hi
      simp [traceDeclaredActorIds, stmtDeclaredActorIds] at hi
    · rw [if_neg hd] at h
      cases h
      intro i hi
      simp [traceDeclaredActorIds] at hi
  · rw [ArtificialEvent, if_neg hskip] at h
    have main : ∀ (ml : List Stmt),
        (∀ i ∈ traceDeclaredActorIds ml,
          i ∈ traceInsertedActorIds (match cfg.GhIssue.Milestone with
            | some m => ghActor m.Creator (MaybeHideFunc ctx.hidden)
            | none => [])) →
        ∀ i ∈ traceDeclaredActorIds
          ((ghActor cfg.GhIssue.Assignee (MaybeHideFunc ctx.hidden) ++
            ghActor cfg.GhIssue.User (MaybeHideFunc ctx.hidden) ++
            cfg.GhIssue.Assignees.foldr
              (fun a acc => ghActor a (MaybeHideFunc ctx.hidden) ++ acc) [] ++
            (match cfg.GhIssue.Milestone with
              | some m => ghActor m.Creator (MaybeHideFunc ctx.hidden)
              | none => [])) ++
            [Stmt.insertIssue
              { id := cfg.IssueID, event_id := int64add p48 cfg.EventID,
                updated_at := some cfg.CreatedAt,
                assignee_id := ghActorIDOrNil cfg.GhIssue.Assignee,
                closed_at := cfg.GhIssue.ClosedAt, locked := cfg.GhIssue.Locked,
                milestone_id := ghMilestoneIDOrNil cfg.GhIssue.Milestone,
                number := cfg.GhIssue.Number, state := cfg.GhIssue.State,
                title := cfg.GhIssue.Title,
                user_id := ghActorIDOrNil cfg.GhIssue.User }] ++ ml ++
            [Stmt.insertEvent (int64add p48 cfg.EventID) cfg.EventType
              (ghActorIDOrNil cfg.GhEvent.Actor) cfg.CreatedAt] ++
            [Stmt.insertPayload ⟨int64add p48 cfg.EventID, cfg.IssueID, none,
              cfg.GhIssue.Number⟩] ++
            cfg.LabelsMap.map (fun p =>
              Stmt.insertIssueLabel cfg.IssueID (int64add p48 cfg.EventID) p.1 p.2) ++
            cfg.AssigneesMap.map (fun p =>
              Stmt.insertIssueAssignee cfg.IssueID (int64add p48 cfg.EventID) p.1)),
          i ∈ traceInsertedActorIds
          ((ghActor cfg.GhIssue.Assignee (MaybeHideFunc ctx.hidden) ++
            ghActor cfg.GhIssue.User (MaybeHideFunc ctx.hidden) ++
            cfg.GhIssue.Assignees.foldr
              (fun a acc => ghActor a (MaybeHideFunc ctx.hidden) ++ acc) [] ++
            (match cfg.GhIssue.Milestone with
              | some m => ghActor m.Creator (MaybeHideFunc ctx.hidden)
              | none => [])) ++
            [Stmt.insertIssue
              { id := cfg.IssueID, event_id := int64add p48 cfg.EventID,
                updated_at := some cfg.CreatedAt,
                assignee_id := ghActorIDOrNil cfg.GhIssue.Assignee,
                closed_at := cfg.GhIssue.ClosedAt, locked := cfg.GhIssue.Locked,
                milestone_id := ghMilestoneIDOrNil cfg.GhIssue.Milestone,
                number := cfg.GhIssue.Number, state := cfg.GhIssue.State,
                title := cfg.GhIssue.Title,
                user_id := ghActorIDOrNil cfg.GhIssue.User }] ++ ml ++
            [Stmt.insertEvent (int64add p48 cfg.EventID) cfg.EventType
              (ghActorIDOrNil cfg.GhEvent.Actor) cfg.CreatedAt] ++
            [Stmt.insertPayload ⟨int64add p48 cfg.EventID, cfg.IssueID, none,
              cfg.GhIssue.Number⟩] ++
            cfg.LabelsMap.map (fun p =>
              Stmt.insertIssueLabel cfg.IssueID (int64add p48 cfg.EventID) p.1 p.2) ++
            cfg.AssigneesMap.map (fun p =>
              Stmt.insertIssueAssignee cfg.IssueID (int64add p48 cfg.EventID) p.1)) := by
      intro ml hml i hi
      rcases List.mem_flatMap.mp hi with ⟨s, hs, hd⟩
      rcases List.mem_append.mp hs with hs1 | hs1
      rotate_left
      · -- assignee join rows
        rcases List.mem_map.mp hs1 with ⟨p, hp, rfl⟩
        simp only [stmtDeclaredActorIds, List.mem_singleton] at hd
        subst hd
        rcases hAM p hp with ⟨u, humem, huid, hulogin⟩
        rcases Option.isSome_iff_exists.mp hulogin with ⟨lg, hlg⟩
        refine inserted_mono_left (inserted_mono_left (inserted_mono_left
          (inserted_mono_left (inserted_mono_left (inserted_mono_left ?_)))))
        refine inserted_mono_left (inserted_mono_right ?_)
        exact mem_inserted_foldr humem huid hlg
      rcases List.mem_append.mp hs1 with hs2 | hs2
      rotate_left
      · -- label rows declare no actors
        rcases List.mem_map.mp hs2 with ⟨p, hp, rfl⟩
        cases hd
      rcases List.mem_append.mp hs2 with hs3 | hs3
      rotate_left
      · -- payload row declares no actors
        rcases List.mem_singleton.mp hs3 with rfl
        cases hd
      rcases List.mem_append.mp hs3 with hs4 | hs4
      rotate_left
      · -- event row declares no actors
        rcases List.mem_singleton.mp hs4 with rfl
        cases hd
      rcases List.mem_append.mp hs4 with hs5 | hs5
      rotate_left
      · -- milestone block
        have := hml i (List.mem_flatMap.mpr ⟨s, hs5, hd⟩)
        refine inserted_mono_left (inserted_mono_left (inserted_mono_left
          (inserted_mono_left (inserted_mono_left (inserted_mono_left
            (inserted_mono_right this))))))
      rcases List.mem_append.mp hs5 with hs6 | hs6
      rotate_left
      · -- snapshot row: assignee and user ids
        rcases List.mem_singleton.mp hs6 with rfl
        simp only [stmtDeclaredActorIds, List.mem_append, Option.mem_toList,
          Option.mem_def] at hd
        rcases hd with hd | hd
        · rcases Option.bind_eq_some.mp hd with ⟨u, hus, huid⟩
          rcases Option.isSome_iff_exists.mp
            (hA u hus (Option.isSome_iff_exists.mpr ⟨i, huid⟩)) with ⟨lg, hlg⟩
          refine inserted_mono_left (inserted_mono_left (inserted_mono_left
            (inserted_mono_left (inserted_mono_left (inserted_mono_left
              (inserted_mono_left (inserted_mono_left (inserted_mono_left ?_))))))))
          rw [hus]
          exact mem_inserted_ghActor huid hlg
        · rcases Option.bind_eq_some.mp hd with ⟨u, hus, huid⟩
          rcases Option.isSome_iff_exists.mp
            (hU u hus (Option.isSome_iff_exists.mpr ⟨i, huid⟩)) with ⟨lg, hlg⟩
          refine inserted_mono_left (inserted_mono_left (inserted_mono_left
            (inserted_mono_left (inserted_mono_left (inserted_mono_left
              (inserted_mono_left (inserted_mono_left ?_)))))))
          refine inserted_mono_right ?_
          rw [hus]
          exact mem_inserted_ghActor huid hlg
      · -- actor blocks declare no actors
        have hact : isActorInsert s = true := by
          rcases List.mem_append.mp hs6 with ha1 | ha1
          · rcases List.mem_append.mp ha1 with ha2 | ha2
            · rcases List.mem_append.mp ha2 with ha3 | ha3
              · exact ghActor_actorInsert s ha3
              · exact ghActor_actorInsert s ha3
            · exact foldr_ghActor_actorInsert s ha2
          · cases hmm : cfg.GhIssue.Milestone with
            | none => rw [hmm] at ha1; cases ha1
            | some m => rw [hmm] at ha1; exact ghActor_actorInsert s ha1
        rw [declared_actorInsert hact] at hd
        cases hd
    cases hm : cfg.GhIssue.Milestone with
    | none =>
      simp only [hm, bind, Except.bind, pure, Except.pure, Except.ok.injEq] at h
      subst h
      intro i hi
      have := main [] (fun j hj => by simp [traceDeclaredActorIds] at hj)
      rw [hm] at this
      exact this i hi
    | some m =>
      cases hgm : ghMilestone (int64add p48 cfg.EventID) cfg (MaybeHideFunc ctx.hidden) with
      | error e =>
        simp only [hm, hgm, bind, Except.bind] at h
        cases h
      | ok ml =>
        simp only [hm, hgm, bind, Except.bind, pure, Except.pure, Except.ok.injEq] at h
        subst h
        intro i hi
        have hmlcover : ∀ j ∈ traceDeclaredActorIds ml,
            j ∈ traceInsertedActorIds (ghActor m.Creator (MaybeHideFunc ctx.hidden)) := by
          intro j hj
          rcases ghMilestone_shape_full hgm with ⟨m2, hm2, rfl⟩
          rw [hm] at hm2
          cases hm2
          simp only [traceDeclaredActorIds, List.flatMap_cons, List.flatMap_nil,
            List.append_nil, stmtDeclaredActorIds, Option.mem_toList, Option.mem_def] at hj
          rcases Option.bind_eq_some.mp hj with ⟨u, hus, huid⟩
          rcases Option.isSome_iff_exists.mp
            (hMC m hm u hus (Option.isSome_iff_exists.mpr ⟨j, huid⟩)) with ⟨lg, hlg⟩
          rw [hus]
          exact mem_inserted_ghActor huid hlg
        have := main ml (by rw [hm]; exact hmlcover)
        rw [hm] at this
        exact this i hi

theorem foldr_prAssignee_cover {as : List (Option GhUser)} {mh : String → String}
    {prid eid : Int}
    (hJ : ∀ u, some u ∈ as → u.ID.isSome → u.Login.isSome) :
    ∀ i ∈ traceDeclaredActorIds (as.foldr (fun a acc =>
      (match a with
        | none => []
        | some u => ghActor (some u) mh ++ [Stmt.insertPRAssignee prid eid u.ID]) ++ acc) []),
      i ∈ traceInsertedActorIds (as.foldr (fun a acc =>
      (match a with
        | none => []
        | some u => ghActor (some u) mh ++ [Stmt.insertPRAssignee prid eid u.ID]) ++ acc) []) := by
  induction as with
  | nil => intro i hi; cases hi
  | cons a t ih =>
    intro i hi
    simp only [List.foldr_cons] at hi ⊢
    rcases List.mem_flatMap.mp hi with ⟨s, hs, hd⟩
    rcases List.mem_append.mp hs with h1 | h1
    · cases a with
      | none => cases h1
      | some u =>
        rcases List.mem_append.mp h1 with h2 | h2
        · rw [declared_actorInsert (ghActor_actorInsert s h2)] at hd
          cases hd
        · rcases List.mem_singleton.mp h2 with rfl
          simp only [stmtDeclaredActorIds, Option.mem_toList, Option.mem_def] at hd
          rcases Option.isSome_iff_exists.mp
            (hJ u (List.mem_cons_self _ _) (Option.isSome_iff_exists.mpr ⟨i, hd⟩))
            with ⟨lg, hlg⟩
          exact inserted_mono_left (inserted_mono_left (mem_inserted_ghActor hd hlg))
    · have := ih (fun u hu => hJ u (List.mem_cons_of_mem _ hu)) i
        (List.mem_flatMap.mpr ⟨s, h1, hd⟩)
      exact inserted_mono_right this

theorem foldr_prReviewer_cover {as : List (Option GhUser)} {mh : String → String}
    {prid eid : Int}
    (hJ : ∀ u, some u ∈ as → u.ID.isSome → u.Login.isSome) :
    ∀ i ∈ traceDeclaredActorIds (as.foldr (fun a acc =>
      (match a with
        | none => []
        | some u => ghActor (some u) mh ++ [Stmt.insertPRReviewer prid eid u.ID]) ++ acc) []),
      i ∈ traceInsertedActorIds (as.foldr (fun a acc =>
      (match a with
        | none => []
        | some u => ghActor (some u) mh ++ [Stmt.insertPRReviewer prid eid u.ID]) ++ acc) []) := by
  induction as with
  | nil => intro i hi; cases hi
  | cons a t ih =>
    intro i hi
    simp only [List.foldr_cons] at hi ⊢
    rcases List.mem_flatMap.mp hi with ⟨s, hs, hd⟩
    rcases List.mem_append.mp hs with h1 | h1
    · cases a with
      | none => cases h1
      | some u =>
        rcases List.mem_append.mp h1 with h2 | h2
        · rw [declared_actorInsert (ghActor_actorInsert s h2)] at hd
          cases hd
        · rcases List.mem_singleton.mp h2 with rfl
          simp only [stmtDeclaredActorIds, Option.mem_toList, Option.mem_def] at hd
          rcases Option.isSome_iff_exists.mp
            (hJ u (List.mem_cons_self _ _) (Option.isSome_iff_exists.mpr ⟨i, hd⟩))
            with ⟨lg, hlg⟩
          exact inserted_mono_left (inserted_mono_left (mem_inserted_ghActor hd hlg))
    · have := ih (fun u hu => hJ u (List.mem_cons_of_mem _ hu)) i
        (List.mem_flatMap.mpr ⟨s, h1, hd⟩)
      exact inserted_mono_right this

/-- PR-bundle actor coverage: same as the issue bundle except that the
milestone creator is never upserted by `ArtificialPREvent` and escapes through
the right disjunct. -/
theorem claim7_pr_cover {ctx : Ctx} {cfg : IssueConfig} {pr : GhPullRequest} {l : List Stmt}
    (h : ArtificialPREvent ctx cfg pr = .ok l)
    (hPU : ∀ u, pr.User = some u → u.ID.isSome → u.Login.isSome)
    (hPMB : ∀ u, pr.MergedBy = some u → u.ID.isSome → u.Login.isSome)
    (hPA : ∀ u, pr.Assignee = some u → u.ID.isSome → u.Login.isSome)
    (hJA : ∀ u, some u ∈ pr.Assignees → u.ID.isSome → u.Login.isSome)
    (hJR : ∀ u, some u ∈ pr.RequestedReviewers → u.ID.isSome → u.Login.isSome) :
    ∀ i ∈ traceDeclaredActorIds l,
      i ∈ traceInsertedActorIds l ∨
      (cfg.GhIssue.Milestone.bind GhMilestone.Creator).bind GhUser.ID = some i := by
  by_cases hskip : ctx.SkipPDB
  · rw [ArtificialPREvent, if_pos hskip] at h
    by_cases hd : ctx.Debug > 0
    · rw [if_pos hd] at h
      cases h
      intro i hi
      simp [traceDeclaredActorIds, stmtDeclaredActorIds] at hi
    · rw [if_neg hd] at h
      cases h
      intro i hi
      simp [traceDeclaredActorIds] at hi
  · rw [ArtificialPREvent, if_neg hskip] at h
    cases hiid : cfg.GhIssue.ID with
    | none =>
      simp only [hiid, orFail, bind, Except.bind] at h
      cases h
    | some iidv =>
      cases hpid : pr.ID with
      | none =>
        cases hm : pr.Milestone with
        | none =>
          simp only [hiid, hpid, hm, orFail, bind, Except.bind, pure, Except.pure] at h
          cases h
        | some m =>
          cases hgm : ghMilestone (int64add p48 cfg.EventID) cfg (MaybeHideFunc ctx.hidden) with
          | error e =>
            simp only [hiid, hpid, hm, hgm, orFail, bind, Except.bind] at h
            cases h
          | ok ml =>
            simp only [hiid, hpid, hm, hgm, orFail, bind, Except.bind] at h
            cases h
      | some pidv =>
        have main : ∀ (ml : List Stmt),
            (∀ j ∈ traceDeclaredActorIds ml,
              (cfg.GhIssue.Milestone.bind GhMilestone.Creator).bind GhUser.ID = some j) →
            ∀ (row : GhPullRequestRow),
            row.user_id = ghActorIDOrNil pr.User →
            row.merged_by_id = ghActorIDOrNil pr.MergedBy →
            row.assignee_id = ghActorIDOrNil pr.Assignee →
            ∀ (aid : Option Int),
            ∀ i ∈ traceDeclaredActorIds
              (ghActor pr.User (MaybeHideFunc ctx.hidden) ++
                (match pr.MergedBy with
                  | some _ => ghActor pr.MergedBy (MaybeHideFunc ctx.hidden)
                  | none => []) ++
                (match pr.Assignee with
                  | some _ => ghActor pr.Assignee (MaybeHideFunc ctx.hidden)
                  | none => []) ++ ml ++
                [Stmt.insertPullRequest row] ++
                [Stmt.insertEvent (int64add p48 cfg.EventID) cfg.EventType aid cfg.CreatedAt] ++
                [Stmt.insertPayload ⟨int64add p48 cfg.EventID, iidv, some pidv,
                  cfg.GhIssue.Number⟩] ++
                [Stmt.updatePayloadPRID pidv iidv (int64add p48 cfg.EventID)] ++
                pr.Assignees.foldr (fun a acc =>
                  (match a with
                    | none => []
                    | some u => ghActor (some u) (MaybeHideFunc ctx.hidden) ++
                        [Stmt.insertPRAssignee pidv (int64add p48 cfg.EventID) u.ID]) ++ acc) [] ++
                pr.RequestedReviewers.foldr (fun a acc =>
                  (match a with
                    | none => []
                    | some u => ghActor (some u) (MaybeHideFunc ctx.hidden) ++
                        [Stmt.insertPRReviewer pidv (int64add p48 cfg.EventID) u.ID]) ++ acc) []),
              i ∈ traceInsertedActorIds
              (ghActor pr.User (MaybeHideFunc ctx.hidden) ++
                (match pr.MergedBy with
                  | some _ => ghActor pr.MergedBy (MaybeHideFunc ctx.hidden)
                  | none => []) ++
                (match pr.Assignee with
                  | some _ => ghActor pr.Assignee (MaybeHideFunc ctx.hidden)
                  | none => []) ++ ml ++
                [Stmt.insertPullRequest row] ++
                [Stmt.insertEvent (int64add p48 cfg.EventID) cfg.EventType aid cfg.CreatedAt] ++
                [Stmt.insertPayload ⟨int64add p48 cfg.EventID, iidv, some pidv,
                  cfg.GhIssue.Number⟩] ++
                [Stmt.updatePayloadPRID pidv iidv (int64add p48 cfg.EventID)] ++
                pr.Assignees.foldr (fun a acc =>
                  (match a with
                    | none => []
                    | some u => ghActor (some u) (MaybeHideFunc ctx.hidden) ++
                        [Stmt.insertPRAssignee pidv (int64add p48 cfg.EventID) u.ID]) ++ acc) [] ++
                pr.RequestedReviewers.foldr (fun a acc =>
                  (match a with
                    | none => []
                    | some u => ghActor (some u) (MaybeHideFunc ctx.hidden) ++
                        [Stmt.insertPRReviewer pidv (int64add p48 cfg.EventID) u.ID]) ++ acc) []) ∨
              (cfg.GhIssue.Milestone.bind GhMilestone.Creator).bind GhUser.ID = some i := by
          intro ml hml row hru hrm hra aid i hi
          rcases List.mem_flatMap.mp hi with ⟨s, hs, hd⟩
          rcases List.mem_append.mp hs with hs1 | hs1
          rotate_left
          · -- reviewer join block
            refine Or.inl (inserted_mono_right ?_)
            exact foldr_prReviewer_cover hJR i (List.mem_flatMap.mpr ⟨s, hs1, hd⟩)
          rcases List.mem_append.mp hs1 with hs2 | hs2
          rotate_left
          · -- assignee join block
            refine Or.inl (inserted_mono_left (inserted_mono_right ?_))
            exact foldr_prAssignee_cover hJA i (List.mem_flatMap.mpr ⟨s, hs2, hd⟩)
          rcases List.mem_append.mp hs2 with hs3 | hs3
          rotate_left
          · -- payload update declares no actors
            rcases List.mem_singleton.mp hs3 with rfl
            cases hd
          rcases List.mem_append.mp hs3 with hs4 | hs4
          rotate_left
          · -- payload row declares no actors
            rcases List.mem_singleton.mp hs4 with rfl
            cases hd
          rcases List.mem_append.mp hs4 with hs5 | hs5
          rotate_left
          · -- event row declares no actors
            rcases List.mem_singleton.mp hs5 with rfl
            cases hd
          rcases List.mem_append.mp hs5 with hs6 | hs6
          rotate_left
          · -- the snapshot row: user, merged-by and assignee ids
            rcases List.mem_singleton.mp hs6 with rfl
            simp only [stmtDeclaredActorIds, List.mem_append, Option.mem_toList,
              Option.mem_def, hru, hrm, hra] at hd
            rcases hd with (hd | hd) | hd
            · rcases Option.bind_eq_some.mp hd with ⟨u, hus, huid⟩
              rcases Option.isSome_iff_exists.mp
                (hPU u hus (Option.isSome_iff_exists.mpr ⟨i, huid⟩)) with ⟨lg, hlg⟩
              refine Or.inl (inserted_mono_left (inserted_mono_left (inserted_mono_left
                (inserted_mono_left (inserted_mono_left (inserted_mono_left
                  (inserted_mono_left (inserted_mono_left (inserted_mono_left ?_)))))))))
              rw [hus]
              exact mem_inserted_ghActor huid hlg
            · rcases Option.bind_eq_some.mp hd with ⟨u, hus, huid⟩
              rcases Option.isSome_iff_exists.mp
                (hPMB u hus (Option.isSome_iff_exists.mpr ⟨i, huid⟩)) with ⟨lg, hlg⟩
              refine Or.inl (inserted_mono_left (inserted_mono_left (inserted_mono_left
                (inserted_mono_left (inserted_mono_left (inserted_mono_left
                  (inserted_mono_left (inserted_mono_left (inserted_mono_right ?_)))))))))
              rw [hus]
              exact mem_inserted_ghActor huid hlg
            · rcases Option.bind_eq_some.mp hd with ⟨u, hus, huid⟩
              rcases Option.isSome_iff_exists.mp
                (hPA u hus (Option.isSome_iff_exists.mpr ⟨i, huid⟩)) with ⟨lg, hlg⟩
              refine Or.inl (inserted_mono_left (inserted_mono_left (inserted_mono_left
                (inserted_mono_left (inserted_mono_left (inserted_mono_left
                  (inserted_mono_left (inserted_mono_right ?_))))))))
              rw [hus]
              exact mem_inserted_ghActor huid hlg
          rcases List.mem_append.mp hs6 with hs7 | hs7
          rotate_left
          · -- milestone block: the creator escape
            exact Or.inr (hml i (List.mem_flatMap.mpr ⟨s, hs7, hd⟩))
          · -- the three top-level actor blocks declare no actors
            have hact : isActorInsert s = true := by
              rcases List.mem_append.mp hs7 with ha1 | ha1
              · rcases List.mem_append.mp ha1 with ha2 | ha2
                · exact ghActor_actorInsert s ha2
                · cases hmb : pr.MergedBy with
                  | none => rw [hmb] at ha2; cases ha2
                  | some u => rw [hmb] at ha2; exact ghActor_actorInsert s ha2
              · cases has : pr.Assignee with
                | none => rw [has] at ha1; cases ha1
                | some u => rw [has] at ha1; exact ghActor_actorInsert s ha1
            rw [declared_actorInsert hact] at hd
            cases hd
        cases hact : cfg.GhEvent.Actor with
        | none =>
          cases hm : pr.Milestone with
          | none =>
            simp only [hiid, hpid, hm, hact, orFail, bind, Except.bind, pure, Except.pure] at h
            cases h
          | some m =>
            cases hgm : ghMilestone (int64add p48 cfg.EventID) cfg (MaybeHideFunc ctx.hidden) with
            | error e =>
              simp only [hiid, hpid, hm, hgm, hact, orFail, bind, Except.bind] at h
              cases h
            | ok ml =>
              simp only [hiid, hpid, hm, hgm, hact, orFail, bind, Except.bind] at h
              cases h
        | some act =>
          cases hm : pr.Milestone with
          | none =>
            simp only [hiid, hpid, hm, hact, orFail, bind, Except.bind, pure, Except.pure,
              Except.ok.injEq] at h
            subst h
            exact main [] (fun j hj => by cases hj) _ rfl rfl rfl _
          | some m =>
            cases hgm : ghMilestone (int64add p48 cfg.EventID) cfg (MaybeHideFunc ctx.hidden) with
            | error e =>
              simp only [hiid, hpid, hm, hgm, hact, orFail, bind, Except.bind] at h
              cases h
            | ok ml =>
              simp only [hiid, hpid, hm, hgm, hact, orFail, bind, Except.bind, pure,
                Except.pure, Except.ok.injEq] at h
              subst h
              refine main ml ?_ _ rfl rfl rfl _
              intro j hj
              rcases ghMilestone_shape_full hgm with ⟨m2, hm2, rfl⟩
              simp only [traceDeclaredActorIds, List.flatMap_cons, List.flatMap_nil,
                List.append_nil, stmtDeclaredActorIds, Option.mem_toList,
                Option.mem_def] at hj
              rw [hm2]
              simpa using hj

/-- A PR carrying a milestone so that the writer runs the milestone upsert. -/
def prM : GhPullRequest :=
  { basePR with Milestone := some ⟨some 3, some ⟨some 7, some strLoginA⟩⟩ }

/-- C7 counterexample: a PR bundle whose attached milestone declares creator
id 7 inserts no `gha_actors` row at all, so the declared milestone-creator id
has no corresponding actor row in the transaction. -/
theorem claim7_counterexample :
    (ArtificialPREvent ctxPlain cfgMil prM).map (fun l =>
      (traceDeclaredActorIds l, traceInsertedActorIds l)) = .ok ([7], []) ∧
    (7 : Int) ∉ ([] : List Int) := by
  constructor
  · decide
  · decide

/-- C7 amended: provided every referenced actor object carrying an id also
carries a login (`ghActor` silently skips login-less actors) and the
per-assignee map keys come from the remote assignee slice, every actor id
declared by an issue bundle has an actor row inserted in the same
transaction; in a PR bundle the same holds for every declared actor id except
the milestone creator, which `ArtificialPREvent` never upserts. -/
theorem claim7_actor_coverage (ctx : Ctx) (cfg : IssueConfig) (pr : GhPullRequest)
    (li lp : List Stmt)
    (hie : ArtificialEvent ctx cfg = .ok li)
    (hpe : ArtificialPREvent ctx cfg pr = .ok lp)
    (hA : ∀ u, cfg.GhIssue.Assignee = some u → u.ID.isSome → u.Login.isSome)
    (hU : ∀ u, cfg.GhIssue.User = some u → u.ID.isSome → u.Login.isSome)
    (hMC : ∀ m, cfg.GhIssue.Milestone = some m → ∀ u, m.Creator = some u →
      u.ID.isSome → u.Login.isSome)
    (hAM : ∀ p ∈ cfg.AssigneesMap, ∃ u, some u ∈ cfg.GhIssue.Assignees ∧
      u.ID = some p.1 ∧ u.Login.isSome)
    (hPU : ∀ u, pr.User = some u → u.ID.isSome → u.Login.isSome)
    (hPMB : ∀ u, pr.MergedBy = some u → u.ID.isSome → u.Login.isSome)
    (hPA : ∀ u, pr.Assignee = some u → u.ID.isSome → u.Login.isSome)
    (hJA : ∀ u, some u ∈ pr.Assignees → u.ID.isSome → u.Login.isSome)
    (hJR : ∀ u, some u ∈ pr.RequestedReviewers → u.ID.isSome → u.Login.isSome) :
    (∀ i ∈ traceDeclaredActorIds li, i ∈ traceInsertedActorIds li) ∧
    (∀ i ∈ traceDeclaredActorIds lp,
      i ∈ traceInsertedActorIds lp ∨
      (cfg.GhIssue.Milestone.bind GhMilestone.Creator).bind GhUser.ID = some i) :=
  ⟨claim7_issue_cover hie hA hU hMC hAM, claim7_pr_cover hpe hPU hPMB hPA hJA hJR⟩

/-- Witness for C7 at a concrete milestone-carrying candidate. -/
theorem claim7_actor_coverage_witness :
    (∀ i ∈ traceDeclaredActorIds (okStmts (ArtificialEvent ctxPlain cfgMil)),
      i ∈ traceInsertedActorIds (okStmts (ArtificialEvent ctxPlain cfgMil))) ∧
    (∀ i ∈ traceDeclaredActorIds (okStmts (ArtificialPREvent ctxPlain cfgMil basePR)),
      i ∈ traceInsertedActorIds (okStmts (ArtificialPREvent ctxPlain cfgMil basePR)) ∨
      (cfgMil.GhIssue.Milestone.bind GhMilestone.Creator).bind GhUser.ID = some i) :=
  claim7_actor_coverage ctxPlain cfgMil basePR _ _ (by decide) (by decide)
    (fun u hu => Option.noConfusion hu)
    (fun u hu => Option.noConfusion hu)
    (fun m hm u hu => by cases hm; cases hu; decide)
    (fun p hp => absurd hp (List.not_mem_nil p))
    (fun u hu => Option.noConfusion hu)
    (fun u hu => Option.noConfusion hu)
    (fun u hu => Option.noConfusion hu)
    (fun u hu => by cases hu)
    (fun u hu => by cases hu)


/-! ### Claim C2: non-manual normalisation -/

theorem icLE_refl (a : IssueConfig) : icLE a a := by
  unfold icLE
  omega

theorem sorted_all_icLE_getLast {l : List IssueConfig} {x : IssueConfig}
    (hs : List.Sorted icLE l) (hx : l.getLast? = some x) :
    ∀ c ∈ l, icLE c x := by
  induction l with
  | nil => cases hx
  | cons h t ih =>
    intro c hc
    cases ht : t with
    | nil =>
      subst ht
      simp at hx
      subst hx
      rcases List.mem_singleton.mp hc with rfl
      exact icLE_refl c
    | cons h2 t2 =>
      have hne : t ≠ [] := by rw [ht]; exact List.cons_ne_nil h2 t2
      have hx2 : t.getLast? = some x := by
        rw [ht] at hx ⊢
        rwa [List.getLast?_cons_cons] at hx
      rcases List.mem_cons.mp hc with rfl | hmem
      · obtain hxl : x ∈ t := List.mem_of_mem_getLast? hx2
        exact (List.sorted_cons.mp hs).1 x hxl
      · exact ih (List.sorted_cons.mp hs).2 hx2 c hmem

theorem map_secKey_filterMap {l : List Nat} {f : Nat → Option IssueConfig}
    (h : ∀ s ∈ l, ∃ c, f s = some c ∧ secKey c = s) :
    (l.filterMap f).map secKey = l := by
  induction l with
  | nil => rfl
  | cons s t ih =>
    rcases h s (List.mem_cons_self s t) with ⟨c, hc, hsc⟩
    rw [List.filterMap_cons, hc, List.map_cons, hsc,
      ih (fun x hx => h x (List.mem_cons_of_mem s hx))]

/-- The seconds of the collapsed list are exactly the distinct seconds of the
input, in ascending order. -/
theorem collapse_seconds (l : List IssueConfig) :
    (collapse l).map secKey =
      List.insertionSort (fun a b => a ≤ b) ((l.map secKey).dedup) := by
  unfold collapse
  simp only
  have hstep : ∀ s ∈ List.insertionSort (fun a b => a ≤ b)
      (((sortedCandidates l).map secKey).dedup),
      ∃ c, ((sortedCandidates l).filter (fun c => secKey c == s)).getLast? = some c ∧
        secKey c = s := by
    intro s hs
    have hs2 : s ∈ ((sortedCandidates l).map secKey).dedup :=
      (List.perm_insertionSort _ _).mem_iff.mp hs
    have hs3 : s ∈ (sortedCandidates l).map secKey := List.mem_dedup.mp hs2
    rcases List.mem_map.mp hs3 with ⟨c0, hc0, hkey⟩
    have hmemf : c0 ∈ (sortedCandidates l).filter (fun c => secKey c == s) :=
      List.mem_filter.mpr ⟨hc0, by simp [hkey]⟩
    have hne : (sortedCandidates l).filter (fun c => secKey c == s) ≠ [] := by
      intro hcon
      rw [hcon] at hmemf
      cases hmemf
    obtain ⟨c, hc⟩ : ∃ c,
        ((sortedCandidates l).filter (fun c => secKey c == s)).getLast? = some c := by
      cases hg : ((sortedCandidates l).filter (fun c => secKey c == s)).getLast? with
      | none => exact absurd (List.getLast?_eq_none_iff.mp hg) hne
      | some x => exact ⟨x, rfl⟩
    refine ⟨c, hc, ?_⟩
    have := List.mem_filter.mp (List.mem_of_mem_getLast? hc)
    simpa using this.2
  have hmain := map_secKey_filterMap hstep
  rw [hmain]
  refine List.eq_of_perm_of_sorted ?_ (List.sorted_insertionSort _ _)
    (List.sorted_insertionSort _ _)
  refine (List.perm_insertionSort _ _).trans (.trans ?_
    (List.perm_insertionSort _ _).symm)
  exact ((List.perm_insertionSort icLE l).map secKey).dedup

/-- Same second (0), sub-second instant 0.5 s, event id 9. -/
def icSubA : IssueConfig := { baseCfg with CreatedAt := 500000000, EventID := 9 }

/-- Same second (0), sub-second instant 0.7 s, event id 7. -/
def icSubB : IssueConfig := { baseCfg with CreatedAt := 700000000, EventID := 7 }

/-- C2 counterexample: two same-second candidates whose sub-second instants
order them against their event ids.  The sort is by full observation instant
before event id, so normalisation retains the candidate with event id 7 even
though the greatest real event id in the group is 9. -/
theorem claim2_counterexample :
    collapse [icSubA, icSubB] = [icSubB] ∧
    secKey icSubA = secKey icSubB ∧
    icSubA.EventID = 9 ∧ icSubB.EventID = 7 ∧ ¬ (9 : Int) ≤ (7 : Int) := by
  refine ⟨by decide, by decide, rfl, rfl, by decide⟩

/-- C2 amended: for a candidate list of one issue id, normalisation retains
exactly one candidate per distinct observation second, orders the output
ascending by that second, and within each same-second group retains the last
element after sorting by (issue id, observation instant, event id), i.e. the
candidate with the lexicographically greatest (observation instant, event id);
when all candidates of a group share one observation instant this is the one
with the greatest real event id. -/
theorem claim2_normalize (l : List IssueConfig) (iid : Int)
    (hiid : ∀ c ∈ l, c.IssueID = iid) :
    (collapse l).map secKey =
      List.insertionSort (fun a b => a ≤ b) ((l.map secKey).dedup) ∧
    List.Sorted (fun a b => a ≤ b) ((collapse l).map secKey) ∧
    ((collapse l).map secKey).Nodup ∧
    (∀ s, s ∈ (collapse l).map secKey ↔ s ∈ l.map secKey) ∧
    (∀ r ∈ collapse l, r ∈ l ∧ ∀ c ∈ l, secKey c = secKey r →
      (c.CreatedAt < r.CreatedAt ∨ (c.CreatedAt = r.CreatedAt ∧ c.EventID ≤ r.EventID))) := by
  have hsec := collapse_seconds l
  refine ⟨hsec, ?_, ?_, ?_, ?_⟩
  · rw [hsec]
    exact List.sorted_insertionSort _ _
  · rw [hsec]
    exact ((List.perm_insertionSort _ _).nodup_iff).mpr (List.nodup_dedup _)
  · intro s
    rw [hsec]
    rw [(List.perm_insertionSort (fun a b => a ≤ b) ((l.map secKey).dedup)).mem_iff]
    exact List.mem_dedup
  · intro r hr
    unfold collapse at hr
    simp only at hr
    rcases List.mem_filterMap.mp hr with ⟨s, hsmem, hf⟩
    have hrfil := List.mem_of_mem_getLast? hf
    have hrsrt : r ∈ sortedCandidates l := List.mem_of_mem_filter hrfil
    have hrl : r ∈ l := (List.perm_insertionSort icLE l).mem_iff.mp hrsrt
    have hrkey : secKey r = s := by
      have := (List.mem_filter.mp hrfil).2
      simpa using this
    refine ⟨hrl, ?_⟩
    intro c hc hck
    have hcsrt : c ∈ sortedCandidates l := (List.perm_insertionSort icLE l).mem_iff.mpr hc
    have hcfil : c ∈ (sortedCandidates l).filter (fun x => secKey x == s) :=
      List.mem_filter.mpr ⟨hcsrt, by simp [hck, hrkey]⟩
    have hsorted : List.Sorted icLE
        ((sortedCandidates l).filter (fun x => secKey x == s)) :=
      List.Pairwise.filter _ (List.sorted_insertionSort icLE l)
    have hle : icLE c r := sorted_all_icLE_getLast hsorted hf c hcfil
    have h1 := hiid c hc
    have h2 := hiid r hrl
    unfold icLE at hle
    omega

/-- A third candidate at second 2 with event id 3. -/
def icSubC : IssueConfig := { baseCfg with CreatedAt := 2500000000, EventID := 3 }

/-- Witness for C2 at a concrete three-candidate bucket. -/
theorem claim2_normalize_witness :
    ((collapse [icSubA, icSubB, icSubC]).map secKey =
      List.insertionSort (fun a b => a ≤ b)
        ((([icSubA, icSubB, icSubC]).map secKey).dedup) ∧
    List.Sorted (fun a b => a ≤ b) ((collapse [icSubA, icSubB, icSubC]).map secKey) ∧
    ((collapse [icSubA, icSubB, icSubC]).map secKey).Nodup ∧
    (∀ s, s ∈ (collapse [icSubA, icSubB, icSubC]).map secKey ↔
      s ∈ ([icSubA, icSubB, icSubC]).map secKey) ∧
    (∀ r ∈ collapse [icSubA, icSubB, icSubC], r ∈ [icSubA, icSubB, icSubC] ∧
      ∀ c ∈ [icSubA, icSubB, icSubC], secKey c = secKey r →
      (c.CreatedAt < r.CreatedAt ∨ (c.CreatedAt = r.CreatedAt ∧ c.EventID ≤ r.EventID)))) :=
  claim2_normalize [icSubA, icSubB, icSubC] 1 (by decide)



/-! ### C3: double-run behaviour of the orchestrator -/
def stmtIssueRow : Stmt → Option GhIssueRow
  | .insertIssue r => some r
  | _ => none

def stmtPullRow : Stmt → Option GhPullRequestRow
  | .insertPullRequest r => some r
  | _ => none

def stmtIssueLabelRow : Stmt → Option IssueLabelRow
  | .insertIssueLabel iid eid lid name => some ⟨iid, eid, lid, name⟩
  | _ => none

def stmtIssueAssigneeRow : Stmt → Option IssueAssigneeRow
  | .insertIssueAssignee iid eid aid => some ⟨iid, eid, aid⟩
  | _ => none

def stmtPRAssigneeRow : Stmt → Option PRAssigneeRow
  | .insertPRAssignee pid eid aid => some ⟨pid, eid, aid⟩
  | _ => none

def stmtPRReviewerRow : Stmt → Option PRReviewerRow
  | .insertPRReviewer pid eid rid => some ⟨pid, eid, rid⟩
  | _ => none

theorem applyStmts_issues (S : Store) (tr : List Stmt) :
    (applyStmts S tr).issues = S.issues ++ tr.filterMap stmtIssueRow := by
  induction tr generalizing S with
  | nil => simp [applyStmts]
  | cons s t ih =>
    rw [applyStmts, List.foldl_cons, ← applyStmts]
    rw [ih (applyStmt S s)]
    cases s <;> simp [applyStmt, stmtIssueRow, List.filterMap_cons] <;>
      split <;> simp

theorem applyStmts_pulls (S : Store) (tr : List Stmt) :
    (applyStmts S tr).pulls = S.pulls ++ tr.filterMap stmtPullRow := by
  induction tr generalizing S with
  | nil => simp [applyStmts]
  | cons s t ih =>
    rw [applyStmts, List.foldl_cons, ← applyStmts]
    rw [ih (applyStmt S s)]
    cases s <;> simp [applyStmt, stmtPullRow, List.filterMap_cons] <;>
      split <;> simp

theorem applyStmts_issueLabels (S : Store) (tr : List Stmt) :
    (applyStmts S tr).issueLabels = S.issueLabels ++ tr.filterMap stmtIssueLabelRow := by
  induction tr generalizing S with
  | nil => simp [applyStmts]
  | cons s t ih =>
    rw [applyStmts, List.foldl_cons, ← applyStmts]
    rw [ih (applyStmt S s)]
    cases s <;> simp [applyStmt, stmtIssueLabelRow, List.filterMap_cons] <;>
      split <;> simp

theorem applyStmts_issueAssignees (S : Store) (tr : List Stmt) :
    (applyStmts S tr).issueAssignees =
      S.issueAssignees ++ tr.filterMap stmtIssueAssigneeRow := by
  induction tr generalizing S with
  | nil => simp [applyStmts]
  | cons s t ih =>
    rw [applyStmts, List.foldl_cons, ← applyStmts]
    rw [ih (applyStmt S s)]
    cases s <;> simp [applyStmt, stmtIssueAssigneeRow, List.filterMap_cons] <;>
      split <;> simp

theorem applyStmts_prAssignees (S : Store) (tr : List Stmt) :
    (applyStmts S tr).prAssignees = S.prAssignees ++ tr.filterMap stmtPRAssigneeRow := by
  induction tr generalizing S with
  | nil => simp [applyStmts]
  | cons s t ih =>
    rw [applyStmts, List.foldl_cons, ← applyStmts]
    rw [ih (applyStmt S s)]
    cases s <;> simp [applyStmt, stmtPRAssigneeRow, List.filterMap_cons] <;>
      split <;> simp

theorem applyStmts_prReviewers (S : Store) (tr : List Stmt) :
    (applyStmts S tr).prReviewers = S.prReviewers ++ tr.filterMap stmtPRReviewerRow := by
  induction tr generalizing S with
  | nil => simp [applyStmts]
  | cons s t ih =>
    rw [applyStmts, List.foldl_cons, ← applyStmts]
    rw [ih (applyStmt S s)]
    cases s <;> simp [applyStmt, stmtPRReviewerRow, List.filterMap_cons] <;>
      split <;> simp

theorem pickLatest_go_isSome {ρ : Type} (upd : ρ → Option Nat) (eid : ρ → Int) :
    ∀ (t : List ρ) (m : ρ),
    (t.foldl (fun acc r =>
      match acc with
      | none => some r
      | some m => if rowKeyLt (upd m) (eid m) (upd r) (eid r) then some r else some m)
      (some m)).isSome = true := by
  intro t
  induction t with
  | nil => intro m; rfl
  | cons r2 t2 ih =>
    intro m
    simp only [List.foldl_cons]
    split <;> exact ih _

theorem pickLatest_none {ρ : Type} (upd : ρ → Option Nat) (eid : ρ → Int)
    (rows : List ρ) : pickLatest upd eid rows = none ↔ rows = [] := by
  constructor
  · intro h
    cases rows with
    | nil => rfl
    | cons r t =>
      exfalso
      have hsome := pickLatest_go_isSome upd eid t r
      rw [pickLatest, List.foldl_cons] at h
      simp only at h
      rw [h] at hsome
      cases hsome
  · intro h
    subst h
    rfl

theorem rowKeyLt_irrefl (u : Option Nat) (e : Int) : rowKeyLt u e u e = false := by
  cases u <;> simp [rowKeyLt] <;> omega

theorem rowKeyLt_neg_trans {u1 u2 u3 : Option Nat} {e1 e2 e3 : Int}
    (h1 : rowKeyLt u1 e1 u2 e2 = false) (h2 : rowKeyLt u2 e2 u3 e3 = false) :
    rowKeyLt u1 e1 u3 e3 = false := by
  cases u1 <;> cases u2 <;> cases u3 <;> simp [rowKeyLt] at * <;> omega

theorem rowKeyLt_of_lt_of_ge {u1 u2 u3 : Option Nat} {e1 e2 e3 : Int}
    (h1 : rowKeyLt u2 e2 u3 e3 = true) (h2 : rowKeyLt u1 e1 u3 e3 = false) :
    rowKeyLt u1 e1 u2 e2 = false := by
  cases u1 <;> cases u2 <;> cases u3 <;> simp [rowKeyLt] at * <;> omega

theorem pickLatest_go_spec {ρ : Type} (upd : ρ → Option Nat) (eid : ρ → Int) :
    ∀ (t : List ρ) (m x : ρ),
    t.foldl (fun acc r =>
      match acc with
      | none => some r
      | some m => if rowKeyLt (upd m) (eid m) (upd r) (eid r) then some r else some m)
      (some m) = some x →
    (x = m ∨ x ∈ t) ∧ rowKeyLt (upd x) (eid x) (upd m) (eid m) = false ∧
      (∀ r ∈ t, rowKeyLt (upd x) (eid x) (upd r) (eid r) = false) := by
  intro t
  induction t with
  | nil =>
    intro m x h
    simp at h
    subst h
    exact ⟨Or.inl rfl, rowKeyLt_irrefl _ _, fun r hr => absurd hr (List.not_mem_nil r)⟩
  | cons r2 t2 ih =>
    intro m x h
    rw [List.foldl_cons] at h
    simp only at h
    by_cases hlt : rowKeyLt (upd m) (eid m) (upd r2) (eid r2) = true
    · rw [if_pos hlt] at h
      rcases ih r2 x h with ⟨hmem, hmax, hall⟩
      refine ⟨?_, ?_, ?_⟩
      · rcases hmem with rfl | hmem
        · exact Or.inr (List.mem_cons_self _ _)
        · exact Or.inr (List.mem_cons_of_mem _ hmem)
      · exact rowKeyLt_of_lt_of_ge hlt hmax
      · intro r hr
        rcases List.mem_cons.mp hr with rfl | hr2
        · exact hmax
        · exact hall r hr2
    · rw [if_neg hlt] at h
      rcases ih m x h with ⟨hmem, hmax, hall⟩
      refine ⟨?_, hmax, ?_⟩
      · rcases hmem with rfl | hmem
        · exact Or.inl rfl
        · exact Or.inr (List.mem_cons_of_mem _ hmem)
      · intro r hr
        rcases List.mem_cons.mp hr with rfl | hr2
        · exact rowKeyLt_neg_trans hmax (by
            cases hx : rowKeyLt (upd m) (eid m) (upd r) (eid r) with
            | false => rfl
            | true => exact absurd hx hlt)
        · exact hall r hr2

theorem pickLatest_spec {ρ : Type} (upd : ρ → Option Nat) (eid : ρ → Int)
    {rows : List ρ} {x : ρ} (h : pickLatest upd eid rows = some x) :
    x ∈ rows ∧ ∀ r ∈ rows, rowKeyLt (upd x) (eid x) (upd r) (eid r) = false := by
  cases rows with
  | nil => cases h
  | cons r t =>
    rw [pickLatest, List.foldl_cons] at h
    simp only at h
    rcases pickLatest_go_spec upd eid t r x h with ⟨hmem, hmax, hall⟩
    refine ⟨?_, ?_⟩
    · rcases hmem with rfl | hmem
      · exact List.mem_cons_self _ _
      · exact List.mem_cons_of_mem _ hmem
    · intro r2 hr2
      rcases List.mem_cons.mp hr2 with rfl | hr3
      · exact hmax
      · exact hall r2 hr3

theorem pickLatest_append_gt {ρ : Type} (upd : ρ → Option Nat) (eid : ρ → Int)
    {A : List ρ} {r : ρ}
    (h : ∀ x ∈ A, rowKeyLt (upd x) (eid x) (upd r) (eid r) = true) :
    pickLatest upd eid (A ++ [r]) = some r := by
  rw [pickLatest, List.foldl_append]
  rw [← pickLatest]
  cases hA : pickLatest upd eid A with
  | none => rfl
  | some m =>
    have hm := (pickLatest_spec upd eid hA).1
    simp only [List.foldl_cons, List.foldl_nil]
    rw [if_pos (h m hm)]

/-- The `gha_issues` row `ArtificialEvent` inserts for a candidate. -/
def issueRowOf (cfg : IssueConfig) : GhIssueRow :=
  { id := cfg.IssueID, event_id := int64add p48 cfg.EventID,
    updated_at := some cfg.CreatedAt,
    assignee_id := ghActorIDOrNil cfg.GhIssue.Assignee,
    closed_at := cfg.GhIssue.ClosedAt,
    locked := cfg.GhIssue.Locked,
    milestone_id := ghMilestoneIDOrNil cfg.GhIssue.Milestone,
    number := cfg.GhIssue.Number,
    state := cfg.GhIssue.State,
    title := cfg.GhIssue.Title,
    user_id := ghActorIDOrNil cfg.GhIssue.User }

/-- The `gha_pull_requests` row `ArtificialPREvent` inserts for a candidate. -/
def prRowOf (cfg : IssueConfig) (pr : GhPullRequest) (prid : Int) : GhPullRequestRow :=
  { id := prid, event_id := int64add p48 cfg.EventID,
    updated_at := pr.UpdatedAt,
    assignee_id := ghActorIDOrNil pr.Assignee,
    closed_at := pr.ClosedAt,
    merged := pr.Merged,
    merged_at := pr.MergedAt,
    merged_by_id := ghActorIDOrNil pr.MergedBy,
    milestone_id := ghMilestoneIDOrNil pr.Milestone,
    number := pr.Number,
    state := pr.State,
    title := pr.Title,
    user_id := ghActorIDOrNil pr.User }

theorem filterMap_nil_of_all {α β : Type} {f : α → Option β} {l : List α}
    (h : ∀ a ∈ l, f a = none) : l.filterMap f = [] := by
  induction l with
  | nil => rfl
  | cons a t ih =>
    rw [List.filterMap_cons, h a (List.mem_cons_self a t)]
    exact ih (fun b hb => h b (List.mem_cons_of_mem a hb))

theorem actorInsert_issueRow_none {s : Stmt} (h : isActorInsert s = true) :
    stmtIssueRow s = none := by
  cases s <;> simp_all [isActorInsert, stmtIssueRow]

theorem actorInsert_pullRow_none {s : Stmt} (h : isActorInsert s = true) :
    stmtPullRow s = none := by
  cases s <;> simp_all [isActorInsert, stmtPullRow]

theorem actorInsert_labelRow_none {s : Stmt} (h : isActorInsert s = true) :
    stmtIssueLabelRow s = none := by
  cases s <;> simp_all [isActorInsert, stmtIssueLabelRow]

theorem actorInsert_iAssigneeRow_none {s : Stmt} (h : isActorInsert s = true) :
    stmtIssueAssigneeRow s = none := by
  cases s <;> simp_all [isActorInsert, stmtIssueAssigneeRow]

theorem eid_of_labelRow {s : Stmt} {r : IssueLabelRow} {eid : Int}
    (he : EidOk eid s) (hf : stmtIssueLabelRow s = some r) : r.event_id = eid := by
  cases s <;> simp [stmtIssueLabelRow] at hf
  case insertIssueLabel iid e lid nm =>
    subst hf
    exact he e rfl

theorem eid_of_iAssigneeRow {s : Stmt} {r : IssueAssigneeRow} {eid : Int}
    (he : EidOk eid s) (hf : stmtIssueAssigneeRow s = some r) : r.event_id = eid := by
  cases s <;> simp [stmtIssueAssigneeRow] at hf
  case insertIssueAssignee iid e aid =>
    subst hf
    exact he e rfl

theorem eid_of_prAssigneeRow {s : Stmt} {r : PRAssigneeRow} {eid : Int}
    (he : EidOk eid s) (hf : stmtPRAssigneeRow s = some r) : r.event_id = eid := by
  cases s <;> simp [stmtPRAssigneeRow] at hf
  case insertPRAssignee pid e aid =>
    subst hf
    exact he e rfl

theorem eid_of_prReviewerRow {s : Stmt} {r : PRReviewerRow} {eid : Int}
    (he : EidOk eid s) (hf : stmtPRReviewerRow s = some r) : r.event_id = eid := by
  cases s <;> simp [stmtPRReviewerRow] at hf
  case insertPRReviewer pid e rid =>
    subst hf
    exact he e rfl

/-- Every label join row a successful `ArtificialEvent` transaction writes
carries the synthetic event id. -/
theorem ArtificialEvent_label_eids {ctx : Ctx} {cfg : IssueConfig} {tr : List Stmt}
    (h : ArtificialEvent ctx cfg = .ok tr) :
    ∀ r ∈ tr.filterMap stmtIssueLabelRow, r.event_id = int64add p48 cfg.EventID := by
  intro r hr
  rw [List.mem_filterMap] at hr
  obtain ⟨s, hs, hfs⟩ := hr
  exact eid_of_labelRow (ArtificialEvent_EidOk h s hs) hfs

/-- Every assignee join row a successful `ArtificialEvent` transaction writes
carries the synthetic event id. -/
theorem ArtificialEvent_assignee_eids {ctx : Ctx} {cfg : IssueConfig} {tr : List Stmt}
    (h : ArtificialEvent ctx cfg = .ok tr) :
    ∀ r ∈ tr.filterMap stmtIssueAssigneeRow, r.event_id = int64add p48 cfg.EventID := by
  intro r hr
  rw [List.mem_filterMap] at hr
  obtain ⟨s, hs, hfs⟩ := hr
  exact eid_of_iAssigneeRow (ArtificialEvent_EidOk h s hs) hfs

/-- Every PR-assignee join row a successful `ArtificialPREvent` transaction
writes carries the synthetic event id. -/
theorem ArtificialPREvent_prAssignee_eids {ctx : Ctx} {cfg : IssueConfig}
    {pr : GhPullRequest} {tr : List Stmt} (h : ArtificialPREvent ctx cfg pr = .ok tr) :
    ∀ r ∈ tr.filterMap stmtPRAssigneeRow, r.event_id = int64add p48 cfg.EventID := by
  intro r hr
  rw [List.mem_filterMap] at hr
  obtain ⟨s, hs, hfs⟩ := hr
  exact eid_of_prAssigneeRow (ArtificialPREvent_EidOk h s hs) hfs

/-- Every PR-reviewer join row a successful `ArtificialPREvent` transaction
writes carries the synthetic event id. -/
theorem ArtificialPREvent_prReviewer_eids {ctx : Ctx} {cfg : IssueConfig}
    {pr : GhPullRequest} {tr : List Stmt} (h : ArtificialPREvent ctx cfg pr = .ok tr) :
    ∀ r ∈ tr.filterMap stmtPRReviewerRow, r.event_id = int64add p48 cfg.EventID := by
  intro r hr
  rw [List.mem_filterMap] at hr
  obtain ⟨s, hs, hfs⟩ := hr
  exact eid_of_prReviewerRow (ArtificialPREvent_EidOk h s hs) hfs

theorem fm_issueRow_actors {l : List Stmt} (h : ∀ s ∈ l, isActorInsert s = true) :
    l.filterMap stmtIssueRow = [] :=
  filterMap_nil_of_all (fun s hs => actorInsert_issueRow_none (h s hs))

theorem fm_pullRow_actors {l : List Stmt} (h : ∀ s ∈ l, isActorInsert s = true) :
    l.filterMap stmtPullRow = [] :=
  filterMap_nil_of_all (fun s hs => actorInsert_pullRow_none (h s hs))

theorem fm_labelRow_actors {l : List Stmt} (h : ∀ s ∈ l, isActorInsert s = true) :
    l.filterMap stmtIssueLabelRow = [] :=
  filterMap_nil_of_all (fun s hs => actorInsert_labelRow_none (h s hs))

theorem fm_iAssigneeRow_actors {l : List Stmt} (h : ∀ s ∈ l, isActorInsert s = true) :
    l.filterMap stmtIssueAssigneeRow = [] :=
  filterMap_nil_of_all (fun s hs => actorInsert_iAssigneeRow_none (h s hs))

theorem filterMap_none_fun {α β : Type} (l : List α) :
    l.filterMap (fun _ => (none : Option β)) = [] :=
  filterMap_nil_of_all (fun _ _ => rfl)

theorem fm_issueRow_ghActor {a : Option GhUser} {mh : String → String} :
    (ghActor a mh).filterMap stmtIssueRow = [] :=
  fm_issueRow_actors ghActor_actorInsert

theorem fm_issueRow_foldrActor {as : List (Option GhUser)} {mh : String → String} :
    (as.foldr (fun a acc => ghActor a mh ++ acc) []).filterMap stmtIssueRow = [] :=
  fm_issueRow_actors foldr_ghActor_actorInsert

theorem fm_pullRow_ghActor {a : Option GhUser} {mh : String → String} :
    (ghActor a mh).filterMap stmtPullRow = [] :=
  fm_pullRow_actors ghActor_actorInsert

theorem fm_pullRow_foldrActor {as : List (Option GhUser)} {mh : String → String} :
    (as.foldr (fun a acc => ghActor a mh ++ acc) []).filterMap stmtPullRow = [] :=
  fm_pullRow_actors foldr_ghActor_actorInsert

theorem fm_labelRow_ghActor {a : Option GhUser} {mh : String → String} :
    (ghActor a mh).filterMap stmtIssueLabelRow = [] :=
  fm_labelRow_actors ghActor_actorInsert

theorem fm_iAssigneeRow_ghActor {a : Option GhUser} {mh : String → String} :
    (ghActor a mh).filterMap stmtIssueAssigneeRow = [] :=
  fm_iAssigneeRow_actors ghActor_actorInsert

/-- A successful non-skip `ArtificialEvent` transaction inserts exactly one
`gha_issues` row, the candidate snapshot, and no `gha_pull_requests` row. -/
theorem ArtificialEvent_kinds {ctx : Ctx} {cfg : IssueConfig} {tr : List Stmt}
    (hskip : ctx.SkipPDB = false) (h : ArtificialEvent ctx cfg = .ok tr) :
    tr.filterMap stmtIssueRow = [issueRowOf cfg] ∧
    tr.filterMap stmtPullRow = [] := by
  rw [ArtificialEvent, if_neg (by rw [hskip]; exact Bool.false_ne_true)] at h
  cases hm : cfg.GhIssue.Milestone with
  | none =>
    simp only [hm, bind, Except.bind, pure, Except.pure, Except.ok.injEq] at h
    subst h
    constructor
    · simp [List.filterMap_append, List.filterMap_map, fm_issueRow_ghActor,
        fm_issueRow_foldrActor, stmtIssueRow, filterMap_none_fun, issueRowOf, hm,
        Function.comp]
    · simp [List.filterMap_append, List.filterMap_map, fm_pullRow_ghActor,
        fm_pullRow_foldrActor, stmtPullRow, filterMap_none_fun, Function.comp]
  | some m =>
    cases hgm : ghMilestone (int64add p48 cfg.EventID) cfg (MaybeHideFunc ctx.hidden) with
    | error e =>
      simp only [hm, hgm, bind, Except.bind] at h
      cases h
    | ok ml =>
      obtain ⟨mid, cid, clg, rfl⟩ := ghMilestone_shape hgm
      simp only [hm, hgm, bind, Except.bind, pure, Except.pure, Except.ok.injEq] at h
      subst h
      constructor
      · simp [List.filterMap_append, List.filterMap_map, fm_issueRow_ghActor,
          fm_issueRow_foldrActor, stmtIssueRow, filterMap_none_fun, issueRowOf, hm,
          Function.comp]
      · simp [List.filterMap_append, List.filterMap_map, fm_pullRow_ghActor,
          fm_pullRow_foldrActor, stmtPullRow, filterMap_none_fun, Function.comp]

theorem fm_issueRow_matchActor {o : Option GhUser} {mh : String → String} :
    ((match o with
      | some _ => ghActor o mh
      | none => ([] : List Stmt))).filterMap stmtIssueRow = [] := by
  cases o with
  | none => rfl
  | some u => exact fm_issueRow_ghActor

theorem fm_pullRow_matchActor {o : Option GhUser} {mh : String → String} :
    ((match o with
      | some _ => ghActor o mh
      | none => ([] : List Stmt))).filterMap stmtPullRow = [] := by
  cases o with
  | none => rfl
  | some u => exact fm_pullRow_ghActor

theorem fm_labelRow_matchActor {o : Option GhUser} {mh : String → String} :
    ((match o with
      | some _ => ghActor o mh
      | none => ([] : List Stmt))).filterMap stmtIssueLabelRow = [] := by
  cases o with
  | none => rfl
  | some u => exact fm_labelRow_ghActor

theorem fm_iAssigneeRow_matchActor {o : Option GhUser} {mh : String → String} :
    ((match o with
      | some _ => ghActor o mh
      | none => ([] : List Stmt))).filterMap stmtIssueAssigneeRow = [] := by
  cases o with
  | none => rfl
  | some u => exact fm_iAssigneeRow_ghActor

theorem fm_labelRow_foldrActor {as : List (Option GhUser)} {mh : String → String} :
    (as.foldr (fun a acc => ghActor a mh ++ acc) []).filterMap stmtIssueLabelRow = [] :=
  fm_labelRow_actors foldr_ghActor_actorInsert

theorem fm_iAssigneeRow_foldrActor {as : List (Option GhUser)} {mh : String → String} :
    (as.foldr (fun a acc => ghActor a mh ++ acc) []).filterMap stmtIssueAssigneeRow = [] :=
  fm_iAssigneeRow_actors foldr_ghActor_actorInsert

theorem foldr_prAssignee_rows_none {as : List (Option GhUser)} {mh : String → String}
    {prid eid : Int} :
    ∀ s ∈ as.foldr (fun a acc =>
      (match a with
        | none => []
        | some u => ghActor (some u) mh ++ [Stmt.insertPRAssignee prid eid u.ID]) ++ acc) [],
      stmtPullRow s = none ∧ stmtIssueRow s = none ∧ stmtIssueLabelRow s = none ∧
        stmtIssueAssigneeRow s = none := by
  induction as with
  | nil => intro s hs; cases hs
  | cons a t ih =>
    intro s hs
    rcases List.mem_append.mp hs with h | h
    · cases a with
      | none => cases h
      | some u =>
        rcases List.mem_append.mp h with h2 | h2
        · have ha := ghActor_actorInsert s h2
          exact ⟨actorInsert_pullRow_none ha, actorInsert_issueRow_none ha,
            actorInsert_labelRow_none ha, actorInsert_iAssigneeRow_none ha⟩
        · rcases List.mem_singleton.mp h2 with rfl
          exact ⟨rfl, rfl, rfl, rfl⟩
    · exact ih s h

theorem foldr_prReviewer_rows_none {as : List (Option GhUser)} {mh : String → String}
    {prid eid : Int} :
    ∀ s ∈ as.foldr (fun a acc =>
      (match a with
        | none => []
        | some u => ghActor (some u) mh ++ [Stmt.insertPRReviewer prid eid u.ID]) ++ acc) [],
      stmtPullRow s = none ∧ stmtIssueRow s = none ∧ stmtIssueLabelRow s = none ∧
        stmtIssueAssigneeRow s = none := by
  induction as with
  | nil => intro s hs; cases hs
  | cons a t ih =>
    intro s hs
    rcases List.mem_append.mp hs with h | h
    · cases a with
      | none => cases h
      | some u =>
        rcases List.mem_append.mp h with h2 | h2
        · have ha := ghActor_actorInsert s h2
          exact ⟨actorInsert_pullRow_none ha, actorInsert_issueRow_none ha,
            actorInsert_labelRow_none ha, actorInsert_iAssigneeRow_none ha⟩
        · rcases List.mem_singleton.mp h2 with rfl
          exact ⟨rfl, rfl, rfl, rfl⟩
    · exact ih s h

theorem fm_pullRow_prAssigneeJoin {as : List (Option GhUser)} {mh : String → String}
    {prid eid : Int} :
    (as.foldr (fun a acc =>
      (match a with
        | none => []
        | some u => ghActor (some u) mh ++ [Stmt.insertPRAssignee prid eid u.ID]) ++ acc)
      []).filterMap stmtPullRow = [] :=
  filterMap_nil_of_all (fun s hs => (foldr_prAssignee_rows_none s hs).1)

theorem fm_issueRow_prAssigneeJoin {as : List (Option GhUser)} {mh : String → String}
    {prid eid : Int} :
    (as.foldr (fun a acc =>
      (match a with
        | none => []
        | some u => ghActor (some u) mh ++ [Stmt.insertPRAssignee prid eid u.ID]) ++ acc)
      []).filterMap stmtIssueRow = [] :=
  filterMap_nil_of_all (fun s hs => (foldr_prAssignee_rows_none s hs).2.1)

theorem fm_labelRow_prAssigneeJoin {as : List (Option GhUser)} {mh : String → String}
    {prid eid : Int} :
    (as.foldr (fun a acc =>
      (match a with
        | none => []
        | some u => ghActor (some u) mh ++ [Stmt.insertPRAssignee prid eid u.ID]) ++ acc)
      []).filterMap stmtIssueLabelRow = [] :=
  filterMap_nil_of_all (fun s hs => (foldr_prAssignee_rows_none s hs).2.2.1)

theorem fm_iAssigneeRow_prAssigneeJoin {as : List (Option GhUser)} {mh : String → String}
    {prid eid : Int} :
    (as.foldr (fun a acc =>
      (match a with
        | none => []
        | some u => ghActor (some u) mh ++ [Stmt.insertPRAssignee prid eid u.ID]) ++ acc)
      []).filterMap stmtIssueAssigneeRow = [] :=
  filterMap_nil_of_all (fun s hs => (foldr_prAssignee_rows_none s hs).2.2.2)

theorem fm_pullRow_prReviewerJoin {as : List (Option GhUser)} {mh : String → String}
    {prid eid : Int} :
    (as.foldr (fun a acc =>
      (match a with
        | none => []
        | some u => ghActor (some u) mh ++ [Stmt.insertPRReviewer prid eid u.ID]) ++ acc)
      []).filterMap stmtPullRow = [] :=
  filterMap_nil_of_all (fun s hs => (foldr_prReviewer_rows_none s hs).1)

theorem fm_issueRow_prReviewerJoin {as : List (Option GhUser)} {mh : String → String}
    {prid eid : Int} :
    (as.foldr (fun a acc =>
      (match a with
        | none => []
        | some u => ghActor (some u) mh ++ [Stmt.insertPRReviewer prid eid u.ID]) ++ acc)
      []).filterMap stmtIssueRow = [] :=
  filterMap_nil_of_all (fun s hs => (foldr_prReviewer_rows_none s hs).2.1)

theorem fm_labelRow_prReviewerJoin {as : List (Option GhUser)} {mh : String → String}
    {prid eid : Int} :
    (as.foldr (fun a acc =>
      (match a with
        | none => []
        | some u => ghActor (some u) mh ++ [Stmt.insertPRReviewer prid eid u.ID]) ++ acc)
      []).filterMap stmtIssueLabelRow = [] :=
  filterMap_nil_of_all (fun s hs => (foldr_prReviewer_rows_none s hs).2.2.1)

theorem fm_iAssigneeRow_prReviewerJoin {as : List (Option GhUser)} {mh : String → String}
    {prid eid : Int} :
    (as.foldr (fun a acc =>
      (match a with
        | none => []
        | some u => ghActor (some u) mh ++ [Stmt.insertPRReviewer prid eid u.ID]) ++ acc)
      []).filterMap stmtIssueAssigneeRow = [] :=
  filterMap_nil_of_all (fun s hs => (foldr_prReviewer_rows_none s hs).2.2.2)

/-- A successful non-skip `ArtificialPREvent` transaction inserts exactly one
`gha_pull_requests` row, the candidate snapshot, and no `gha_issues` row, no
`gha_issues_labels` row and no `gha_issues_assignees` row. -/
theorem ArtificialPREvent_kinds {ctx : Ctx} {cfg : IssueConfig} {pr : GhPullRequest}
    {tr : List Stmt} {prid : Int}
    (hskip : ctx.SkipPDB = false) (h : ArtificialPREvent ctx cfg pr = .ok tr)
    (hid : pr.ID = some prid) :
    tr.filterMap stmtPullRow = [prRowOf cfg pr prid] ∧
    tr.filterMap stmtIssueRow = [] ∧
    tr.filterMap stmtIssueLabelRow = [] ∧
    tr.filterMap stmtIssueAssigneeRow = [] := by
  rw [ArtificialPREvent, if_neg (by rw [hskip]; exact Bool.false_ne_true)] at h
  cases hiid : cfg.GhIssue.ID with
  | none =>
    simp only [hiid, orFail, bind, Except.bind] at h
    cases h
  | some iidv =>
    cases ha : cfg.GhEvent.Actor with
    | none =>
      cases hprm : pr.Milestone with
      | none =>
        simp only [hiid, ha, hid, hprm, orFail, bind, Except.bind, pure, Except.pure] at h
        cases h
      | some m =>
        cases hgm : ghMilestone (int64add p48 cfg.EventID) cfg (MaybeHideFunc ctx.hidden) with
        | error e =>
          simp only [hiid, ha, hid, hprm, hgm, orFail, bind, Except.bind] at h
          cases h
        | ok ml =>
          simp only [hiid, ha, hid, hprm, hgm, orFail, bind, Except.bind, pure,
            Except.pure] at h
          cases h
    | some act =>
      cases hprm : pr.Milestone with
      | none =>
        simp only [hiid, ha, hid, hprm, orFail, bind, Except.bind, pure, Except.pure,
          Except.ok.injEq] at h
        subst h
        refine ⟨?_, ?_, ?_, ?_⟩
        · simp [List.filterMap_append, fm_pullRow_ghActor, fm_pullRow_matchActor,
            fm_pullRow_prAssigneeJoin, fm_pullRow_prReviewerJoin, stmtPullRow,
            prRowOf, hid, hprm]
        · simp [List.filterMap_append, fm_issueRow_ghActor, fm_issueRow_matchActor,
            fm_issueRow_prAssigneeJoin, fm_issueRow_prReviewerJoin, stmtIssueRow]
        · simp [List.filterMap_append, fm_labelRow_ghActor, fm_labelRow_matchActor,
            fm_labelRow_prAssigneeJoin, fm_labelRow_prReviewerJoin, stmtIssueLabelRow]
        · simp [List.filterMap_append, fm_iAssigneeRow_ghActor, fm_iAssigneeRow_matchActor,
            fm_iAssigneeRow_prAssigneeJoin, fm_iAssigneeRow_prReviewerJoin,
            stmtIssueAssigneeRow]
      | some m =>
        cases hgm : ghMilestone (int64add p48 cfg.EventID) cfg (MaybeHideFunc ctx.hidden) with
        | error e =>
          simp only [hiid, ha, hid, hprm, hgm, orFail, bind, Except.bind] at h
          cases h
        | ok ml =>
          obtain ⟨mid, cid, clg, rfl⟩ := ghMilestone_shape hgm
          simp only [hiid, ha, hid, hprm, hgm, orFail, bind, Except.bind, pure,
            Except.pure, Except.ok.injEq] at h
          subst h
          refine ⟨?_, ?_, ?_, ?_⟩
          · simp [List.filterMap_append, fm_pullRow_ghActor, fm_pullRow_matchActor,
              fm_pullRow_prAssigneeJoin, fm_pullRow_prReviewerJoin, stmtPullRow,
              prRowOf, hid, hprm]
          · simp [List.filterMap_append, fm_issueRow_ghActor, fm_issueRow_matchActor,
              fm_issueRow_prAssigneeJoin, fm_issueRow_prReviewerJoin, stmtIssueRow]
          · simp [List.filterMap_append, fm_labelRow_ghActor, fm_labelRow_matchActor,
              fm_labelRow_prAssigneeJoin, fm_labelRow_prReviewerJoin, stmtIssueLabelRow]
          · simp [List.filterMap_append, fm_iAssigneeRow_ghActor, fm_iAssigneeRow_matchActor,
              fm_iAssigneeRow_prAssigneeJoin, fm_iAssigneeRow_prReviewerJoin,
              stmtIssueAssigneeRow]

theorem int64add_p48_eq {e : Int} (h1 : 0 < e)
    (h2 : e < 9223372036854775808 - p48) : int64add p48 e = p48 + e := by
  unfold p48 at h2
  unfold int64add wrap64 p48
  omega

theorem int64add_p48_gt {e : Int} (h1 : 0 < e)
    (h2 : e < 9223372036854775808 - p48) : p48 < int64add p48 e := by
  rw [int64add_p48_eq h1 h2]
  omega

theorem rowKeyLt_some_same (t : Nat) (e1 e2 : Int) :
    rowKeyLt (some t) e1 (some t) e2 = decide (e1 < e2) := by
  simp [rowKeyLt]

theorem issueProbe_nonmanual (s : Store) (iid : Int) (t : Nat) :
    issueProbe s false iid t = pickLatest GhIssueRow.updated_at GhIssueRow.event_id
      (s.issues.filter (fun r => r.id == iid && r.updated_at == some t)) := rfl

theorem prProbe_nonmanual (s : Store) (prid : Int) (t : Nat) :
    prProbe s false prid t = pickLatest GhPullRequestRow.updated_at
      GhPullRequestRow.event_id
      (s.pulls.filter (fun r => r.id == prid && r.updated_at == some t)) := rfl

theorem pickLatest_single {ρ : Type} (upd : ρ → Option Nat) (eid : ρ → Int) (r : ρ) :
    pickLatest upd eid [r] = some r := rfl

/-- Every row the non-manual issue probe filter retains carries the probed key. -/
theorem mem_issueFilter {st : Store} {iid : Int} {t : Nat} {x : GhIssueRow}
    (hx : x ∈ st.issues.filter (fun r => r.id == iid && r.updated_at == some t)) :
    x.id = iid ∧ x.updated_at = some t := by
  rcases List.mem_filter.mp hx with ⟨hmem, hc⟩
  simp only [Bool.and_eq_true, beq_iff_eq] at hc
  exact hc

theorem mem_prFilter {st : Store} {prid : Int} {t : Nat} {x : GhPullRequestRow}
    (hx : x ∈ st.pulls.filter (fun r => r.id == prid && r.updated_at == some t)) :
    x.id = prid ∧ x.updated_at = some t := by
  rcases List.mem_filter.mp hx with ⟨hmem, hc⟩
  simp only [Bool.and_eq_true, beq_iff_eq] at hc
  exact hc

/-- When the non-manual issue probe answers a row at or below the synthetic
threshold, every filtered row sorts strictly below the synthetic key. -/
theorem issue_filter_lt_synth {st : Store} {cfg : IssueConfig} {row : GhIssueRow}
    (hpr : issueProbe st false cfg.IssueID cfg.CreatedAt = some row)
    (hle : ¬ p48 < row.event_id) (he1 : 0 < cfg.EventID)
    (he2 : cfg.EventID < 9223372036854775808 - p48) :
    ∀ x ∈ st.issues.filter
      (fun r => r.id == cfg.IssueID && r.updated_at == some cfg.CreatedAt),
      rowKeyLt x.updated_at x.event_id (some cfg.CreatedAt)
        (int64add p48 cfg.EventID) = true := by
  intro x hx
  rw [issueProbe_nonmanual] at hpr
  obtain ⟨hrowmem, hmax⟩ := pickLatest_spec _ _ hpr
  have hrk := mem_issueFilter hrowmem
  have hxk := mem_issueFilter hx
  have hb := hmax x hx
  rw [hrk.2, hxk.2, rowKeyLt_some_same] at hb
  rw [hxk.2, rowKeyLt_some_same, int64add_p48_eq he1 he2]
  simp only [decide_eq_false_iff_not, not_lt] at hb
  simp only [decide_eq_true_eq]
  omega

theorem pr_filter_lt_synth {st : Store} {prid : Int} {t : Nat} {e : Int}
    {row : GhPullRequestRow}
    (hpr : prProbe st false prid t = some row)
    (hle : ¬ p48 < row.event_id) (he1 : 0 < e)
    (he2 : e < 9223372036854775808 - p48) :
    ∀ x ∈ st.pulls.filter (fun r => r.id == prid && r.updated_at == some t),
      rowKeyLt x.updated_at x.event_id (some t) (int64add p48 e) = true := by
  intro x hx
  rw [prProbe_nonmanual] at hpr
  obtain ⟨hrowmem, hmax⟩ := pickLatest_spec _ _ hpr
  have hrk := mem_prFilter hrowmem
  have hxk := mem_prFilter hx
  have hb := hmax x hx
  rw [hrk.2, hxk.2, rowKeyLt_some_same] at hb
  rw [hxk.2, rowKeyLt_some_same, int64add_p48_eq he1 he2]
  simp only [decide_eq_false_iff_not, not_lt] at hb
  simp only [decide_eq_true_eq]
  omega

/-- After a successful non-manual issue worker step, re-running the same
candidate against the produced store is a read-only no-op landing in outcome
bucket 1 or 2. -/
theorem issueWorker_restep {ctx : Ctx} {st st2 : Store} {cfg : IssueConfig} {k : Nat}
    (hskip : ctx.SkipPDB = false)
    (he1 : 0 < cfg.EventID) (he2 : cfg.EventID < 9223372036854775808 - p48)
    (h : issueWorker ctx false st cfg = .ok (st2, k)) :
    ∃ k2, (k2 = 1 ∨ k2 = 2) ∧ issueWorker ctx false st2 cfg = .ok (st2, k2) := by
  cases hs : cfg.GhIssue.State with
  | none => simp [issueWorker, hs, orFail, bind, Except.bind] at h
  | some sv =>
  cases ht : cfg.GhIssue.Title with
  | none => simp [issueWorker, hs, ht, orFail, bind, Except.bind] at h
  | some tv =>
  cases hl : cfg.GhIssue.Locked with
  | none => simp [issueWorker, hs, ht, hl, orFail, bind, Except.bind] at h
  | some lv =>
  simp only [issueWorker, hs, ht, hl, orFail, bind, Except.bind, pure, Except.pure] at h
  cases hpr : issueProbe st false cfg.IssueID cfg.CreatedAt with
  | none =>
    rw [hpr] at h
    cases htr : ArtificialEvent ctx cfg with
    | error e => rw [htr] at h; cases h
    | ok tr =>
      rw [htr] at h
      simp only [Except.ok.injEq, Prod.mk.injEq] at h
      obtain ⟨hst2, hk⟩ := h
      subst hst2
      have hfe : st.issues.filter
          (fun r => r.id == cfg.IssueID && r.updated_at == some cfg.CreatedAt) = [] := by
        rw [issueProbe_nonmanual] at hpr
        exact (pickLatest_none _ _ _).mp hpr
      have hiss : (applyStmts st tr).issues = st.issues ++ [issueRowOf cfg] := by
        rw [applyStmts_issues, (ArtificialEvent_kinds hskip htr).1]
      have hpr2 : issueProbe (applyStmts st tr) false cfg.IssueID cfg.CreatedAt =
          some (issueRowOf cfg) := by
        rw [issueProbe_nonmanual, hiss, List.filter_append, hfe, List.nil_append]
        have hcond : ([issueRowOf cfg].filter
            (fun r => r.id == cfg.IssueID && r.updated_at == some cfg.CreatedAt)) =
            [issueRowOf cfg] := by
          simp [issueRowOf]
        rw [hcond]
        exact pickLatest_single _ _ _
      refine ⟨1, Or.inl rfl, ?_⟩
      simp only [issueWorker, hs, ht, hl, orFail, bind, Except.bind, pure,
        Except.pure, hpr2]
      have hgt : p48 < int64add p48 cfg.EventID := int64add_p48_gt he1 he2
      simp [issueRowOf, scanString, scanBool, hs, ht, hl, bind, Except.bind, hgt]
  | some row =>
    rw [hpr] at h
    cases hrs : row.state with
    | none => simp [scanString, hrs, bind, Except.bind] at h
    | some gs =>
    cases hrt : row.title with
    | none => simp [scanString, hrs, hrt, bind, Except.bind] at h
    | some gt2 =>
    cases hrl : row.locked with
    | none => simp [scanString, scanBool, hrs, hrt, hrl, bind, Except.bind] at h
    | some gl =>
    simp only [scanString, scanBool, hrs, hrt, hrl, bind, Except.bind, pure,
      Except.pure, Bool.not_false, Bool.true_and] at h
    by_cases hegt : p48 < row.event_id
    · rw [if_pos (by simpa using hegt)] at h
      simp only [Except.ok.injEq, Prod.mk.injEq] at h
      obtain ⟨hst2, hk⟩ := h
      subst hst2
      refine ⟨1, Or.inl rfl, ?_⟩
      simp only [issueWorker, hs, ht, hl, orFail, bind, Except.bind, pure,
        Except.pure, hpr]
      simp [scanString, scanBool, hrs, hrt, hrl, bind, Except.bind, hegt]
    · rw [if_neg (by simpa using hegt)] at h
      by_cases hch : (optIntDiff cfg.MilestoneID row.milestone_id ||
          (sv != gs) ||
          optTimeDiff cfg.GhIssue.ClosedAt row.closed_at ||
          optIntDiff cfg.AssigneeID row.assignee_id ||
          (tv != gt2) ||
          (lv != gl) ||
          (aggIssueLabels st row.event_id != cfg.Labels) ||
          (aggIssueAssignees st row.event_id != cfg.Assignees)) = true
      · rw [if_pos (by simpa using hch)] at h
        cases htr : ArtificialEvent ctx cfg with
        | error e => rw [htr] at h; cases h
        | ok tr =>
          rw [htr] at h
          simp only [Except.ok.injEq, Prod.mk.injEq] at h
          obtain ⟨hst2, hk⟩ := h
          subst hst2
          have hiss : (applyStmts st tr).issues = st.issues ++ [issueRowOf cfg] := by
            rw [applyStmts_issues, (ArtificialEvent_kinds hskip htr).1]
          have hpr2 : issueProbe (applyStmts st tr) false cfg.IssueID cfg.CreatedAt =
              some (issueRowOf cfg) := by
            rw [issueProbe_nonmanual, hiss, List.filter_append]
            have hcond : ([issueRowOf cfg].filter
                (fun r => r.id == cfg.IssueID && r.updated_at == some cfg.CreatedAt)) =
                [issueRowOf cfg] := by
              simp [issueRowOf]
            rw [hcond]
            exact pickLatest_append_gt _ _ (issue_filter_lt_synth hpr hegt he1 he2)
          refine ⟨1, Or.inl rfl, ?_⟩
          simp only [issueWorker, hs, ht, hl, orFail, bind, Except.bind, pure,
            Except.pure, hpr2]
          have hgt : p48 < int64add p48 cfg.EventID := int64add_p48_gt he1 he2
          simp [issueRowOf, scanString, scanBool, hs, ht, hl, bind, Except.bind, hgt]
      · rw [if_neg (by simpa using hch)] at h
        simp only [Except.ok.injEq, Prod.mk.injEq] at h
        obtain ⟨hst2, hk⟩ := h
        subst hst2
        refine ⟨2, Or.inr rfl, ?_⟩
        simp only [issueWorker, hs, ht, hl, orFail, bind, Except.bind, pure,
          Except.pure, hpr]
        simp only [scanString, scanBool, hrs, hrt, hrl, bind, Except.bind, pure,
          Except.pure, Bool.not_false, Bool.true_and]
        rw [if_neg (by simpa using hegt), if_neg (by simpa using hch)]

theorem aggIssueLabels_congr {T T2 : Store} {e : Int}
    (hfil : T2.issueLabels.filter (fun r => r.event_id == e) =
      T.issueLabels.filter (fun r => r.event_id == e)) :
    aggIssueLabels T2 e = aggIssueLabels T e := by
  unfold aggIssueLabels
  rw [hfil]

theorem aggIssueAssignees_congr {T T2 : Store} {e : Int}
    (hfil : T2.issueAssignees.filter (fun r => r.event_id == e) =
      T.issueAssignees.filter (fun r => r.event_id == e)) :
    aggIssueAssignees T2 e = aggIssueAssignees T e := by
  unfold aggIssueAssignees
  rw [hfil]

/-- A read-only non-manual issue worker outcome transfers to any store that
agrees with the original on the probed issue slice and on the non-synthetic
join slices. -/
theorem issueWorker_preserve {ctx : Ctx} {T T2 : Store} {cfg : IssueConfig} {k : Nat}
    (hk : k = 1 ∨ k = 2)
    (h : issueWorker ctx false T cfg = .ok (T, k))
    (hfi : T2.issues.filter
        (fun r => r.id == cfg.IssueID && r.updated_at == some cfg.CreatedAt) =
      T.issues.filter
        (fun r => r.id == cfg.IssueID && r.updated_at == some cfg.CreatedAt))
    (hlab : ∀ e : Int, ¬ p48 < e → T2.issueLabels.filter (fun r => r.event_id == e) =
      T.issueLabels.filter (fun r => r.event_id == e))
    (hass : ∀ e : Int, ¬ p48 < e →
      T2.issueAssignees.filter (fun r => r.event_id == e) =
      T.issueAssignees.filter (fun r => r.event_id == e)) :
    issueWorker ctx false T2 cfg = .ok (T2, k) := by
  have hpr2 : issueProbe T2 false cfg.IssueID cfg.CreatedAt =
      issueProbe T false cfg.IssueID cfg.CreatedAt := by
    rw [issueProbe_nonmanual, issueProbe_nonmanual, hfi]
  cases hs : cfg.GhIssue.State with
  | none => simp [issueWorker, hs, orFail, bind, Except.bind] at h
  | some sv =>
  cases ht : cfg.GhIssue.Title with
  | none => simp [issueWorker, hs, ht, orFail, bind, Except.bind] at h
  | some tv =>
  cases hl : cfg.GhIssue.Locked with
  | none => simp [issueWorker, hs, ht, hl, orFail, bind, Except.bind] at h
  | some lv =>
  simp only [issueWorker, hs, ht, hl, orFail, bind, Except.bind, pure, Except.pure] at h ⊢
  cases hpr : issueProbe T false cfg.IssueID cfg.CreatedAt with
  | none =>
    rw [hpr] at h
    cases htr : ArtificialEvent ctx cfg with
    | error e => rw [htr] at h; cases h
    | ok tr =>
      rw [htr] at h
      simp only [Except.ok.injEq, Prod.mk.injEq] at h
      rcases hk with rfl | rfl
      · exact absurd h.2 (by omega)
      · exact absurd h.2 (by omega)
  | some row =>
    rw [hpr] at h
    rw [hpr2, hpr]
    cases hrs : row.state with
    | none => simp [scanString, hrs, bind, Except.bind] at h
    | some gs =>
    cases hrt : row.title with
    | none => simp [scanString, hrs, hrt, bind, Except.bind] at h
    | some gt2 =>
    cases hrl : row.locked with
    | none => simp [scanString, scanBool, hrs, hrt, hrl, bind, Except.bind] at h
    | some gl =>
    simp only [scanString, scanBool, hrs, hrt, hrl, bind, Except.bind, pure,
      Except.pure, Bool.not_false, Bool.true_and] at h ⊢
    by_cases hegt : p48 < row.event_id
    · rw [if_pos (by simpa using hegt)] at h ⊢
      simp only [Except.ok.injEq, Prod.mk.injEq] at h
      rw [h.2]
    · rw [if_neg (by simpa using hegt)] at h ⊢
      rw [aggIssueLabels_congr (hlab row.event_id hegt),
        aggIssueAssignees_congr (hass row.event_id hegt)]
      by_cases hch : (optIntDiff cfg.MilestoneID row.milestone_id ||
          (sv != gs) ||
          optTimeDiff cfg.GhIssue.ClosedAt row.closed_at ||
          optIntDiff cfg.AssigneeID row.assignee_id ||
          (tv != gt2) ||
          (lv != gl) ||
          (aggIssueLabels T row.event_id != cfg.Labels) ||
          (aggIssueAssignees T row.event_id != cfg.Assignees)) = true
      · rw [if_pos (by simpa using hch)] at h
        cases htr : ArtificialEvent ctx cfg with
        | error e => rw [htr] at h; cases h
        | ok tr =>
          rw [htr] at h
          simp only [Except.ok.injEq, Prod.mk.injEq] at h
          rcases hk with rfl | rfl
          · exact absurd h.2 (by omega)
          · exact absurd h.2 (by omega)
      · rw [if_neg (by simpa using hch)] at h ⊢
        simp only [Except.ok.injEq, Prod.mk.injEq] at h
        rw [h.2]

/-- After a successful non-manual PR worker step, re-running the same
candidate against the produced store is a read-only no-op landing in outcome
bucket 1, 2 or 4. -/
theorem prWorker_restep {ctx : Ctx} {st st2 : Store} {ica : List IssueConfig}
    {pr : GhPullRequest} {k : Nat}
    (hskip : ctx.SkipPDB = false)
    (he : ∀ ic, ica.getLast? = some ic →
      0 < ic.EventID ∧ ic.EventID < 9223372036854775808 - p48)
    (h : prWorker ctx false st ica pr = .ok (st2, k)) :
    ∃ k2, (k2 = 1 ∨ k2 = 2 ∨ k2 = 4) ∧ prWorker ctx false st2 ica pr = .ok (st2, k2) := by
  cases hlast : ica.getLast? with
  | none => simp [prWorker, hlast, bind, Except.bind] at h
  | some ic =>
  obtain ⟨he1, he2⟩ := he ic hlast
  cases hpid : pr.ID with
  | none => simp [prWorker, hlast, hpid, orFail, bind, Except.bind] at h
  | some prid =>
  cases hpu : pr.UpdatedAt with
  | none => simp [prWorker, hlast, hpid, hpu, orFail, bind, Except.bind] at h
  | some updatedAt =>
  cases hps : pr.State with
  | none => simp [prWorker, hlast, hpid, hpu, hps, orFail, bind, Except.bind] at h
  | some sv =>
  cases hpt : pr.Title with
  | none => simp [prWorker, hlast, hpid, hpu, hps, hpt, orFail, bind, Except.bind] at h
  | some tv =>
  simp only [prWorker, hlast, hpid, hpu, hps, hpt, orFail, bind, Except.bind, pure,
    Except.pure, Bool.not_false, Bool.true_and] at h ⊢
  by_cases hcol : prCollision st prid (int64add p48 ic.EventID) updatedAt = true
  · rw [if_pos (by simpa using hcol)] at h
    simp only [Except.ok.injEq, Prod.mk.injEq] at h
    obtain ⟨hst2, hk⟩ := h
    subst hst2
    refine ⟨4, Or.inr (Or.inr rfl), ?_⟩
    rw [if_pos (by simpa using hcol)]
  · rw [if_neg (by simpa using hcol)] at h
    cases hpr : prProbe st false prid updatedAt with
    | none =>
      rw [hpr] at h
      cases htr : ArtificialPREvent ctx ic pr with
      | error e => rw [htr] at h; cases h
      | ok tr =>
        rw [htr] at h
        simp only [Except.ok.injEq, Prod.mk.injEq] at h
        obtain ⟨hst2, hk⟩ := h
        subst hst2
        have hpulls : (applyStmts st tr).pulls = st.pulls ++ [prRowOf ic pr prid] := by
          rw [applyStmts_pulls, (ArtificialPREvent_kinds hskip htr hpid).1]
        have hcol2 : prCollision (applyStmts st tr) prid (int64add p48 ic.EventID)
            updatedAt = false := by
          have hcolu := hcol
          unfold prCollision at hcolu ⊢
          rw [hpulls, List.any_append]
          simp only [Bool.or_eq_false_iff]
          refine ⟨by simpa using hcolu, ?_⟩
          simp [prRowOf, hpu]
        have hfe : st.pulls.filter
            (fun r => r.id == prid && r.updated_at == some updatedAt) = [] := by
          rw [prProbe_nonmanual] at hpr
          exact (pickLatest_none _ _ _).mp hpr
        have hpr2 : prProbe (applyStmts st tr) false prid updatedAt =
            some (prRowOf ic pr prid) := by
          rw [prProbe_nonmanual, hpulls, List.filter_append, hfe, List.nil_append]
          have hcond : ([prRowOf ic pr prid].filter
              (fun r => r.id == prid && r.updated_at == some updatedAt)) =
              [prRowOf ic pr prid] := by
            simp [prRowOf, hpu]
          rw [hcond]
          exact pickLatest_single _ _ _
        refine ⟨1, Or.inl rfl, ?_⟩
        rw [if_neg (by simpa using hcol2), hpr2]
        have hgt : p48 < int64add p48 ic.EventID := int64add_p48_gt he1 he2
        simp [prRowOf, scanString, hps, hpt, bind, Except.bind, hgt]
    | some row =>
      rw [hpr] at h
      cases hrs : row.state with
      | none => simp [scanString, hrs, bind, Except.bind] at h
      | some gs =>
      cases hrt : row.title with
      | none => simp [scanString, hrs, hrt, bind, Except.bind] at h
      | some gt2 =>
      simp only [scanString, hrs, hrt, bind, Except.bind, pure, Except.pure,
        Bool.not_false, Bool.true_and] at h
      by_cases hegt : p48 < row.event_id
      · rw [if_pos (by simpa using hegt)] at h
        simp only [Except.ok.injEq, Prod.mk.injEq] at h
        obtain ⟨hst2, hk⟩ := h
        subst hst2
        refine ⟨1, Or.inl rfl, ?_⟩
        rw [if_neg (by simpa using hcol), hpr]
        simp [scanString, hrs, hrt, bind, Except.bind, hegt]
      · rw [if_neg (by simpa using hegt)] at h
        cases hca : collectIds pr.Assignees with
        | error e => rw [hca] at h; simp [bind, Except.bind] at h
        | ok aids =>
        cases hcr : collectIds pr.RequestedReviewers with
        | error e => rw [hca, hcr] at h; simp [bind, Except.bind] at h
        | ok rids =>
        rw [hca, hcr] at h
        simp only [bind, Except.bind, pure, Except.pure] at h
        by_cases hch : (optIntDiff (ghMilestoneIDOrNil pr.Milestone) row.milestone_id ||
            (sv != gs) ||
            optTimeDiff pr.ClosedAt row.closed_at ||
            optBoolDiff pr.Merged row.merged ||
            optTimeDiff pr.MergedAt row.merged_at ||
            optIntDiff (ghActorIDOrNil pr.MergedBy) row.merged_by_id ||
            optIntDiff (ghActorIDOrNil pr.Assignee) row.assignee_id ||
            (tv != gt2) ||
            (aggIssueLabels st row.event_id != ic.Labels) ||
            (aggPRAssignees st row.event_id != canonSet aids) ||
            (aggPRReviewers st row.event_id != canonSet rids)) = true
        · rw [if_pos (by simpa using hch)] at h
          cases htr : ArtificialPREvent ctx ic pr with
          | error e => rw [htr] at h; cases h
          | ok tr =>
            rw [htr] at h
            simp only [Except.ok.injEq, Prod.mk.injEq] at h
            obtain ⟨hst2, hk⟩ := h
            subst hst2
            have hpulls : (applyStmts st tr).pulls =
                st.pulls ++ [prRowOf ic pr prid] := by
              rw [applyStmts_pulls, (ArtificialPREvent_kinds hskip htr hpid).1]
            have hcol2 : prCollision (applyStmts st tr) prid
                (int64add p48 ic.EventID) updatedAt = false := by
              have hcolu := hcol
              unfold prCollision at hcolu ⊢
              rw [hpulls, List.any_append]
              simp only [Bool.or_eq_false_iff]
              refine ⟨by simpa using hcolu, ?_⟩
              simp [prRowOf, hpu]
            have hpr2 : prProbe (applyStmts st tr) false prid updatedAt =
                some (prRowOf ic pr prid) := by
              rw [prProbe_nonmanual, hpulls, List.filter_append]
              have hcond : ([prRowOf ic pr prid].filter
                  (fun r => r.id == prid && r.updated_at == some updatedAt)) =
                  [prRowOf ic pr prid] := by
                simp [prRowOf, hpu]
              rw [hcond]
              refine pickLatest_append_gt _ _ ?_
              intro x hx
              have hkey := pr_filter_lt_synth hpr hegt he1 he2 x hx
              simpa [prRowOf, hpu] using hkey
            refine ⟨1, Or.inl rfl, ?_⟩
            rw [if_neg (by simpa using hcol2), hpr2]
            have hgt : p48 < int64add p48 ic.EventID := int64add_p48_gt he1 he2
            simp [prRowOf, scanString, hps, hpt, bind, Except.bind, hgt]
        · rw [if_neg (by simpa using hch)] at h
          simp only [Except.ok.injEq, Prod.mk.injEq] at h
          obtain ⟨hst2, hk⟩ := h
          subst hst2
          refine ⟨2, Or.inr (Or.inl rfl), ?_⟩
          rw [if_neg (by simpa using hcol), hpr]
          simp only [scanString, hrs, hrt, bind, Except.bind, pure, Except.pure,
            Bool.not_false, Bool.true_and, hca, hcr]
          rw [if_neg (by simpa using hegt)]
          rw [if_neg (by simpa using hch)]

theorem filter_nil_of_all {α : Type} {p : α → Bool} {l : List α}
    (h : ∀ a ∈ l, p a = false) : l.filter p = [] := by
  induction l with
  | nil => rfl
  | cons a t ih =>
    rw [List.filter_cons, h a (List.mem_cons_self a t)]
    simp only [Bool.false_eq_true, if_false]
    exact ih (fun b hb => h b (List.mem_cons_of_mem a hb))

theorem filter_append_false {α : Type} {A Δ : List α} {p : α → Bool}
    (h : ∀ r ∈ Δ, p r = false) : (A ++ Δ).filter p = A.filter p := by
  rw [List.filter_append, filter_nil_of_all h, List.append_nil]

theorem prCollision_mono {T T2 : Store} {Δ : List GhPullRequestRow}
    {prid eid : Int} {u : Nat} (hpulls : T2.pulls = T.pulls ++ Δ)
    (h : prCollision T prid eid u = true) : prCollision T2 prid eid u = true := by
  unfold prCollision at h ⊢
  rw [hpulls, List.any_append, h, Bool.true_or]

theorem prCollision_stable_false {T T2 : Store} {Δ : List GhPullRequestRow}
    {prid eid : Int} {u : Nat} (hpulls : T2.pulls = T.pulls ++ Δ)
    (hΔ : ∀ r ∈ Δ, r.id ≠ prid)
    (h : prCollision T prid eid u = false) : prCollision T2 prid eid u = false := by
  unfold prCollision at h ⊢
  rw [hpulls, List.any_append, h, Bool.false_or]
  rw [List.any_eq_false]
  intro r hr
  simp [hΔ r hr]

theorem aggPRAssignees_congr {T T2 : Store} {Δ : List PRAssigneeRow} {e : Int}
    (h : T2.prAssignees = T.prAssignees ++ Δ)
    (hΔ : ∀ r ∈ Δ, p48 < r.event_id) (he : ¬ p48 < e) :
    aggPRAssignees T2 e = aggPRAssignees T e := by
  unfold aggPRAssignees
  rw [h, List.filterMap_append]
  have hnil : Δ.filterMap (fun r => if r.event_id == e then r.assignee_id else none)
      = [] := by
    refine filterMap_nil_of_all (fun r hr => ?_)
    have hgt := hΔ r hr
    rw [if_neg (by simp only [beq_iff_eq]; omega)]
  rw [hnil, List.append_nil]

theorem aggPRReviewers_congr {T T2 : Store} {Δ : List PRReviewerRow} {e : Int}
    (h : T2.prReviewers = T.prReviewers ++ Δ)
    (hΔ : ∀ r ∈ Δ, p48 < r.event_id) (he : ¬ p48 < e) :
    aggPRReviewers T2 e = aggPRReviewers T e := by
  unfold aggPRReviewers
  rw [h, List.filterMap_append]
  have hnil : Δ.filterMap
      (fun r => if r.event_id == e then r.requested_reviewer_id else none) = [] := by
    refine filterMap_nil_of_all (fun r hr => ?_)
    have hgt := hΔ r hr
    rw [if_neg (by simp only [beq_iff_eq]; omega)]
  rw [hnil, List.append_nil]

/-- A read-only non-manual PR worker outcome transfers to any store whose new
pull rows carry other PR ids and whose new join rows are all synthetic. -/
theorem prWorker_preserve {ctx : Ctx} {T T2 : Store} {ica : List IssueConfig}
    {pr : GhPullRequest} {k : Nat}
    {Δp : List GhPullRequestRow} {Δl : List IssueLabelRow}
    {Δa : List PRAssigneeRow} {Δr : List PRReviewerRow}
    (hk : k = 1 ∨ k = 2 ∨ k = 4)
    (h : prWorker ctx false T ica pr = .ok (T, k))
    (hpulls : T2.pulls = T.pulls ++ Δp)
    (hΔp : ∀ r ∈ Δp, pr.ID ≠ some r.id)
    (hlabs : T2.issueLabels = T.issueLabels ++ Δl)
    (hΔl : ∀ r ∈ Δl, p48 < r.event_id)
    (hpas : T2.prAssignees = T.prAssignees ++ Δa)
    (hΔa : ∀ r ∈ Δa, p48 < r.event_id)
    (hprs : T2.prReviewers = T.prReviewers ++ Δr)
    (hΔr : ∀ r ∈ Δr, p48 < r.event_id) :
    prWorker ctx false T2 ica pr = .ok (T2, k) := by
  cases hlast : ica.getLast? with
  | none => simp [prWorker, hlast, bind, Except.bind] at h
  | some ic =>
  cases hpid : pr.ID with
  | none => simp [prWorker, hlast, hpid, orFail, bind, Except.bind] at h
  | some prid =>
  cases hpu : pr.UpdatedAt with
  | none => simp [prWorker, hlast, hpid, hpu, orFail, bind, Except.bind] at h
  | some updatedAt =>
  cases hps : pr.State with
  | none => simp [prWorker, hlast, hpid, hpu, hps, orFail, bind, Except.bind] at h
  | some sv =>
  cases hpt : pr.Title with
  | none => simp [prWorker, hlast, hpid, hpu, hps, hpt, orFail, bind, Except.bind] at h
  | some tv =>
  have hΔp2 : ∀ r ∈ Δp, r.id ≠ prid := by
    intro r hr heq
    exact hΔp r hr (by rw [hpid, heq])
  have hfi : T2.pulls.filter (fun r => r.id == prid && r.updated_at == some updatedAt) =
      T.pulls.filter (fun r => r.id == prid && r.updated_at == some updatedAt) := by
    rw [hpulls]
    refine filter_append_false (fun r hr => ?_)
    simp [hΔp2 r hr]
  have hpr2 : prProbe T2 false prid updatedAt = prProbe T false prid updatedAt := by
    rw [prProbe_nonmanual, prProbe_nonmanual, hfi]
  simp only [prWorker, hlast, hpid, hpu, hps, hpt, orFail, bind, Except.bind, pure,
    Except.pure, Bool.not_false, Bool.true_and] at h ⊢
  by_cases hcol : prCollision T prid (int64add p48 ic.EventID) updatedAt = true
  · rw [if_pos (by simpa using hcol)] at h
    simp only [Except.ok.injEq, Prod.mk.injEq] at h
    rw [if_pos (by simpa using prCollision_mono hpulls hcol)]
    rw [h.2]
  · rw [if_neg (by simpa using hcol)] at h
    have hcol2 := prCollision_stable_false hpulls hΔp2
      (by simpa using (Bool.not_eq_true _).mp hcol)
    rw [if_neg (by simpa using hcol2), hpr2]
    cases hpr : prProbe T false prid updatedAt with
    | none =>
      rw [hpr] at h
      cases htr : ArtificialPREvent ctx ic pr with
      | error e => rw [htr] at h; cases h
      | ok tr =>
        rw [htr] at h
        simp only [Except.ok.injEq, Prod.mk.injEq] at h
        rcases hk with rfl | rfl | rfl
        · exact absurd h.2 (by omega)
        · exact absurd h.2 (by omega)
        · exact absurd h.2 (by omega)
    | some row =>
      rw [hpr] at h
      cases hrs : row.state with
      | none => simp [scanString, hrs, bind, Except.bind] at h
      | some gs =>
      cases hrt : row.title with
      | none => simp [scanString, hrs, hrt, bind, Except.bind] at h
      | some gt2 =>
      simp only [scanString, hrs, hrt, bind, Except.bind, pure, Except.pure,
        Bool.not_false, Bool.true_and] at h ⊢
      by_cases hegt : p48 < row.event_id
      · rw [if_pos (by simpa using hegt)] at h ⊢
        simp only [Except.ok.injEq, Prod.mk.injEq] at h
        rw [h.2]
      · rw [if_neg (by simpa using hegt)] at h ⊢
        cases hca : collectIds pr.Assignees with
        | error e => rw [hca] at h; simp [bind, Except.bind] at h
        | ok aids =>
        cases hcr : collectIds pr.RequestedReviewers with
        | error e => rw [hca, hcr] at h; simp [bind, Except.bind] at h
        | ok rids =>
        rw [hca, hcr] at h
        simp only [hca, hcr, bind, Except.bind, pure, Except.pure] at h ⊢
        have hLc : aggIssueLabels T2 row.event_id = aggIssueLabels T row.event_id := by
          refine aggIssueLabels_congr ?_
          rw [hlabs]
          refine filter_append_false (fun r hr => ?_)
          have hgt := hΔl r hr
          simp only [beq_eq_false_iff_ne, ne_eq]
          omega
        have hAc : aggPRAssignees T2 row.event_id = aggPRAssignees T row.event_id :=
          aggPRAssignees_congr hpas hΔa hegt
        have hRc : aggPRReviewers T2 row.event_id = aggPRReviewers T row.event_id :=
          aggPRReviewers_congr hprs hΔr hegt
        rw [hLc, hAc, hRc]
        by_cases hch : (optIntDiff (ghMilestoneIDOrNil pr.Milestone) row.milestone_id ||
            (sv != gs) ||
            optTimeDiff pr.ClosedAt row.closed_at ||
            optBoolDiff pr.Merged row.merged ||
            optTimeDiff pr.MergedAt row.merged_at ||
            optIntDiff (ghActorIDOrNil pr.MergedBy) row.merged_by_id ||
            optIntDiff (ghActorIDOrNil pr.Assignee) row.assignee_id ||
            (tv != gt2) ||
            (aggIssueLabels T row.event_id != ic.Labels) ||
            (aggPRAssignees T row.event_id != canonSet aids) ||
            (aggPRReviewers T row.event_id != canonSet rids)) = true
        · rw [if_pos (by simpa using hch)] at h
          cases htr : ArtificialPREvent ctx ic pr with
          | error e => rw [htr] at h; cases h
          | ok tr =>
            rw [htr] at h
            simp only [Except.ok.injEq, Prod.mk.injEq] at h
            rcases hk with rfl | rfl | rfl
            · exact absurd h.2 (by omega)
            · exact absurd h.2 (by omega)
            · exact absurd h.2 (by omega)
        · rw [if_neg (by simpa using hch)] at h ⊢
          simp only [Except.ok.injEq, Prod.mk.injEq] at h
          rw [h.2]

/-- What a successful non-manual issue worker step appends to the store: at
most the candidate snapshot row plus synthetic-id join rows, and nothing in
the PR tables. -/
theorem issueWorker_delta {ctx : Ctx} {st st2 : Store} {cfg : IssueConfig} {k : Nat}
    (hskip : ctx.SkipPDB = false)
    (he1 : 0 < cfg.EventID) (he2 : cfg.EventID < 9223372036854775808 - p48)
    (h : issueWorker ctx false st cfg = .ok (st2, k)) :
    ∃ Δi Δl Δa,
      st2.issues = st.issues ++ Δi ∧ st2.issueLabels = st.issueLabels ++ Δl ∧
      st2.issueAssignees = st.issueAssignees ++ Δa ∧
      (∀ r ∈ Δi, r.id = cfg.IssueID ∧ r.updated_at = some cfg.CreatedAt) ∧
      (∀ r ∈ Δl, p48 < r.event_id) ∧ (∀ r ∈ Δa, p48 < r.event_id) := by
  have hwr : ∀ tr : List Stmt, ArtificialEvent ctx cfg = .ok tr → st2 = applyStmts st tr →
      ∃ Δi Δl Δa,
      st2.issues = st.issues ++ Δi ∧ st2.issueLabels = st.issueLabels ++ Δl ∧
      st2.issueAssignees = st.issueAssignees ++ Δa ∧
      (∀ r ∈ Δi, r.id = cfg.IssueID ∧ r.updated_at = some cfg.CreatedAt) ∧
      (∀ r ∈ Δl, p48 < r.event_id) ∧ (∀ r ∈ Δa, p48 < r.event_id) := by
    intro tr htr hst
    subst hst
    refine ⟨[issueRowOf cfg], tr.filterMap stmtIssueLabelRow,
      tr.filterMap stmtIssueAssigneeRow, ?_, applyStmts_issueLabels st tr,
      applyStmts_issueAssignees st tr, ?_, ?_, ?_⟩
    · rw [applyStmts_issues, (ArtificialEvent_kinds hskip htr).1]
    · intro r hr
      rcases List.mem_singleton.mp hr with rfl
      exact ⟨rfl, rfl⟩
    · intro r hr
      rw [ArtificialEvent_label_eids htr r hr]
      exact int64add_p48_gt he1 he2
    · intro r hr
      rw [ArtificialEvent_assignee_eids htr r hr]
      exact int64add_p48_gt he1 he2
  have hnw : st2 = st → ∃ Δi Δl Δa,
      st2.issues = st.issues ++ Δi ∧ st2.issueLabels = st.issueLabels ++ Δl ∧
      st2.issueAssignees = st.issueAssignees ++ Δa ∧
      (∀ r ∈ Δi, r.id = cfg.IssueID ∧ r.updated_at = some cfg.CreatedAt) ∧
      (∀ r ∈ Δl, p48 < r.event_id) ∧ (∀ r ∈ Δa, p48 < r.event_id) := by
    intro hst
    subst hst
    exact ⟨[], [], [], by simp, by simp, by simp,
      fun r hr => absurd hr (List.not_mem_nil r),
      fun r hr => absurd hr (List.not_mem_nil r),
      fun r hr => absurd hr (List.not_mem_nil r)⟩
  cases hs : cfg.GhIssue.State with
  | none => simp [issueWorker, hs, orFail, bind, Except.bind] at h
  | some sv =>
  cases ht : cfg.GhIssue.Title with
  | none => simp [issueWorker, hs, ht, orFail, bind, Except.bind] at h
  | some tv =>
  cases hl : cfg.GhIssue.Locked with
  | none => simp [issueWorker, hs, ht, hl, orFail, bind, Except.bind] at h
  | some lv =>
  simp only [issueWorker, hs, ht, hl, orFail, bind, Except.bind, pure, Except.pure] at h
  cases hpr : issueProbe st false cfg.IssueID cfg.CreatedAt with
  | none =>
    rw [hpr] at h
    cases htr : ArtificialEvent ctx cfg with
    | error e => rw [htr] at h; cases h
    | ok tr =>
      rw [htr] at h
      simp only [Except.ok.injEq, Prod.mk.injEq] at h
      exact hwr tr htr h.1.symm
  | some row =>
    rw [hpr] at h
    cases hrs : row.state with
    | none => simp [scanString, hrs, bind, Except.bind] at h
    | some gs =>
    cases hrt : row.title with
    | none => simp [scanString, hrs, hrt, bind, Except.bind] at h
    | some gt2 =>
    cases hrl : row.locked with
    | none => simp [scanString, scanBool, hrs, hrt, hrl, bind, Except.bind] at h
    | some gl =>
    simp only [scanString, scanBool, hrs, hrt, hrl, bind, Except.bind, pure,
      Except.pure, Bool.not_false, Bool.true_and] at h
    by_cases hegt : p48 < row.event_id
    · rw [if_pos (by simpa using hegt)] at h
      simp only [Except.ok.injEq, Prod.mk.injEq] at h
      exact hnw h.1.symm
    · rw [if_neg (by simpa using hegt)] at h
      by_cases hch : (optIntDiff cfg.MilestoneID row.milestone_id ||
          (sv != gs) ||
          optTimeDiff cfg.GhIssue.ClosedAt row.closed_at ||
          optIntDiff cfg.AssigneeID row.assignee_id ||
          (tv != gt2) ||
          (lv != gl) ||
          (aggIssueLabels st row.event_id != cfg.Labels) ||
          (aggIssueAssignees st row.event_id != cfg.Assignees)) = true
      · rw [if_pos (by simpa using hch)] at h
        cases htr : ArtificialEvent ctx cfg with
        | error e => rw [htr] at h; cases h
        | ok tr =>
          rw [htr] at h
          simp only [Except.ok.injEq, Prod.mk.injEq] at h
          exact hwr tr htr h.1.symm
      · rw [if_neg (by simpa using hch)] at h
        simp only [Except.ok.injEq, Prod.mk.injEq] at h
        exact hnw h.1.symm

/-- What a successful non-manual PR worker step appends to the store: at most
the PR snapshot row (carrying the remote PR id) plus synthetic-id PR join
rows, and nothing in the issue tables. -/
theorem prWorker_delta {ctx : Ctx} {st st2 : Store} {ica : List IssueConfig}
    {pr : GhPullRequest} {k : Nat}
    (hskip : ctx.SkipPDB = false)
    (he : ∀ ic, ica.getLast? = some ic →
      0 < ic.EventID ∧ ic.EventID < 9223372036854775808 - p48)
    (h : prWorker ctx false st ica pr = .ok (st2, k)) :
    ∃ Δp Δa Δr,
      st2.pulls = st.pulls ++ Δp ∧ st2.prAssignees = st.prAssignees ++ Δa ∧
      st2.prReviewers = st.prReviewers ++ Δr ∧
      st2.issues = st.issues ∧ st2.issueLabels = st.issueLabels ∧
      st2.issueAssignees = st.issueAssignees ∧
      (∀ r ∈ Δp, pr.ID = some r.id) ∧
      (∀ r ∈ Δa, p48 < r.event_id) ∧ (∀ r ∈ Δr, p48 < r.event_id) := by
  cases hlast : ica.getLast? with
  | none => simp [prWorker, hlast, bind, Except.bind] at h
  | some ic =>
  obtain ⟨he1, he2⟩ := he ic hlast
  cases hpid : pr.ID with
  | none => simp [prWorker, hlast, hpid, orFail, bind, Except.bind] at h
  | some prid =>
  cases hpu : pr.UpdatedAt with
  | none => simp [prWorker, hlast, hpid, hpu, orFail, bind, Except.bind] at h
  | some updatedAt =>
  cases hps : pr.State with
  | none => simp [prWorker, hlast, hpid, hpu, hps, orFail, bind, Except.bind] at h
  | some sv =>
  cases hpt : pr.Title with
  | none => simp [prWorker, hlast, hpid, hpu, hps, hpt, orFail, bind, Except.bind] at h
  | some tv =>
  have hwr : ∀ tr : List Stmt, ArtificialPREvent ctx ic pr = .ok tr →
      st2 = applyStmts st tr →
      ∃ Δp Δa Δr,
      st2.pulls = st.pulls ++ Δp ∧ st2.prAssignees = st.prAssignees ++ Δa ∧
      st2.prReviewers = st.prReviewers ++ Δr ∧
      st2.issues = st.issues ∧ st2.issueLabels = st.issueLabels ∧
      st2.issueAssignees = st.issueAssignees ∧
      (∀ r ∈ Δp, some prid = some r.id) ∧
      (∀ r ∈ Δa, p48 < r.event_id) ∧ (∀ r ∈ Δr, p48 < r.event_id) := by
    intro tr htr hst
    subst hst
    obtain ⟨hpul, hiss, hlabs, hias⟩ := ArtificialPREvent_kinds hskip htr hpid
    refine ⟨[prRowOf ic pr prid], tr.filterMap stmtPRAssigneeRow,
      tr.filterMap stmtPRReviewerRow, ?_, applyStmts_prAssignees st tr,
      applyStmts_prReviewers st tr, ?_, ?_, ?_, ?_, ?_, ?_⟩
    · rw [applyStmts_pulls, hpul]
    · rw [applyStmts_issues, hiss, List.append_nil]
    · rw [applyStmts_issueLabels, hlabs, List.append_nil]
    · rw [applyStmts_issueAssignees, hias, List.append_nil]
    · intro r hr
      rcases List.mem_singleton.mp hr with rfl
      rfl
    · intro r hr
      rw [ArtificialPREvent_prAssignee_eids htr r hr]
      exact int64add_p48_gt he1 he2
    · intro r hr
      rw [ArtificialPREvent_prReviewer_eids htr r hr]
      exact int64add_p48_gt he1 he2
  have hnw : st2 = st →
      ∃ Δp Δa Δr,
      st2.pulls = st.pulls ++ Δp ∧ st2.prAssignees = st.prAssignees ++ Δa ∧
      st2.prReviewers = st.prReviewers ++ Δr ∧
      st2.issues = st.issues ∧ st2.issueLabels = st.issueLabels ∧
      st2.issueAssignees = st.issueAssignees ∧
      (∀ r ∈ Δp, some prid = some r.id) ∧
      (∀ r ∈ Δa, p48 < r.event_id) ∧ (∀ r ∈ Δr, p48 < r.event_id) := by
    intro hst
    subst hst
    exact ⟨[], [], [], by simp, by simp, by simp, rfl, rfl, rfl,
      fun r hr => absurd hr (List.not_mem_nil r),
      fun r hr => absurd hr (List.not_mem_nil r),
      fun r hr => absurd hr (List.not_mem_nil r)⟩
  simp only [prWorker, hlast, hpid, hpu, hps, hpt, orFail, bind, Except.bind, pure,
    Except.pure, Bool.not_false, Bool.true_and] at h
  by_cases hcol : prCollision st prid (int64add p48 ic.EventID) updatedAt = true
  · rw [if_pos (by simpa using hcol)] at h
    simp only [Except.ok.injEq, Prod.mk.injEq] at h
    exact hnw h.1.symm
  · rw [if_neg (by simpa using hcol)] at h
    cases hpr : prProbe st false prid updatedAt with
    | none =>
      rw [hpr] at h
      cases htr : ArtificialPREvent ctx ic pr with
      | error e => rw [htr] at h; cases h
      | ok tr =>
        rw [htr] at h
        simp only [Except.ok.injEq, Prod.mk.injEq] at h
        exact hwr tr htr h.1.symm
    | some row =>
      rw [hpr] at h
      cases hrs : row.state with
      | none => simp [scanString, hrs, bind, Except.bind] at h
      | some gs =>
      cases hrt : row.title with
      | none => simp [scanString, hrs, hrt, bind, Except.bind] at h
      | some gt2 =>
      simp only [scanString, hrs, hrt, bind, Except.bind, pure, Except.pure,
        Bool.not_false, Bool.true_and] at h
      by_cases hegt : p48 < row.event_id
      · rw [if_pos (by simpa using hegt)] at h
        simp only [Except.ok.injEq, Prod.mk.injEq] at h
        exact hnw h.1.symm
      · rw [if_neg (by simpa using hegt)] at h
        cases hca : collectIds pr.Assignees with
        | error e => rw [hca] at h; simp [bind, Except.bind] at h
        | ok aids =>
        cases hcr : collectIds pr.RequestedReviewers with
        | error e => rw [hca, hcr] at h; simp [bind, Except.bind] at h
        | ok rids =>
        rw [hca, hcr] at h
        simp only [bind, Except.bind, pure, Except.pure] at h
        by_cases hch : (optIntDiff (ghMilestoneIDOrNil pr.Milestone) row.milestone_id ||
            (sv != gs) ||
            optTimeDiff pr.ClosedAt row.closed_at ||
            optBoolDiff pr.Merged row.merged ||
            optTimeDiff pr.MergedAt row.merged_at ||
            optIntDiff (ghActorIDOrNil pr.MergedBy) row.merged_by_id ||
            optIntDiff (ghActorIDOrNil pr.Assignee) row.assignee_id ||
            (tv != gt2) ||
            (aggIssueLabels st row.event_id != ic.Labels) ||
            (aggPRAssignees st row.event_id != canonSet aids) ||
            (aggPRReviewers st row.event_id != canonSet rids)) = true
        · rw [if_pos (by simpa using hch)] at h
          cases htr : ArtificialPREvent ctx ic pr with
          | error e => rw [htr] at h; cases h
          | ok tr =>
            rw [htr] at h
            simp only [Except.ok.injEq, Prod.mk.injEq] at h
            exact hwr tr htr h.1.symm
        · rw [if_neg (by simpa using hch)] at h
          simp only [Except.ok.injEq, Prod.mk.injEq] at h
          exact hnw h.1.symm

/-- After a successful non-manual issue phase over key-distinct candidates,
every processed candidate is a read-only no-op (bucket 1 or 2) against the
final store, and the store only grew by candidate-keyed snapshot rows and
synthetic join rows. -/
theorem issuePhase_post {ctx : Ctx} (hskip : ctx.SkipPDB = false) :
    ∀ (L : List IssueConfig) (st0 : Store) (b0 : Buckets) (st1 : Store) (b1 : Buckets),
    (∀ c ∈ L, 0 < c.EventID ∧ c.EventID < 9223372036854775808 - p48) →
    L.Pairwise (fun a b => a.IssueID ≠ b.IssueID ∨ a.CreatedAt ≠ b.CreatedAt) →
    L.foldlM (fun acc cfg => do
        let r ← issueWorker ctx false acc.1 cfg
        pure (r.1, bump acc.2 r.2)) (st0, b0) = .ok (st1, b1) →
    (∀ c ∈ L, ∃ k2, (k2 = 1 ∨ k2 = 2) ∧ issueWorker ctx false st1 c = .ok (st1, k2)) ∧
    ∃ Δi Δl Δa,
      st1.issues = st0.issues ++ Δi ∧ st1.issueLabels = st0.issueLabels ++ Δl ∧
      st1.issueAssignees = st0.issueAssignees ++ Δa ∧
      (∀ r ∈ Δi, ∃ c ∈ L, r.id = c.IssueID ∧ r.updated_at = some c.CreatedAt) ∧
      (∀ r ∈ Δl, p48 < r.event_id) ∧ (∀ r ∈ Δa, p48 < r.event_id) := by
  intro L
  induction L with
  | nil =>
    intro st0 b0 st1 b1 hb hdist h
    simp only [List.foldlM_nil, pure, Except.pure, Except.ok.injEq,
      Prod.mk.injEq] at h
    obtain ⟨h1, h2⟩ := h
    subst h1
    refine ⟨fun c hc => absurd hc (List.not_mem_nil c), [], [], [],
      by simp, by simp, by simp, fun r hr => absurd hr (List.not_mem_nil r),
      fun r hr => absurd hr (List.not_mem_nil r),
      fun r hr => absurd hr (List.not_mem_nil r)⟩
  | cons c t ih =>
    intro st0 b0 st1 b1 hb hdist h
    rw [List.foldlM_cons] at h
    simp only [bind, Except.bind] at h
    cases hw : issueWorker ctx false st0 c with
    | error e => rw [hw] at h; cases h
    | ok r1 =>
      rw [hw] at h
      obtain ⟨S1, k⟩ := r1
      simp only [pure, Except.pure] at h
      obtain ⟨he1, he2⟩ := hb c (List.mem_cons_self c t)
      obtain ⟨hP, Δi2, Δl2, Δa2, hII, hLL, hAA, hkeys2, hsl2, hsa2⟩ :=
        ih S1 (bump b0 k) st1 b1
          (fun c2 hc2 => hb c2 (List.mem_cons_of_mem c hc2))
          (List.pairwise_cons.mp hdist).2 h
      obtain ⟨k2, hk2, hS1⟩ := issueWorker_restep hskip he1 he2 hw
      obtain ⟨Δi1, Δl1, Δa1, hII1, hLL1, hAA1, hkeys1, hsl1, hsa1⟩ :=
        issueWorker_delta hskip he1 he2 hw
      have hcond : ∀ r ∈ Δi2,
          (r.id == c.IssueID && r.updated_at == some c.CreatedAt) = false := by
        intro r hr
        obtain ⟨c2, hc2, hid2, hupd2⟩ := hkeys2 r hr
        rcases (List.pairwise_cons.mp hdist).1 c2 hc2 with hd | hd
        · simp [hid2, hupd2, Ne.symm hd]
        · simp [hid2, hupd2, Ne.symm hd]
      have hfi : st1.issues.filter
          (fun r => r.id == c.IssueID && r.updated_at == some c.CreatedAt) =
          S1.issues.filter
          (fun r => r.id == c.IssueID && r.updated_at == some c.CreatedAt) := by
        rw [hII]
        exact filter_append_false hcond
      have hlabf : ∀ e : Int, ¬ p48 < e →
          st1.issueLabels.filter (fun r => r.event_id == e) =
          S1.issueLabels.filter (fun r => r.event_id == e) := by
        intro e hee
        rw [hLL]
        refine filter_append_false (fun r hr => ?_)
        have hgt := hsl2 r hr
        simp only [beq_eq_false_iff_ne, ne_eq]
        omega
      have hassf : ∀ e : Int, ¬ p48 < e →
          st1.issueAssignees.filter (fun r => r.event_id == e) =
          S1.issueAssignees.filter (fun r => r.event_id == e) := by
        intro e hee
        rw [hAA]
        refine filter_append_false (fun r hr => ?_)
        have hgt := hsa2 r hr
        simp only [beq_eq_false_iff_ne, ne_eq]
        omega
      have hPhead := issueWorker_preserve hk2 hS1 hfi hlabf hassf
      refine ⟨?_, Δi1 ++ Δi2, Δl1 ++ Δl2, Δa1 ++ Δa2, ?_, ?_, ?_, ?_, ?_, ?_⟩
      · intro c0 hc0
        rcases List.mem_cons.mp hc0 with rfl | hc0
        · exact ⟨k2, hk2, hPhead⟩
        · exact hP c0 hc0
      · rw [hII, hII1, List.append_assoc]
      · rw [hLL, hLL1, List.append_assoc]
      · rw [hAA, hAA1, List.append_assoc]
      · intro r hr
        rcases List.mem_append.mp hr with hr | hr
        · exact ⟨c, List.mem_cons_self c t, hkeys1 r hr⟩
        · obtain ⟨c2, hc2, hk⟩ := hkeys2 r hr
          exact ⟨c2, List.mem_cons_of_mem c hc2, hk⟩
      · intro r hr
        rcases List.mem_append.mp hr with hr | hr
        · exact hsl1 r hr
        · exact hsl2 r hr
      · intro r hr
        rcases List.mem_append.mp hr with hr | hr
        · exact hsa1 r hr
        · exact hsa2 r hr

/-- After a successful non-manual PR phase over PRs with pairwise distinct
remote ids, every processed PR is a read-only no-op (bucket 1, 2 or 4)
against the final store, and the store only grew by PR-id-keyed snapshot rows
and synthetic PR join rows, leaving the issue tables untouched. -/
theorem prPhase_post {ctx : Ctx} {issues : List (Int × List IssueConfig)}
    (hskip : ctx.SkipPDB = false) :
    ∀ (P : List (Int × GhPullRequest)) (st0 : Store) (b0 : Buckets)
      (st1 : Store) (b1 : Buckets),
    (∀ p ∈ P, ∀ ic, ((lookupBatch issues p.1).getD []).getLast? = some ic →
      0 < ic.EventID ∧ ic.EventID < 9223372036854775808 - p48) →
    P.Pairwise (fun a b => a.2.ID ≠ b.2.ID) →
    P.foldlM (fun acc pra => do
        let ica := (lookupBatch issues pra.1).getD []
        let r ← prWorker ctx false acc.1 ica pra.2
        pure (r.1, bump acc.2 r.2)) (st0, b0) = .ok (st1, b1) →
    (∀ p ∈ P, ∃ k2, (k2 = 1 ∨ k2 = 2 ∨ k2 = 4) ∧
      prWorker ctx false st1 ((lookupBatch issues p.1).getD []) p.2 = .ok (st1, k2)) ∧
    ∃ Δp Δa Δr,
      st1.pulls = st0.pulls ++ Δp ∧ st1.prAssignees = st0.prAssignees ++ Δa ∧
      st1.prReviewers = st0.prReviewers ++ Δr ∧
      st1.issues = st0.issues ∧ st1.issueLabels = st0.issueLabels ∧
      st1.issueAssignees = st0.issueAssignees ∧
      (∀ r ∈ Δp, ∃ p ∈ P, p.2.ID = some r.id) ∧
      (∀ r ∈ Δa, p48 < r.event_id) ∧ (∀ r ∈ Δr, p48 < r.event_id) := by
  intro P
  induction P with
  | nil =>
    intro st0 b0 st1 b1 hb hdist h
    simp only [List.foldlM_nil, pure, Except.pure, Except.ok.injEq,
      Prod.mk.injEq] at h
    obtain ⟨h1, h2⟩ := h
    subst h1
    refine ⟨fun p hp => absurd hp (List.not_mem_nil p), [], [], [],
      by simp, by simp, by simp, rfl, rfl, rfl,
      fun r hr => absurd hr (List.not_mem_nil r),
      fun r hr => absurd hr (List.not_mem_nil r),
      fun r hr => absurd hr (List.not_mem_nil r)⟩
  | cons q t ih =>
    intro st0 b0 st1 b1 hb hdist h
    rw [List.foldlM_cons] at h
    simp only [bind, Except.bind] at h
    cases hw : prWorker ctx false st0 ((lookupBatch issues q.1).getD []) q.2 with
    | error e => rw [hw] at h; cases h
    | ok r1 =>
      rw [hw] at h
      obtain ⟨S1, k⟩ := r1
      simp only [pure, Except.pure] at h
      have hbq := hb q (List.mem_cons_self q t)
      obtain ⟨hP, Δp2, Δa2, Δr2, hPP, hAA, hRR, hIIe, hLLe, hASe, hids2, hsa2, hsr2⟩ :=
        ih S1 (bump b0 k) st1 b1
          (fun p2 hp2 => hb p2 (List.mem_cons_of_mem q hp2))
          (List.pairwise_cons.mp hdist).2 h
      obtain ⟨k2, hk2, hS1⟩ := prWorker_restep hskip hbq hw
      obtain ⟨Δp1, Δa1, Δr1, hPP1, hAA1, hRR1, hII1, hLL1, hAS1, hids1, hsa1, hsr1⟩ :=
        prWorker_delta hskip hbq hw
      have hΔp : ∀ r ∈ Δp2, q.2.ID ≠ some r.id := by
        intro r hr heq
        obtain ⟨p2, hp2, hid2⟩ := hids2 r hr
        exact (List.pairwise_cons.mp hdist).1 p2 hp2 (heq.trans hid2.symm)
      have hPhead := prWorker_preserve hk2 hS1 hPP hΔp
        (by rw [List.append_nil]; exact hLLe) (fun r hr => absurd hr (List.not_mem_nil r))
        hAA hsa2 hRR hsr2
      refine ⟨?_, Δp1 ++ Δp2, Δa1 ++ Δa2, Δr1 ++ Δr2, ?_, ?_, ?_, ?_, ?_, ?_, ?_, ?_, ?_⟩
      · intro p hp
        rcases List.mem_cons.mp hp with rfl | hp
        · exact ⟨k2, hk2, hPhead⟩
        · exact hP p hp
      · rw [hPP, hPP1, List.append_assoc]
      · rw [hAA, hAA1, List.append_assoc]
      · rw [hRR, hRR1, List.append_assoc]
      · rw [hIIe, hII1]
      · rw [hLLe, hLL1]
      · rw [hASe, hAS1]
      · intro r hr
        rcases List.mem_append.mp hr with hr | hr
        · exact ⟨q, List.mem_cons_self q t, hids1 r hr⟩
        · obtain ⟨p2, hp2, hid2⟩ := hids2 r hr
          exact ⟨p2, List.mem_cons_of_mem q hp2, hid2⟩
      · intro r hr
        rcases List.mem_append.mp hr with hr | hr
        · exact hsa1 r hr
        · exact hsa2 r hr
      · intro r hr
        rcases List.mem_append.mp hr with hr | hr
        · exact hsr1 r hr
        · exact hsr2 r hr

/-- A phase in which every candidate is a read-only bucket-1/2 no-op leaves
the store untouched and writes nothing (zero bucket-0 and bucket-3 counts). -/
theorem issuePhase_noop {ctx : Ctx} {st : Store} :
    ∀ (L : List IssueConfig) (b : Buckets),
    (∀ c ∈ L, ∃ k2, (k2 = 1 ∨ k2 = 2) ∧ issueWorker ctx false st c = .ok (st, k2)) →
    ∃ b2, L.foldlM (fun acc cfg => do
        let r ← issueWorker ctx false acc.1 cfg
        pure (r.1, bump acc.2 r.2)) (st, b) = .ok (st, b2) ∧
      b2.b0 = b.b0 ∧ b2.b3 = b.b3 := by
  intro L
  induction L with
  | nil => exact fun b h => ⟨b, rfl, rfl, rfl⟩
  | cons c t ih =>
    intro b h
    obtain ⟨k2, hk2, hw⟩ := h c (List.mem_cons_self c t)
    obtain ⟨b2, hfold, h0, h3⟩ :=
      ih (bump b k2) (fun c2 hc2 => h c2 (List.mem_cons_of_mem c hc2))
    refine ⟨b2, ?_, ?_, ?_⟩
    · rw [List.foldlM_cons]
      simp only [bind, Except.bind, hw, pure, Except.pure]
      exact hfold
    · rw [h0]
      rcases hk2 with rfl | rfl <;> rfl
    · rw [h3]
      rcases hk2 with rfl | rfl <;> rfl

theorem prPhase_noop {ctx : Ctx} {st : Store}
    {issues : List (Int × List IssueConfig)} :
    ∀ (P : List (Int × GhPullRequest)) (b : Buckets),
    (∀ p ∈ P, ∃ k2, (k2 = 1 ∨ k2 = 2 ∨ k2 = 4) ∧
      prWorker ctx false st ((lookupBatch issues p.1).getD []) p.2 = .ok (st, k2)) →
    ∃ b2, P.foldlM (fun acc pra => do
        let ica := (lookupBatch issues pra.1).getD []
        let r ← prWorker ctx false acc.1 ica pra.2
        pure (r.1, bump acc.2 r.2)) (st, b) = .ok (st, b2) ∧
      b2.b0 = b.b0 ∧ b2.b3 = b.b3 := by
  intro P
  induction P with
  | nil => exact fun b h => ⟨b, rfl, rfl, rfl⟩
  | cons q t ih =>
    intro b h
    obtain ⟨k2, hk2, hw⟩ := h q (List.mem_cons_self q t)
    obtain ⟨b2, hfold, h0, h3⟩ :=
      ih (bump b k2) (fun p2 hp2 => h p2 (List.mem_cons_of_mem q hp2))
    refine ⟨b2, ?_, ?_, ?_⟩
    · rw [List.foldlM_cons]
      simp only [bind, Except.bind, hw, pure, Except.pure]
      exact hfold
    · rw [h0]
      rcases hk2 with rfl | rfl | rfl <;> rfl
    · rw [h3]
      rcases hk2 with rfl | rfl | rfl <;> rfl

theorem collapse_subset {l : List IssueConfig} {c : IssueConfig}
    (h : c ∈ collapse l) : c ∈ l := by
  unfold collapse at h
  simp only at h
  rcases List.mem_filterMap.mp h with ⟨s, hs, hgl⟩
  have hmem := List.mem_of_mem_getLast? hgl
  have hmem2 := (List.mem_filter.mp hmem).1
  exact (List.perm_insertionSort icLE l).mem_iff.mp hmem2

/-- The collapsed bucket retains at most one candidate per observation
second. -/
theorem collapse_sec_pairwise (l : List IssueConfig) :
    (collapse l).Pairwise (fun a b => secKey a ≠ secKey b) := by
  have hnodup : ((collapse l).map secKey).Nodup := by
    rw [collapse_seconds]
    exact (List.perm_insertionSort _ _).nodup_iff.mpr (List.nodup_dedup _)
  rw [List.Nodup, List.pairwise_map] at hnodup
  exact hnodup

theorem batchCandidates_mem {issues : List (Int × List IssueConfig)}
    {c : IssueConfig} (hc : c ∈ batchCandidates issues) :
    ∃ p ∈ issues, c ∈ p.2 := by
  induction issues with
  | nil => cases hc
  | cons q t ih =>
    rcases List.mem_append.mp hc with h | h
    · exact ⟨q, List.mem_cons_self q t, h⟩
    · obtain ⟨p, hp, hcp⟩ := ih h
      exact ⟨p, List.mem_cons_of_mem q hp, hcp⟩

/-- Bucket-keyed batches with distinct keys, key-consistent candidates and
per-bucket distinct observation instants yield pairwise key-distinct batch
candidates. -/
theorem batch_pairwise :
    ∀ (B : List (Int × List IssueConfig)),
    (B.map Prod.fst).Nodup →
    (∀ p ∈ B, ∀ c ∈ p.2, c.IssueID = p.1) →
    (∀ p ∈ B, p.2.Pairwise (fun a b => a.CreatedAt ≠ b.CreatedAt)) →
    (batchCandidates B).Pairwise
      (fun a b => a.IssueID ≠ b.IssueID ∨ a.CreatedAt ≠ b.CreatedAt) := by
  intro B
  induction B with
  | nil =>
    intro _ _ _
    exact List.Pairwise.nil
  | cons q t ih =>
    intro hkeys hiid hinner
    have hbc : batchCandidates (q :: t) = q.2 ++ batchCandidates t := rfl
    rw [hbc, List.pairwise_append]
    refine ⟨?_, ?_, ?_⟩
    · exact (hinner q (List.mem_cons_self q t)).imp (fun h => Or.inr h)
    · exact ih (by
          rw [List.map_cons, List.nodup_cons] at hkeys
          exact hkeys.2)
        (fun p hp => hiid p (List.mem_cons_of_mem q hp))
        (fun p hp => hinner p (List.mem_cons_of_mem q hp))
    · intro a ha b hb
      obtain ⟨p2, hp2, hbp2⟩ := batchCandidates_mem hb
      left
      rw [hiid q (List.mem_cons_self q t) a ha, hiid p2 (List.mem_cons_of_mem q hp2) b hbp2]
      rw [List.map_cons, List.nodup_cons] at hkeys
      intro hcon
      exact hkeys.1 (hcon ▸ List.mem_map.mpr ⟨p2, hp2, rfl⟩)

theorem lookupBatch_mem {B : List (Int × List IssueConfig)} {k : Int}
    {b : List IssueConfig} (h : lookupBatch B k = some b) : ∃ q ∈ B, q.2 = b := by
  unfold lookupBatch at h
  cases hf : B.find? (fun p => p.1 == k) with
  | none => rw [hf] at h; cases h
  | some q =>
    rw [hf] at h
    simp only [Option.map_some', Option.some.injEq] at h
    exact ⟨q, List.mem_of_find?_eq_some hf, h⟩

/-- C3 (amended, non-manual part): in non-manual mode, over a batch with
distinct bucket keys, key-consistent candidates, positive non-overflowing
event ids and pairwise distinct remote PR ids, a second run of
`SyncIssuesState` against the store produced by a successful first run leaves
the store unchanged and performs no write: both phases report zero bucket-0
and bucket-3 outcomes. -/
theorem claim3_idempotent
    {ctx : Ctx} {st0 st1 : Store} {issues : List (Int × List IssueConfig)}
    {prs : List (Int × GhPullRequest)} {B1 B2 : Buckets}
    (hskip : ctx.SkipPDB = false)
    (hkeys : (issues.map Prod.fst).Nodup)
    (hiid : ∀ p ∈ issues, ∀ c ∈ p.2, c.IssueID = p.1)
    (hbound : ∀ p ∈ issues, ∀ c ∈ p.2,
      0 < c.EventID ∧ c.EventID < 9223372036854775808 - p48)
    (hprids : prs.Pairwise (fun a b => a.2.ID ≠ b.2.ID))
    (h1 : SyncIssuesState ctx false st0 issues prs = .ok (st1, B1, B2)) :
    ∃ B1' B2', SyncIssuesState ctx false st1 issues prs = .ok (st1, B1', B2') ∧
      B1'.b0 = 0 ∧ B1'.b3 = 0 ∧ B2'.b0 = 0 ∧ B2'.b3 = 0 := by
  have hN : normalizeIssues false issues = issues.map (fun p => (p.1, collapse p.2)) := rfl
  have hkeysN : ((normalizeIssues false issues).map Prod.fst).Nodup := by
    have hmm : (normalizeIssues false issues).map Prod.fst = issues.map Prod.fst := by
      rw [hN, List.map_map]
      rfl
    rw [hmm]
    exact hkeys
  have hiidN : ∀ p ∈ normalizeIssues false issues, ∀ c ∈ p.2, c.IssueID = p.1 := by
    intro p hp c hc
    rw [hN] at hp
    obtain ⟨q, hq, rfl⟩ := List.mem_map.mp hp
    exact hiid q hq c (collapse_subset hc)
  have hboundN : ∀ p ∈ normalizeIssues false issues, ∀ c ∈ p.2,
      0 < c.EventID ∧ c.EventID < 9223372036854775808 - p48 := by
    intro p hp c hc
    rw [hN] at hp
    obtain ⟨q, hq, rfl⟩ := List.mem_map.mp hp
    exact hbound q hq c (collapse_subset hc)
  have hinnerN : ∀ p ∈ normalizeIssues false issues,
      p.2.Pairwise (fun a b => a.CreatedAt ≠ b.CreatedAt) := by
    intro p hp
    rw [hN] at hp
    obtain ⟨q, hq, rfl⟩ := List.mem_map.mp hp
    refine (collapse_sec_pairwise q.2).imp ?_
    intro a b hab hcon
    exact hab (by rw [secKey, secKey, hcon])
  have hdist := batch_pairwise (normalizeIssues false issues) hkeysN hiidN hinnerN
  have hbatchBound : ∀ c ∈ batchCandidates (normalizeIssues false issues),
      0 < c.EventID ∧ c.EventID < 9223372036854775808 - p48 := by
    intro c hc
    obtain ⟨p, hp, hcp⟩ := batchCandidates_mem hc
    exact hboundN p hp c hcp
  have hprBound : ∀ p ∈ prs, ∀ ic,
      ((lookupBatch (normalizeIssues false issues) p.1).getD []).getLast? = some ic →
      0 < ic.EventID ∧ ic.EventID < 9223372036854775808 - p48 := by
    intro p hp ic hic
    cases hlk : lookupBatch (normalizeIssues false issues) p.1 with
    | none =>
      rw [hlk] at hic
      cases hic
    | some b =>
      rw [hlk] at hic
      simp only [Option.getD_some] at hic
      obtain ⟨q, hq, rfl⟩ := lookupBatch_mem hlk
      exact hboundN q hq ic (List.mem_of_mem_getLast? hic)
  simp only [SyncIssuesState, bind, Except.bind] at h1
  cases hr1 : runIssuePhase ctx false st0
      (batchCandidates (normalizeIssues false issues)) with
  | error e => rw [hr1] at h1; cases h1
  | ok r1 =>
    rw [hr1] at h1
    obtain ⟨stMid, bI⟩ := r1
    dsimp only at h1
    cases hr2 : runPRPhase ctx false (normalizeIssues false issues) stMid prs with
    | error e => rw [hr2] at h1; cases h1
    | ok r2 =>
      rw [hr2] at h1
      obtain ⟨stF, bP⟩ := r2
      dsimp only at h1
      simp only [pure, Except.pure, Except.ok.injEq, Prod.mk.injEq] at h1
      obtain ⟨hstF, hbI, hbP⟩ := h1
      subst stF
      rw [runIssuePhase] at hr1
      rw [runPRPhase] at hr2
      obtain ⟨hPiss, Δi, Δl, Δa, hII, hLL, hAA, hkeysΔ, hsl, hsa⟩ :=
        issuePhase_post hskip (batchCandidates (normalizeIssues false issues))
          st0 zeroBuckets stMid bI hbatchBound hdist hr1
      obtain ⟨hPpr, Δp, Δpa, Δpr, hPP, hPA, hPR, hIIe, hLLe, hASe, hidsP, hsaP, hsrP⟩ :=
        prPhase_post hskip prs stMid zeroBuckets st1 bP hprBound hprids hr2
      have hPissF : ∀ c ∈ batchCandidates (normalizeIssues false issues),
          ∃ k2, (k2 = 1 ∨ k2 = 2) ∧ issueWorker ctx false st1 c = .ok (st1, k2) := by
        intro c hc
        obtain ⟨k2, hk2, hw⟩ := hPiss c hc
        refine ⟨k2, hk2, issueWorker_preserve hk2 hw ?_ ?_ ?_⟩
        · rw [hIIe]
        · intro e he
          rw [hLLe]
        · intro e he
          rw [hASe]
      obtain ⟨B1', hfold1, h10, h13⟩ := issuePhase_noop
        (batchCandidates (normalizeIssues false issues)) zeroBuckets hPissF
      obtain ⟨B2', hfold2, h20, h23⟩ := prPhase_noop prs zeroBuckets hPpr
      have hph1 : runIssuePhase ctx false st1
          (batchCandidates (normalizeIssues false issues)) = .ok (st1, B1') := hfold1
      have hph2 : runPRPhase ctx false (normalizeIssues false issues) st1 prs =
          .ok (st1, B2') := hfold2
      refine ⟨B1', B2', ?_, h10, h13, h20, h23⟩
      simp only [SyncIssuesState, bind, Except.bind, hph1, hph2, pure, Except.pure]

/-- A pre-existing plain `gha_issues` row for issue 1 observed at second 200
with real event id 10. -/
def c3row : GhIssueRow :=
  { id := 1, event_id := 10, updated_at := some 200000000000, assignee_id := none,
    closed_at := none, locked := some false, milestone_id := none, number := some 1,
    state := some strOpen, title := some strTitleA, user_id := none }

/-- A candidate for issue 1 observed at second 100 whose remote state diverges
from the stored row. -/
def c3cfg : IssueConfig :=
  { baseCfg with GhIssue := { baseIssue with State := some strClosed } }

def c3store : Store := { emptyStore with issues := [c3row] }

def c3issues : List (Int × List IssueConfig) := [(1, [c3cfg])]

def c3wStore : Store :=
  match SyncIssuesState ctxPlain false emptyStore [(1, [baseCfg])] [] with
  | .ok r => r.1
  | .error _ => emptyStore

/-- C3 counterexample (manual mode): against a store already holding a later
plain row for the same issue, the manual-mode divergence detector re-fires on
every run — the first run grows `gha_issues` from one row to two, and the
second run, fed the store the first run produced, writes again (three rows):
the orchestrator is not idempotent in manual mode. -/
theorem claim3_counterexample :
    c3store.issues.length = 1 ∧
    (SyncIssuesState ctxPlain true c3store c3issues []).map
      (fun r => r.1.issues.length) = .ok 2 ∧
    ((SyncIssuesState ctxPlain true c3store c3issues []).bind
      (fun r1 => SyncIssuesState ctxPlain true r1.1 c3issues [])).map
      (fun r2 => r2.1.issues.length) = .ok 3 :=
  ⟨rfl, rfl, rfl⟩

theorem claim3_idempotent_witness :
    ∃ B1' B2', SyncIssuesState ctxPlain false c3wStore [(1, [baseCfg])] [] =
        .ok (c3wStore, B1', B2') ∧
      B1'.b0 = 0 ∧ B1'.b3 = 0 ∧ B2'.b0 = 0 ∧ B2'.b3 = 0 := by
  have h1 : SyncIssuesState ctxPlain false emptyStore [(1, [baseCfg])] [] =
      .ok (c3wStore, ⟨1, 0, 0, 0, 0⟩, zeroBuckets) := rfl
  exact claim3_idempotent rfl (by decide) (by decide) (by decide)
    List.Pairwise.nil h1


end Devstats
